import Mathlib

/-!
# Folder index of the media library (`src/Folder.cpp`)

Shallow embedding of the `Folder` table, its trigger and foreign keys
(`Folder::createTable`), and of the operations `Folder::create`,
`Folder::blacklist`, `Folder::fromPath`, `Folder::path`, `Folder::files`,
`Folder::folders` and `Folder::fetchRootFolders`.

The database is a triple of tables kept as lists in table order. The listings
(`fetchAll`) return the matching rows in table order; a `SELECT` by path that fetches
one row is answered through the index of `UNIQUE(path, device_id)` and returns the
matching row with the smallest `device_id`. A fetched row is loaded
as a new object (`Folder::Folder( ml, row )`); the per-id object cache of
`DatabaseHelpers` is not represented in the folder index, the mountpoint cell of an
object is.

Four further components follow the folder index: the change notifier
(`utils/ModificationsNotifier.cpp`), the discovery scheduler
(`discoverer/DiscovererWorker.h`), the identity cache exercised by
`test/unittest/AlbumTrackTests.cpp`, and the modification date of a file
(`filesystem/win32/File.cpp`).
-/

namespace medialibrary

/-! ## Filesystem provider (external collaborator) -/

/-- Handle `fs::IDevice`: what `uuid()`, `isRemovable()` and `mountpoint()` return. -/
structure FsDevice where
  uuid : String
  isRemovable : Bool
  mountpoint : String
deriving DecidableEq, Repr

/-- Handle `fs::IDirectory`: what `path()` and `device()` return (`device()` may be null). -/
structure FsDirectory where
  path : String
  device : Option FsDevice
deriving DecidableEq, Repr

/-- Handle `factory::IFileSystem`: `createDirectory(path)` and `createDevice(uuid)`,
each of which may return null. -/
structure FsFactory where
  createDirectory : String → Option FsDirectory
  createDevice : String → Option FsDevice

/-- The parts of `MediaLibrary` that `Folder.cpp` calls and that are not database
accesses: `fsFactoryForPath` (may return null) and the helper
`utils::file::removePath( fullPath, toRemove )`, whose body is in
`utils/Filename.cpp` and is taken as a parameter. -/
structure MediaLibrary where
  fsFactoryForPath : String → Option FsFactory
  removePath : String → String → String

/-! ## Tables -/

/-- Row of the `Device` table: `id_device`, `uuid`, `is_removable`, `is_present`. -/
structure DeviceRow where
  id : Nat
  uuid : String
  isRemovable : Bool
  isPresent : Bool
deriving DecidableEq, Repr

/-- Row of the `Folder` table, in the column order of `Folder::createTable`:
`id_folder`, `path`, `parent_id` (NULL is `none`), `is_blacklisted`, `device_id`,
`is_present`, `is_removable`. -/
structure FolderRow where
  id : Nat
  path : String
  parent : Option Nat
  isBlacklisted : Bool
  deviceId : Nat
  isPresent : Bool
  isRemovable : Bool
deriving DecidableEq, Repr

/-- Row of the `File` table, reduced to the columns `Folder.cpp` reads:
the primary key and `folder_id` (queried by `Folder::files`). -/
structure FileRow where
  id : Nat
  folderId : Nat
deriving DecidableEq, Repr

/-- Persisted state: the three tables in table order and the `AUTOINCREMENT`
counters (`sqlite_sequence`) of the `Device` and `Folder` tables. -/
structure Db where
  devices : List DeviceRow
  folders : List FolderRow
  files : List FileRow
  deviceSeq : Nat
  folderSeq : Nat
deriving DecidableEq, Repr

/-- The database right after the tables were created. -/
def Db.empty : Db := ⟨[], [], [], 0, 0⟩

/-! ## Device registry -/

/-- Largest `id_device` of the table (0 when it is empty). -/
def maxDeviceId (rows : List DeviceRow) : Nat :=
  rows.foldr (fun r m => max r.id m) 0

/-- Largest `id_folder` of the table (0 when it is empty). -/
def maxFolderId (rows : List FolderRow) : Nat :=
  rows.foldr (fun r m => max r.id m) 0

/-- Modelled from the spec: `Device::fromUuid` (body in `Device.cpp`), the Device
Registry lookup `fromUuid(uuid) -> Device | NotFound`: the first device row with
that uuid. -/
def Device.fromUuid (db : Db) (uuid : String) : Option DeviceRow :=
  db.devices.find? (fun d => decide (d.uuid = uuid))

/-- Modelled from the spec: `Device::fetch( ml, id )` (body in `Device.cpp`), the
Identity Cache lookup `fetch(id) -> handle | NotFound` on the `Device` table. -/
def Device.fetch (db : Db) (id : Nat) : Option DeviceRow :=
  db.devices.find? (fun d => decide (d.id = id))

/-- Modelled from the spec: `Device::create( ml, uuid, isRemovable )` (body in
`Device.cpp`), the Device Registry operation `create(uuid, isRemovable) -> Device`.
The uuid is the identity key, so a second device with a registered uuid is refused
(null); otherwise a row with a fresh `AUTOINCREMENT` id is appended, present. -/
def Device.create (db : Db) (uuid : String) (isRemovable : Bool) : Option DeviceRow × Db :=
  if db.devices.any (fun d => decide (d.uuid = uuid)) then (none, db)
  else
    let id := max db.deviceSeq (maxDeviceId db.devices) + 1
    let row : DeviceRow := ⟨id, uuid, isRemovable, true⟩
    (some row, { db with devices := db.devices ++ [row], deviceSeq := id })

/-- Trigger `is_device_present` of `Folder::createTable`, run for one updated
device row: `UPDATE Folder SET is_present = new.is_present WHERE device_id = new.id_device`. -/
def isDevicePresentTrigger (folders : List FolderRow) (deviceId : Nat) (present : Bool) :
    List FolderRow :=
  folders.map (fun f => if f.deviceId = deviceId then { f with isPresent := present } else f)

/-- Modelled from the spec: `setPresence` of the Device Registry (body in
`Device.cpp`): `UPDATE Device SET is_present = ? WHERE id_device = ?`. The trigger
of `Folder::createTable` runs after the update of each device row, so it runs only
when a device row has that id. -/
def Device.setPresent (db : Db) (deviceId : Nat) (present : Bool) : Db :=
  if db.devices.any (fun d => decide (d.id = deviceId)) then
    { db with
      devices := db.devices.map
        (fun d => if d.id = deviceId then { d with isPresent := present } else d)
      folders := isDevicePresentTrigger db.folders deviceId present }
  else db

/-! ## Folder records in memory -/

/-- The filter `BannedType` of `Folder::fromPath`. -/
inductive BannedType where
  | Yes
  | No
  | Any
deriving DecidableEq, Repr

/-- The fields of a `Folder` object: the seven columns, the cell
`m_deviceMountpoint` (`none` while `isCached()` is false) and `m_fullPath`. -/
structure Folder where
  m_id : Nat
  m_path : String
  m_parent : Nat
  m_isBlacklisted : Bool
  m_deviceId : Nat
  m_isPresent : Bool
  m_isRemovable : Bool
  m_deviceMountpoint : Option String
  m_fullPath : String
deriving DecidableEq, Repr

/-- Constructor `Folder::Folder( ml, row )`: the columns are read in order, a NULL
`parent_id` reads as 0; the mountpoint cell starts empty. -/
def Folder.ofRow (r : FolderRow) : Folder :=
  { m_id := r.id, m_path := r.path, m_parent := r.parent.getD 0,
    m_isBlacklisted := r.isBlacklisted, m_deviceId := r.deviceId,
    m_isPresent := r.isPresent, m_isRemovable := r.isRemovable,
    m_deviceMountpoint := none, m_fullPath := "" }

/-- Binding `sqlite::ForeignKey( id )`: 0 is bound as NULL. -/
def foreignKey (id : Nat) : Option Nat :=
  if id = 0 then none else some id

/-! ## Storage operations on the Folder table -/

/-- `INSERT INTO Folder(path, parent_id, is_blacklisted, device_id, is_removable)`:
returns the new row id, or 0 when the statement fails. It fails on the constraint
`UNIQUE(path, device_id) ON CONFLICT FAIL` and on the two foreign keys (a non-NULL
`parent_id` must name a folder row, `device_id` a device row). `is_present` takes
its default 1; the id is `AUTOINCREMENT`. -/
def insertFolderRow (db : Db) (path : String) (parent : Option Nat) (isBlacklisted : Bool)
    (deviceId : Nat) (isRemovable : Bool) : Nat × Db :=
  if db.folders.any (fun r => decide (r.path = path) && decide (r.deviceId = deviceId)) then (0, db)
  else if !(db.devices.any (fun d => decide (d.id = deviceId))) then (0, db)
  else if (match parent with
      | some p => !(db.folders.any (fun r => decide (r.id = p)))
      | none => false) then (0, db)
  else
    let id := max db.folderSeq (maxFolderId db.folders) + 1
    let row : FolderRow := ⟨id, path, parent, isBlacklisted, deviceId, true, isRemovable⟩
    (id, { db with folders := db.folders ++ [row], folderSeq := id })

/-- The limit `SQLITE_MAX_TRIGGER_DEPTH` of the storage engine, at its default: the
actions of a foreign key nest at most 1000 levels deep. -/
def maxTriggerDepth : Nat := 1000

/-- The cascade of `FOREIGN KEY (parent_id) ... ON DELETE CASCADE` that deletes the
row `id`, with `budget` nesting levels left and the ids of `dead` already deleted.
The row is deleted; then the rows whose parent it is are visited in table order and
each one that is still stored is deleted in the same way, one level deeper. When no
level is left, the engine stops the statement with `too many levels of trigger
recursion`: the second component is false and nothing more is deleted. Inside the
transaction of `Folder::blacklist` the rows deleted so far stay deleted. -/
def cascadeDelete : Nat → List FolderRow → Nat → List Nat → List Nat × Bool
  | 0, _, id, dead => (dead ++ [id], false)
  | budget + 1, rows, id, dead =>
    (rows.filter (fun r => r.parent == some id)).foldl
      (fun acc child =>
        if acc.2 && !(acc.1.contains child.id) then cascadeDelete budget rows child.id acc.1
        else acc)
      (dead ++ [id], true)

/-- Modelled from the spec: the `File` table (its schema is in `File.cpp`) refers to
the folder of a file with `ON DELETE CASCADE`: the files of every deleted folder are
deleted. -/
def cascadeFiles (files : List FileRow) (dead : List Nat) : List FileRow :=
  files.filter (fun x => !(dead.contains x.folderId))

/-- `DatabaseHelpers::destroy( ml, id )` on the Folder table:
`DELETE FROM Folder WHERE id_folder = ?`, with the cascade of
`FOREIGN KEY (parent_id) ... ON DELETE CASCADE` over the descendant folders, as far as
the engine follows it, and the cascade over the files of every deleted folder. -/
def Folder.destroy (db : Db) (id : Nat) : Db :=
  if db.folders.any (fun r => decide (r.id = id)) then
    let dead := (cascadeDelete maxTriggerDepth db.folders id []).1
    { db with
      folders := db.folders.filter (fun r => !(dead.contains r.id))
      files := cascadeFiles db.files dead }
  else db

/-- The order of the index of `UNIQUE(path, device_id)` among rows stored under one
path: by `device_id`, then by row id. -/
def indexBefore (a b : FolderRow) : Bool :=
  decide (a.deviceId < b.deviceId) ||
    (decide (a.deviceId = b.deviceId) && decide (a.id ≤ b.id))

/-- The first of the rows in the order of the index. -/
def firstInIndex : List FolderRow → Option FolderRow
  | [] => none
  | r :: rest =>
    match firstInIndex rest with
    | none => some r
    | some m => if indexBefore r m then some r else some m

/-- `fetch( ml, req, args... )` for the `SELECT * FROM Folder WHERE path = ? ...` of
`Folder::fromPath`: the statement has no `ORDER BY` and the engine answers it through
the index of `UNIQUE(path, device_id)`, so of the rows that satisfy the condition the
one with the smallest `device_id` comes first; it is loaded as an object. -/
def Folder.fetch (db : Db) (cond : FolderRow → Bool) : Option Folder :=
  (firstInIndex (db.folders.filter cond)).map Folder.ofRow

/-! ## Operations of `Folder.cpp` -/

/-- `Folder::create`: the stored path is `removePath( fullPath, mountpoint )` on a
removable device and `fullPath` otherwise; null when the insert fails; on a
removable device the mountpoint cell and `m_fullPath` are filled. -/
def Folder.create (ml : MediaLibrary) (db : Db) (fullPath : String) (parentId : Nat)
    (device : DeviceRow) (deviceFs : FsDevice) : Option Folder × Db :=
  let path := if device.isRemovable then ml.removePath fullPath deviceFs.mountpoint else fullPath
  let ins := insertFolderRow db path (foreignKey parentId) false device.id device.isRemovable
  if ins.1 = 0 then (none, db)
  else
    let self : Folder :=
      { m_id := ins.1, m_path := path, m_parent := parentId, m_isBlacklisted := false,
        m_deviceId := device.id, m_isPresent := true, m_isRemovable := device.isRemovable,
        m_deviceMountpoint := none, m_fullPath := "" }
    if device.isRemovable then
      (some { self with m_deviceMountpoint := some deviceFs.mountpoint,
                        m_fullPath := deviceFs.mountpoint ++ path }, ins.2)
    else (some self, ins.2)

/-- `Folder::fromPath( ml, fullPath, bannedType )`. -/
def Folder.fromPath (ml : MediaLibrary) (db : Db) (fullPath : String) (bannedType : BannedType) :
    Option Folder :=
  match ml.fsFactoryForPath fullPath with
  | none => none
  | some fsFactory =>
    match fsFactory.createDirectory fullPath with
    | none => none
    | some folderFs =>
      match folderFs.device with
      | none => none
      | some deviceFs =>
        if deviceFs.isRemovable = false then
          if bannedType = BannedType.Any then
            Folder.fetch db (fun r => decide (r.path = folderFs.path) && !r.isRemovable)
          else
            Folder.fetch db (fun r => decide (r.path = folderFs.path) && !r.isRemovable &&
              (r.isBlacklisted == decide (bannedType = BannedType.Yes)))
        else
          match Device.fromUuid db deviceFs.uuid with
          | none => none
          | some device =>
            let path := ml.removePath folderFs.path deviceFs.mountpoint
            let folder :=
              if bannedType = BannedType.Any then
                Folder.fetch db (fun r => decide (r.path = path) && decide (r.deviceId = device.id))
              else
                Folder.fetch db (fun r => decide (r.path = path) && decide (r.deviceId = device.id) &&
                  (r.isBlacklisted == decide (bannedType = BannedType.Yes)))
            match folder with
            | none => none
            | some folder =>
              some { folder with m_deviceMountpoint := some deviceFs.mountpoint,
                                 m_fullPath := deviceFs.mountpoint ++ path }

/-- Ways in which `Folder.cpp` leaves defined behaviour. -/
inductive Fault where
  | nullDeviceFs
  | nullDevice
  | fsFactoryAssert
deriving DecidableEq, Repr

/-- Lines 126 to 133 of `Folder::blacklist`: the folder found by the lookup, when
there is one (and it is not a ban record), is destroyed. -/
def Folder.destroyFound (db : Db) (f : Option Folder) : Db :=
  match f with
  | some x => Folder.destroy db x.m_id
  | none => db

/-- Lines 141 to 143 of `Folder::blacklist`: `Device::fromUuid`, and `Device::create`
when the uuid is not registered. -/
def Device.fromUuidOrCreate (db : Db) (deviceFs : FsDevice) : Option DeviceRow × Db :=
  match Device.fromUuid db deviceFs.uuid with
  | some d => (some d, db)
  | none => Device.create db deviceFs.uuid deviceFs.isRemovable

/-- `Folder::blacklist( ml, fullPath )`. The result is the returned boolean and the
database as the transaction leaves it: the state at `t->commit()`, or the state
before the call when the function returns without committing. A fault stands for
a call through a null pointer (`deviceFs->uuid()`, `device->id()`). -/
def Folder.blacklist (ml : MediaLibrary) (db : Db) (fullPath : String) : Except Fault (Bool × Db) :=
  let f := Folder.fromPath ml db fullPath BannedType.Any
  if f.map (fun x => x.m_isBlacklisted) = some true then .ok (true, db)
  else
    let db1 := Folder.destroyFound db f
    match ml.fsFactoryForPath fullPath with
    | none => .ok (false, db)
    | some fsFactory =>
      match fsFactory.createDirectory fullPath with
      | none => .ok (false, db)
      | some folderFs =>
        match folderFs.device with
        | none => .error Fault.nullDeviceFs
        | some deviceFs =>
          let found := Device.fromUuidOrCreate db1 deviceFs
          match found.1 with
          | none => .error Fault.nullDevice
          | some device =>
            let path := if deviceFs.isRemovable then ml.removePath fullPath deviceFs.mountpoint
              else fullPath
            let ins := insertFolderRow found.2 path none true device.id deviceFs.isRemovable
            .ok (ins.1 != 0, ins.2)

/-- A call made to the filesystem provider. -/
inductive ProviderCall where
  | fsFactoryForPath (path : String)
  | createDevice (uuid : String)
  | mountpoint (uuid : String)
deriving DecidableEq, Repr

/-- What a call of `Folder::path()` yields: the returned string, the object after
the call (the mountpoint cell and `m_fullPath` are mutable) and the provider calls
made, in order. -/
structure PathResult where
  value : String
  self : Folder
  providerCalls : List ProviderCall
deriving DecidableEq, Repr

/-- `Folder::path()`. A fault stands for the failed `assert( fsFactory != nullptr )`
or a call through a null pointer (`device->uuid()`, `deviceFs->mountpoint()`). -/
def Folder.path (ml : MediaLibrary) (db : Db) (self : Folder) : Except Fault PathResult :=
  if self.m_isRemovable = false then .ok ⟨self.m_path, self, []⟩
  else
    match self.m_deviceMountpoint with
    | some _ => .ok ⟨self.m_fullPath, self, []⟩
    | none =>
      let device := Device.fetch db self.m_deviceId
      match ml.fsFactoryForPath self.m_fullPath with
      | none => .error Fault.fsFactoryAssert
      | some fsFactory =>
        match device with
        | none => .error Fault.nullDevice
        | some d =>
          match fsFactory.createDevice d.uuid with
          | none => .error Fault.nullDeviceFs
          | some deviceFs =>
            .ok ⟨deviceFs.mountpoint ++ self.m_path,
              { self with m_deviceMountpoint := some deviceFs.mountpoint,
                          m_fullPath := deviceFs.mountpoint ++ self.m_path },
              [ProviderCall.fsFactoryForPath self.m_fullPath, ProviderCall.createDevice d.uuid,
               ProviderCall.mountpoint d.uuid]⟩

/-- `Folder::files()`: `SELECT * FROM File WHERE folder_id = ?`. -/
def Folder.files (db : Db) (self : Folder) : List FileRow :=
  db.files.filter (fun x => decide (x.folderId = self.m_id))

/-- `Folder::folders()`:
`SELECT * FROM Folder WHERE parent_id = ? AND is_blacklisted = 0 AND is_present = 1`. -/
def Folder.folders (db : Db) (self : Folder) : List Folder :=
  (db.folders.filter (fun r => decide (r.parent = some self.m_id) && !r.isBlacklisted &&
    r.isPresent)).map Folder.ofRow

/-- `Folder::fetchRootFolders`:
`SELECT * FROM Folder WHERE parent_id IS NULL AND is_blacklisted = 0 AND is_present = 1`. -/
def Folder.fetchRootFolders (db : Db) : List Folder :=
  (db.folders.filter (fun r => decide (r.parent = none) && !r.isBlacklisted &&
    r.isPresent)).map Folder.ofRow

/-- Successive calls of `Folder::path()` on one object, the i-th call under the
i-th provider and database state: the strings returned, the provider calls made by
all of them, and the object after the last call. -/
def Folder.pathRepeat (self : Folder) :
    List (MediaLibrary × Db) → Except Fault (List String × List ProviderCall × Folder)
  | [] => .ok ([], [], self)
  | (ml, db) :: rest =>
    match Folder.path ml db self with
    | .error e => .error e
    | .ok r =>
      match Folder.pathRepeat r.self rest with
      | .error e => .error e
      | .ok out => .ok (r.value :: out.1, r.providerCalls ++ out.2.1, out.2.2)

/-! ## Reachable states -/

/-- The states reachable from the empty database by device creation, device
presence updates, `Folder::create` and `Folder::blacklist`, under any provider and
with any arguments. -/
inductive Reachable : Db → Prop
  | init : Reachable Db.empty
  | deviceCreate {db : Db} (uuid : String) (isRemovable : Bool) :
      Reachable db → Reachable (Device.create db uuid isRemovable).2
  | setPresent {db : Db} (deviceId : Nat) (present : Bool) :
      Reachable db → Reachable (Device.setPresent db deviceId present)
  | folderCreate {db : Db} (ml : MediaLibrary) (fullPath : String) (parentId : Nat)
      (device : DeviceRow) (deviceFs : FsDevice) :
      Reachable db → Reachable (Folder.create ml db fullPath parentId device deviceFs).2
  | blacklist {db : Db} (ml : MediaLibrary) (fullPath : String) (res : Bool) (db' : Db) :
      Reachable db → Folder.blacklist ml db fullPath = .ok (res, db') → Reachable db'

/-- The device that `Folder::blacklist( ml, fullPath )` would attach the ban record
to is not registered as absent: every registered device with the uuid of the
directory's device is present. -/
def BanTargetPresent (ml : MediaLibrary) (db : Db) (fullPath : String) : Prop :=
  ∀ fac dir dfs, ml.fsFactoryForPath fullPath = some fac →
    fac.createDirectory fullPath = some dir → dir.device = some dfs →
    ∀ d ∈ db.devices, d.uuid = dfs.uuid → d.isPresent = true

/-- The states reachable as in `Reachable`, with `Folder::create` and
`Folder::blacklist` applied only while the device they insert a row for is marked
present. -/
inductive ReachableWhilePresent : Db → Prop
  | init : ReachableWhilePresent Db.empty
  | deviceCreate {db : Db} (uuid : String) (isRemovable : Bool) :
      ReachableWhilePresent db → ReachableWhilePresent (Device.create db uuid isRemovable).2
  | setPresent {db : Db} (deviceId : Nat) (present : Bool) :
      ReachableWhilePresent db → ReachableWhilePresent (Device.setPresent db deviceId present)
  | folderCreate {db : Db} (ml : MediaLibrary) (fullPath : String) (parentId : Nat)
      (device : DeviceRow) (deviceFs : FsDevice) :
      ReachableWhilePresent db → (∀ d ∈ db.devices, d.id = device.id → d.isPresent = true) →
      ReachableWhilePresent (Folder.create ml db fullPath parentId device deviceFs).2
  | blacklist {db : Db} (ml : MediaLibrary) (fullPath : String) (res : Bool) (db' : Db) :
      ReachableWhilePresent db → BanTargetPresent ml db fullPath →
      Folder.blacklist ml db fullPath = .ok (res, db') → ReachableWhilePresent db'

/-- The row that the `INSERT` of `Folder::blacklist` appends to the database `db`:
a fresh `AUTOINCREMENT` id, no parent, `is_blacklisted = 1`, `is_present` at its
default 1. -/
def banRecord (db : Db) (path : String) (deviceId : Nat) (isRemovable : Bool) : FolderRow :=
  ⟨max db.folderSeq (maxFolderId db.folders) + 1, path, none, true, deviceId, true, isRemovable⟩

/-- The folder rows of the subtree rooted at the row with id `root`: that row and,
transitively through `parent_id`, every row whose parent is in the subtree. -/
inductive InSubtree (rows : List FolderRow) (root : Nat) : FolderRow → Prop
  | root (r : FolderRow) : r ∈ rows → r.id = root → InSubtree rows root r
  | child (r q : FolderRow) : r ∈ rows → InSubtree rows root q → r.parent = some q.id →
      InSubtree rows root r

/-- The presence invariant with the two schema facts it rests on: device ids are
unique (primary key), every folder row names a registered device (foreign key), and
the `is_present` of a folder row is that of every device row with its `device_id`. -/
def Db.Mirrored (db : Db) : Prop :=
  (∀ d1 ∈ db.devices, ∀ d2 ∈ db.devices, d1.id = d2.id → d1 = d2) ∧
  (∀ f ∈ db.folders, ∃ d ∈ db.devices, d.id = f.deviceId) ∧
  (∀ f ∈ db.folders, ∀ d ∈ db.devices, d.id = f.deviceId → f.isPresent = d.isPresent)

/-! ## Scenarios used to instantiate the theorems -/

namespace Scenario

/-- A `removePath` for the scenarios: drops as many characters as `toRemove` has. -/
def dropPrefix (fullPath toRemove : String) : String :=
  String.mk (fullPath.data.drop toRemove.data.length)

/-- A removable device, seen mounted at `mountpoint`. -/
def usb (mountpoint : String) : FsDevice := ⟨"usb-1", true, mountpoint⟩

/-- A provider whose every directory lies on the device `usb mountpoint`. -/
def usbFactory (mountpoint : String) : FsFactory :=
  { createDirectory := fun p => some ⟨p, some (usb mountpoint)⟩
    createDevice := fun u => if u = "usb-1" then some (usb mountpoint) else none }

/-- The library over `usbFactory mountpoint`. -/
def usbLibrary (mountpoint : String) : MediaLibrary :=
  ⟨fun _ => some (usbFactory mountpoint), dropPrefix⟩

/-- The device `usb-1` registered, with the folder `music/` on it. -/
def usbDb : Db :=
  ⟨[⟨1, "usb-1", true, true⟩], [⟨1, "music/", none, false, 1, true, true⟩], [], 1, 1⟩

/-- The object that `Folder::fromPath` returns for `/mnt/usb/music/` while the
device is mounted at `/mnt/usb/`. -/
def usbMusic : Folder :=
  { m_id := 1, m_path := "music/", m_parent := 0, m_isBlacklisted := false, m_deviceId := 1,
    m_isPresent := true, m_isRemovable := true, m_deviceMountpoint := some "/mnt/usb/",
    m_fullPath := "/mnt/usb/music/" }

/-- A fixed disk `dev-1`. -/
def disk : FsDevice := ⟨"dev-1", false, "/"⟩

/-- A provider whose every directory lies on `disk` and reports the path it was
asked for. -/
def diskFactory : FsFactory :=
  { createDirectory := fun p => some ⟨p, some disk⟩
    createDevice := fun u => if u = "dev-1" then some disk else none }

/-- The library over `diskFactory`. -/
def diskLibrary : MediaLibrary := ⟨fun _ => some diskFactory, dropPrefix⟩

/-- Two devices, a fixed disk and a removable one, each with a root folder and a
subfolder; the removable device also holds a ban record. -/
def twoDevicesDb : Db :=
  ⟨[⟨1, "dev-1", false, true⟩, ⟨2, "usb-1", true, true⟩],
   [⟨1, "/music", none, false, 1, true, false⟩,
    ⟨2, "/music/rock", some 1, false, 1, true, false⟩,
    ⟨3, "music/", none, false, 2, true, true⟩,
    ⟨4, "music/jazz/", some 3, false, 2, true, true⟩,
    ⟨5, "private/", none, true, 2, true, true⟩],
   [⟨1, 2⟩, ⟨2, 4⟩], 2, 5⟩

/-- The fixed disk registered and present, with the live folder `/music` and the
ban record of `/videos`. -/
def diskDb : Db :=
  ⟨[⟨1, "dev-1", false, true⟩],
   [⟨1, "/music", none, false, 1, true, false⟩, ⟨2, "/videos", none, true, 1, true, false⟩],
   [], 1, 2⟩

/-- The fixed disk marked absent before `/music` was created and `/videos` banned:
both rows carry the default `is_present = 1`. -/
def absentDiskDb : Db :=
  ⟨[⟨1, "dev-1", false, false⟩],
   [⟨1, "/music", none, false, 1, true, false⟩, ⟨2, "/videos", none, true, 1, true, false⟩],
   [], 1, 2⟩

/-- The path with a trailing separator, as a provider that normalises directory
paths reports it. -/
def withSlash (p : String) : String :=
  if p.data.getLast? = some '/' then p else p ++ "/"

/-- A provider on the fixed disk whose directories report their path with a
trailing separator. -/
def slashFactory : FsFactory :=
  { createDirectory := fun p => some ⟨withSlash p, some disk⟩
    createDevice := fun u => if u = "dev-1" then some disk else none }

/-- The library over `slashFactory`. -/
def slashLibrary : MediaLibrary := ⟨fun _ => some slashFactory, dropPrefix⟩

/-- The state `diskDb` after `ban("/music")`. -/
def bannedMusicDb : Db :=
  ⟨[⟨1, "dev-1", false, true⟩],
   [⟨2, "/videos", none, true, 1, true, false⟩, ⟨3, "/music", none, true, 1, true, false⟩],
   [], 1, 3⟩

/-- The state reached over `slashLibrary` by `ban("/music")` on the empty library
(the ban record is stored as `/music`), followed by the creation of the folders that
a discovery of the same directory stores under the reported paths `/music/` and
`/music/rock/`. -/
def rebanDb : Db :=
  ⟨[⟨1, "dev-1", false, true⟩],
   [⟨1, "/music", none, true, 1, true, false⟩,
    ⟨2, "/music/", none, false, 1, true, false⟩,
    ⟨3, "/music/rock/", some 2, false, 1, true, false⟩],
   [], 1, 3⟩

/-- Three fixed disks; `dev-1` and `dev-2` hold a live folder stored under `/music`
each, the one of `dev-1` with a subfolder; `dev-3` holds no folder. -/
def threeDisksTreeDb : Db :=
  ⟨[⟨1, "dev-1", false, true⟩, ⟨2, "dev-2", false, true⟩, ⟨3, "dev-3", false, true⟩],
   [⟨1, "/music", none, false, 1, true, false⟩,
    ⟨2, "/music/rock", some 1, false, 1, true, false⟩,
    ⟨3, "/music", none, false, 2, true, false⟩],
   [], 3, 3⟩

/-- The fixed disk `dev-3`. -/
def thirdDisk : FsDevice := ⟨"dev-3", false, "/"⟩

/-- A provider whose every directory lies on `thirdDisk` and reports the path it was
asked for. -/
def thirdDiskFactory : FsFactory :=
  { createDirectory := fun p => some ⟨p, some thirdDisk⟩
    createDevice := fun u => if u = "dev-3" then some thirdDisk else none }

/-- The library over `thirdDiskFactory`. -/
def thirdDiskLibrary : MediaLibrary := ⟨fun _ => some thirdDiskFactory, dropPrefix⟩

/-- The fixed disk with the tree `/music`, `/music/rock`, `/music/rock/live`, the
folder `/videos`, and one file in each of `/music/rock/live` and `/videos`. -/
def treeDb : Db :=
  ⟨[⟨1, "dev-1", false, true⟩],
   [⟨1, "/music", none, false, 1, true, false⟩,
    ⟨2, "/music/rock", some 1, false, 1, true, false⟩,
    ⟨3, "/music/rock/live", some 2, false, 1, true, false⟩,
    ⟨4, "/videos", none, false, 1, true, false⟩],
   [⟨1, 3⟩, ⟨2, 4⟩], 1, 4⟩

/-- The state `treeDb` after `ban("/music")`. -/
def treeBannedDb : Db :=
  ⟨[⟨1, "dev-1", false, true⟩],
   [⟨4, "/videos", none, false, 1, true, false⟩, ⟨5, "/music", none, true, 1, true, false⟩],
   [⟨2, 4⟩], 1, 5⟩

/-- Two fixed disks, each with a live folder stored under the path `/music`. -/
def twoDisksDb : Db :=
  ⟨[⟨1, "dev-1", false, true⟩, ⟨2, "dev-2", false, true⟩],
   [⟨1, "/music", none, false, 1, true, false⟩, ⟨2, "/music", none, false, 2, true, false⟩],
   [], 2, 2⟩

end Scenario

namespace Scenario

/-- A library that finds no filesystem factory for any path. -/
def noFactoryLibrary : MediaLibrary := ⟨fun _ => none, dropPrefix⟩

/-- A provider that knows no device by uuid (the removable device is unplugged) and
creates no directory handle. -/
def unpluggedFactory : FsFactory :=
  { createDirectory := fun _ => none
    createDevice := fun _ => none }

/-- The library over `unpluggedFactory`. -/
def unpluggedLibrary : MediaLibrary := ⟨fun _ => some unpluggedFactory, dropPrefix⟩

/-- A provider whose directory handles report no device handle. -/
def orphanFactory : FsFactory :=
  { createDirectory := fun p => some ⟨p, none⟩
    createDevice := fun _ => none }

/-- The library over `orphanFactory`. -/
def orphanLibrary : MediaLibrary := ⟨fun _ => some orphanFactory, dropPrefix⟩

/-- The folder `music/` of the removable device, loaded from its row: the mountpoint
cell is empty. -/
def usbMusicUnresolved : Folder := Folder.ofRow ⟨1, "music/", none, false, 1, true, true⟩

end Scenario

/-! ## Change notifier (`utils/ModificationsNotifier.cpp`)

`ModificationNotifier::run`, the destructor, `start` and the six `notify...`
entry points are in `ModificationsNotifier.cpp`; the struct `Queue<T>` and the
helper templates `notifyCreation`, `notifyModification`, `notifyRemoval`,
`checkQueue` and `notify` they call are in `ModificationsNotifier.h`. Entities are
represented by their ids, time points by natural numbers, `ZeroTimeout` by 0. Each
critical section of the notifier is one atomic step. -/

/-- Modelled from the spec: the struct `Queue<T>` of `ModificationsNotifier.h`, the
pending change batch of one entity type: the ordered sets of added, modified and
removed ids accumulated between flushes, and the flush deadline of the batch
(0, `ZeroTimeout`, while none is armed). -/
structure Queue where
  added : List Nat
  modified : List Nat
  removed : List Nat
  timeout : Nat
deriving DecidableEq, Repr

/-- A batch with no event and no deadline. -/
def Queue.empty : Queue := ⟨[], [], [], 0⟩

/-- A call made to the observer `IMediaLibraryCb`, with the collection passed. -/
inductive Callback where
  | onMediaAdded (media : List Nat)
  | onMediaUpdated (media : List Nat)
  | onMediaDeleted (ids : List Nat)
  | onArtistsAdded (artists : List Nat)
  | onArtistsModified (artists : List Nat)
  | onArtistsDeleted (ids : List Nat)
deriving DecidableEq, Repr

/-- The collection a callback was invoked with. -/
def Callback.payload : Callback → List Nat
  | .onMediaAdded l => l
  | .onMediaUpdated l => l
  | .onMediaDeleted l => l
  | .onArtistsAdded l => l
  | .onArtistsModified l => l
  | .onArtistsDeleted l => l

/-- The fields of `ModificationNotifier`: the stop flag, the wake-up time of the
notifier thread (`m_timeout`, 0 for `ZeroTimeout`), the two pending batches, and
whether the notifier thread is running (started, `run()` not yet returned). -/
structure ModificationNotifier where
  m_stop : Bool
  m_timeout : Nat
  m_media : Queue
  m_artists : Queue
  threadRunning : Bool
deriving DecidableEq, Repr

/-- Modelled from the spec: the arming of the flush deadline in the helpers of
`ModificationsNotifier.h`: the first event after an idle period arms the deadline at
`now + window`, later events before the deadline do not push it further. -/
def Queue.arm (q : Queue) (now window : Nat) : Queue :=
  if q.timeout = 0 then { q with timeout := now + window } else q

/-- Modelled from the spec: the batch side of the helper `notifyCreation`
(`ModificationsNotifier.h`): the id joins the ordered set of added ids, once. -/
def Queue.notifyCreation (q : Queue) (id now window : Nat) : Queue :=
  Queue.arm (if id ∈ q.added then q else { q with added := q.added ++ [id] }) now window

/-- Modelled from the spec: the batch side of the helper `notifyModification`
(`ModificationsNotifier.h`): an entity created in the same window stays reported
once, as added; otherwise the id joins the ordered set of modified ids, once. -/
def Queue.notifyModification (q : Queue) (id now window : Nat) : Queue :=
  Queue.arm (if id ∈ q.added ∨ id ∈ q.modified then q
    else { q with modified := q.modified ++ [id] }) now window

/-- Modelled from the spec: the batch side of the helper `notifyRemoval`
(`ModificationsNotifier.h`): a removal cancels a pending add or modify of the id; for
an entity created in the same window nothing is left (net zero), for an entity that
existed before the window the id joins the ordered set of removed ids, once. -/
def Queue.notifyRemoval (q : Queue) (id now window : Nat) : Queue :=
  Queue.arm (if id ∈ q.added then
      { q with added := q.added.erase id, modified := q.modified.erase id }
    else if id ∈ q.removed then { q with modified := q.modified.erase id }
    else { q with modified := q.modified.erase id, removed := q.removed ++ [id] }) now window

/-- Modelled from the spec: the notifier side of the three helpers
(`ModificationsNotifier.h`), run under `m_lock` after the batch was updated: when no
wake-up is scheduled, the notifier thread is scheduled for the deadline of the
batch. -/
def scheduleWakeUp (m_timeout : Nat) (q : Queue) : Nat :=
  if m_timeout = 0 then q.timeout else m_timeout

/-- What `checkQueue( input, output, nextTimeout, now )` leaves in its three
reference arguments. -/
structure CheckedQueue where
  input : Queue
  output : Queue
  nextTimeout : Nat
deriving DecidableEq, Repr

/-- Modelled from the spec: the helper `checkQueue` (`ModificationsNotifier.h`): a
batch whose deadline is reached is swapped out for an empty one; a batch whose
deadline is still ahead stays, and its deadline becomes the next wake-up when it is
the earliest. -/
def checkQueue (input : Queue) (nextTimeout now : Nat) : CheckedQueue :=
  if input.timeout ≠ 0 ∧ input.timeout ≤ now then ⟨Queue.empty, input, nextTimeout⟩
  else if input.timeout ≠ 0 ∧ (nextTimeout = 0 ∨ input.timeout < nextTimeout) then
    ⟨input, Queue.empty, input.timeout⟩
  else ⟨input, Queue.empty, nextTimeout⟩

/-- Modelled from the spec: the helper `notify( queue, addedCb, modifiedCb, removedCb )`
(`ModificationsNotifier.h`): one call per event kind, passing the full set, for the
sets that are not empty. -/
def notify (queue : Queue) (addedCb modifiedCb removedCb : List Nat → Callback) :
    List Callback :=
  (if queue.added ≠ [] then [addedCb queue.added] else []) ++
  (if queue.modified ≠ [] then [modifiedCb queue.modified] else []) ++
  (if queue.removed ≠ [] then [removedCb queue.removed] else [])

/-- `ModificationNotifier::start`: clears the stop flag and starts the thread. -/
def ModificationNotifier.start (s : ModificationNotifier) : ModificationNotifier :=
  { s with m_stop := false, threadRunning := true }

/-- `ModificationNotifier::notifyMediaCreation`, called at time `now`. -/
def ModificationNotifier.notifyMediaCreation (window : Nat) (s : ModificationNotifier)
    (media now : Nat) : ModificationNotifier :=
  { s with m_media := s.m_media.notifyCreation media now window
           m_timeout := scheduleWakeUp s.m_timeout (s.m_media.notifyCreation media now window) }

/-- `ModificationNotifier::notifyMediaModification`, called at time `now`. -/
def ModificationNotifier.notifyMediaModification (window : Nat) (s : ModificationNotifier)
    (media now : Nat) : ModificationNotifier :=
  { s with m_media := s.m_media.notifyModification media now window
           m_timeout :=
             scheduleWakeUp s.m_timeout (s.m_media.notifyModification media now window) }

/-- `ModificationNotifier::notifyMediaRemoval`, called at time `now`. -/
def ModificationNotifier.notifyMediaRemoval (window : Nat) (s : ModificationNotifier)
    (mediaId now : Nat) : ModificationNotifier :=
  { s with m_media := s.m_media.notifyRemoval mediaId now window
           m_timeout := scheduleWakeUp s.m_timeout (s.m_media.notifyRemoval mediaId now window) }

/-- `ModificationNotifier::notifyArtistCreation`, called at time `now`. -/
def ModificationNotifier.notifyArtistCreation (window : Nat) (s : ModificationNotifier)
    (artist now : Nat) : ModificationNotifier :=
  { s with m_artists := s.m_artists.notifyCreation artist now window
           m_timeout :=
             scheduleWakeUp s.m_timeout (s.m_artists.notifyCreation artist now window) }

/-- `ModificationNotifier::notifyArtistModification`, called at time `now`. -/
def ModificationNotifier.notifyArtistModification (window : Nat) (s : ModificationNotifier)
    (artist now : Nat) : ModificationNotifier :=
  { s with m_artists := s.m_artists.notifyModification artist now window
           m_timeout :=
             scheduleWakeUp s.m_timeout (s.m_artists.notifyModification artist now window) }

/-- `ModificationNotifier::notifyArtistRemoval`, called at time `now`. -/
def ModificationNotifier.notifyArtistRemoval (window : Nat) (s : ModificationNotifier)
    (artist now : Nat) : ModificationNotifier :=
  { s with m_artists := s.m_artists.notifyRemoval artist now window
           m_timeout := scheduleWakeUp s.m_timeout (s.m_artists.notifyRemoval artist now window) }

/-- One scheduling of the notifier thread inside `ModificationNotifier::run`, at time
`now`: the callbacks it makes and the state it leaves. With the stop flag set the
loop is left (`while ( m_stop == false )`, `if ( m_stop == true ) break;`); with no
wake-up scheduled the thread stays in `m_cond.wait`; before the wake-up time it stays
in `m_cond.wait_until`; otherwise it checks both batches, stores the next wake-up
and, the lock released, notifies the observer of the batches swapped out. -/
def ModificationNotifier.runStep (s : ModificationNotifier) (now : Nat) :
    List Callback × ModificationNotifier :=
  if s.threadRunning = false then ([], s)
  else if s.m_stop then ([], { s with threadRunning := false })
  else if s.m_timeout = 0 then ([], s)
  else if now < s.m_timeout then ([], s)
  else
    let media := checkQueue s.m_media 0 now
    let artists := checkQueue s.m_artists media.nextTimeout now
    (notify media.output Callback.onMediaAdded Callback.onMediaUpdated Callback.onMediaDeleted ++
       notify artists.output Callback.onArtistsAdded Callback.onArtistsModified
         Callback.onArtistsDeleted,
     { s with m_timeout := artists.nextTimeout, m_media := media.input,
              m_artists := artists.input })

/-- `ModificationNotifier::~ModificationNotifier`: when the thread is joinable, the
stop flag is set, the thread is notified and joined: it is scheduled once more and
leaves its loop. -/
def ModificationNotifier.destroy (s : ModificationNotifier) :
    List Callback × ModificationNotifier :=
  if s.threadRunning then ModificationNotifier.runStep { s with m_stop := true } 0
  else ([], s)

/-- What happens to a notifier, in order: calls of the six `notify...` entry points
by writer threads at a time `now`, schedulings of the notifier thread at a time
`now`, and the destruction of the notifier. -/
inductive NotifierEvent where
  | mediaCreation (media now : Nat)
  | mediaModification (media now : Nat)
  | mediaRemoval (mediaId now : Nat)
  | artistCreation (artist now : Nat)
  | artistModification (artist now : Nat)
  | artistRemoval (artist now : Nat)
  | wake (now : Nat)
  | destroy
deriving DecidableEq, Repr

/-- The effect of one event: the callbacks made and the state left. -/
def ModificationNotifier.step (window : Nat) (s : ModificationNotifier) :
    NotifierEvent → List Callback × ModificationNotifier
  | .mediaCreation media now => ([], s.notifyMediaCreation window media now)
  | .mediaModification media now => ([], s.notifyMediaModification window media now)
  | .mediaRemoval mediaId now => ([], s.notifyMediaRemoval window mediaId now)
  | .artistCreation artist now => ([], s.notifyArtistCreation window artist now)
  | .artistModification artist now => ([], s.notifyArtistModification window artist now)
  | .artistRemoval artist now => ([], s.notifyArtistRemoval window artist now)
  | .wake now => s.runStep now
  | .destroy => s.destroy

/-- The callbacks made, in order, and the state left by a sequence of events. -/
def ModificationNotifier.exec (window : Nat) (s : ModificationNotifier) :
    List NotifierEvent → List Callback × ModificationNotifier
  | [] => ([], s)
  | e :: rest =>
    ((s.step window e).1 ++ (ModificationNotifier.exec window (s.step window e).2 rest).1,
     (ModificationNotifier.exec window (s.step window e).2 rest).2)

/-- A started notifier after an idle period: the thread runs, no stop is requested,
no wake-up is scheduled and both batches are empty. -/
def ModificationNotifier.idle : ModificationNotifier :=
  ⟨false, 0, Queue.empty, Queue.empty, true⟩

/-! ## Discovery scheduler (`discoverer/DiscovererWorker.h`)

The header declares the task record, the FIFO `m_tasks`, the flag `m_run` and the
entry points; the bodies (`DiscovererWorker.cpp`) are not part of the sources and
are modelled from §4.4 of the specification. -/

/-- The record `DiscovererWorker::Task`. -/
structure Task where
  entryPoint : String
  reload : Bool
deriving DecidableEq, Repr

/-- A call made by the worker to the observer `IMediaLibraryCb`. -/
inductive DiscoveryCallback where
  | onDiscoveryStarted (entryPoint : String)
  | onDiscoveryProgress (entryPoint : String)
  | onDiscoveryCompleted (entryPoint : String)
deriving DecidableEq, Repr

/-- Modelled from the spec: what the discoverers do with one task, as far as the
worker sees it: the directories entered, in order (one `onDiscoveryProgress` each),
and, when the discovery fails outright (entry point not found, device unreachable),
the error. -/
structure Walk where
  entered : List String
  error : Option String
deriving DecidableEq, Repr

/-- The fields `m_tasks` and `m_run` of `DiscovererWorker`, with what the worker has
produced so far: the calls made on `m_cb` and the errors logged. -/
structure DiscovererWorker where
  m_tasks : List Task
  m_run : Bool
  callbacks : List DiscoveryCallback
  logged : List String
deriving DecidableEq, Repr

/-- A worker just started: nothing queued, nothing reported. -/
def DiscovererWorker.fresh : DiscovererWorker := ⟨[], true, [], []⟩

/-- Modelled from the spec: `DiscovererWorker::enqueue( entryPoint, reload )`
(body in `DiscovererWorker.cpp`): appends the task to the tail of the FIFO queue. -/
def DiscovererWorker.enqueue (w : DiscovererWorker) (entryPoint : String) (reload : Bool) :
    DiscovererWorker :=
  { w with m_tasks := w.m_tasks ++ [⟨entryPoint, reload⟩] }

/-- Modelled from the spec: `DiscovererWorker::discover( entryPoint )` (body in
`DiscovererWorker.cpp`): queues a discovery of the entry point. -/
def DiscovererWorker.discover (w : DiscovererWorker) (entryPoint : String) : DiscovererWorker :=
  w.enqueue entryPoint false

/-- Modelled from the spec: `DiscovererWorker::reload()` (body in
`DiscovererWorker.cpp`): queues a reload with the empty entry point, which stands
for all known root folders. -/
def DiscovererWorker.reloadAll (w : DiscovererWorker) : DiscovererWorker :=
  w.enqueue "" true

/-- Modelled from the spec: `DiscovererWorker::reload( entryPoint )` (body in
`DiscovererWorker.cpp`): queues a reload of the entry point. -/
def DiscovererWorker.reload (w : DiscovererWorker) (entryPoint : String) : DiscovererWorker :=
  w.enqueue entryPoint true

/-- Modelled from the spec: `DiscovererWorker::stop()` (body in
`DiscovererWorker.cpp`): signals the worker to exit; no task that is still queued is
started afterwards. -/
def DiscovererWorker.stop (w : DiscovererWorker) : DiscovererWorker :=
  { w with m_run := false }

/-- The calls the worker makes for one task whose walk is `walk`: the start, one
progress call per directory entered, the completion. -/
def taskCallbacks (task : Task) (walk : Walk) : List DiscoveryCallback :=
  DiscoveryCallback.onDiscoveryStarted task.entryPoint ::
    (walk.entered.map DiscoveryCallback.onDiscoveryProgress ++
      [DiscoveryCallback.onDiscoveryCompleted task.entryPoint])

/-- Modelled from the spec: one scheduling of the worker inside
`DiscovererWorker::run` (body in `DiscovererWorker.cpp`), `walk` being what the
discoverers do if a task is started: a stopped worker starts nothing; with an empty
queue the worker waits; otherwise it pops the task at the head, reports the start,
walks (on failure the error is logged), and reports the completion with the entry
point of the task. -/
def DiscovererWorker.work (w : DiscovererWorker) (walk : Walk) : DiscovererWorker :=
  if w.m_run = false then w
  else
    match w.m_tasks with
    | [] => w
    | task :: rest =>
      { w with
        m_tasks := rest
        callbacks := w.callbacks ++ taskCallbacks task walk
        logged := match walk.error with
          | some e => w.logged ++ [e]
          | none => w.logged }

/-- What happens to a worker, in order: tasks queued by callers, schedulings of the
worker thread (with the walk the discoverers would perform), and the stop. -/
inductive WorkerAction where
  | enqueue (entryPoint : String) (reload : Bool)
  | work (walk : Walk)
  | stop
deriving DecidableEq, Repr

/-- The effect of one action. -/
def DiscovererWorker.step (w : DiscovererWorker) : WorkerAction → DiscovererWorker
  | .enqueue entryPoint reload => w.enqueue entryPoint reload
  | .work walk => w.work walk
  | .stop => w.stop

/-- The worker after a sequence of actions. -/
def DiscovererWorker.exec (w : DiscovererWorker) (actions : List WorkerAction) :
    DiscovererWorker :=
  actions.foldl DiscovererWorker.step w

/-- The tasks queued by a sequence of actions, in submission order. -/
def submitted : List WorkerAction → List Task
  | [] => []
  | .enqueue entryPoint reload :: rest => ⟨entryPoint, reload⟩ :: submitted rest
  | _ :: rest => submitted rest

/-! ## Identity cache (specification §4.1)

`DatabaseHelpers.h`, the cache policy and the entity classes `Album`, `AlbumTrack`
and `Media` are not part of the sources; their calls appear in the tests
(`test/unittest/AlbumTrackTests.cpp`). The cache and the calls are modelled from
§4.1 of the specification. -/

/-- A live in-memory instance of a persisted entity: `handle` is the identity of the
object, `id` its primary key, `fields` the values it was constructed or loaded
with. Two handles are identity-equal when the instances are equal. -/
structure Instance (α : Type) where
  handle : Nat
  id : Nat
  fields : α
deriving DecidableEq, Repr

/-- Modelled from the spec: the Identity Cache of one entity type with its table: the
persisted rows (primary key, fields), the registered live instances, the key the
storage engine generates next and the identity of the next object constructed. -/
structure EntityStore (α : Type) where
  rows : List (Nat × α)
  cache : List (Instance α)
  nextId : Nat
  nextHandle : Nat
deriving DecidableEq, Repr

/-- An empty table with an empty cache; keys start at 1. -/
def EntityStore.empty {α : Type} : EntityStore α := ⟨[], [], 1, 0⟩

/-- Modelled from the spec: the load of a row through the cache: when an instance is
registered for the primary key it is returned, otherwise an instance is constructed
from the row and registered. -/
def EntityStore.load {α : Type} (s : EntityStore α) (id : Nat) (fields : α) :
    Instance α × EntityStore α :=
  match s.cache.find? (fun x => decide (x.id = id)) with
  | some x => (x, s)
  | none =>
    (⟨s.nextHandle, id, fields⟩,
     { s with cache := s.cache ++ [⟨s.nextHandle, id, fields⟩], nextHandle := s.nextHandle + 1 })

/-- Modelled from the spec: `fetch(id) -> handle | NotFound`: the registered instance
when there is one; otherwise the storage engine is queried, a missing row gives
NotFound, and a row found is constructed and registered. -/
def EntityStore.fetch {α : Type} (s : EntityStore α) (id : Nat) :
    Option (Instance α) × EntityStore α :=
  match s.cache.find? (fun x => decide (x.id = id)) with
  | some x => (some x, s)
  | none =>
    match s.rows.find? (fun r => decide (r.1 = id)) with
    | none => (none, s)
    | some r => ((s.load id r.2).1, (s.load id r.2).2)

/-- Modelled from the spec: `fetch(uniqueKey) -> handle | NotFound`, the secondary
lookup: the storage engine is queried for the row with the key and the row is loaded
through the cache. -/
def EntityStore.fetchBy {α : Type} (s : EntityStore α) (key : α → Bool) :
    Option (Instance α) × EntityStore α :=
  match s.rows.find? (fun r => key r.2) with
  | none => (none, s)
  | some r => ((s.load r.1 r.2).1, (s.load r.1 r.2).2)

/-- Modelled from the spec: `insert(constructionArgs) -> handle`: persists a new row
under a generated key and registers the resulting instance. -/
def EntityStore.insert {α : Type} (s : EntityStore α) (args : α) :
    Instance α × EntityStore α :=
  (⟨s.nextHandle, s.nextId, args⟩,
   { rows := s.rows ++ [(s.nextId, args)]
     cache := s.cache ++ [⟨s.nextHandle, s.nextId, args⟩]
     nextId := s.nextId + 1
     nextHandle := s.nextHandle + 1 })

/-- Modelled from the spec: a field mutation through the owning component: storage
is updated first, then the registered instance. -/
def EntityStore.save {α : Type} (s : EntityStore α) (x : Instance α) : EntityStore α :=
  { s with
    rows := s.rows.map (fun r => if r.1 = x.id then (r.1, x.fields) else r)
    cache := s.cache.map (fun c => if c.id = x.id then { c with fields := x.fields } else c) }

/-- Modelled from the spec: `invalidate(id)`: removes a destroyed entity from the
cache. -/
def EntityStore.invalidate {α : Type} (s : EntityStore α) (id : Nat) : EntityStore α :=
  { s with cache := s.cache.filter (fun x => !decide (x.id = id)) }

/-- The reload of the cache (`Reload()` of the tests: the library is reopened on the
same database): no instance is registered any more, the rows stay. -/
def EntityStore.reload {α : Type} (s : EntityStore α) : EntityStore α :=
  { s with cache := [] }

/-- The storage engine generates keys above every stored key, and every registered
instance has a stored key; at most one instance is registered per key. -/
def EntityStore.WellFormed {α : Type} (s : EntityStore α) : Prop :=
  (∀ r ∈ s.rows, r.1 < s.nextId) ∧ (∀ x ∈ s.cache, x.id < s.nextId) ∧
  (s.cache.map (fun x => x.id)).Nodup

/-- The fields an album track is constructed with by
`album->addTrack( media, trackNb, discNumber, artistId, genreId )`. -/
structure AlbumTrackFields where
  mediaId : Nat
  albumId : Nat
  trackNumber : Nat
  discNumber : Nat
  artistId : Nat
  genreId : Nat
deriving DecidableEq, Repr

/-- The three entity types the tests of `AlbumTrackTests.cpp` work with: albums (by
title), media (by path) and album tracks. -/
structure Library where
  albums : EntityStore String
  media : EntityStore String
  tracks : EntityStore AlbumTrackFields
deriving DecidableEq, Repr

/-- A library just created on an empty database. -/
def Library.empty : Library := ⟨EntityStore.empty, EntityStore.empty, EntityStore.empty⟩

/-- Modelled from the spec: `ml->createAlbum( title )`: an insert through the
Identity Cache of albums. -/
def Library.createAlbum (ml : Library) (title : String) : Instance String × Library :=
  ((ml.albums.insert title).1, { ml with albums := (ml.albums.insert title).2 })

/-- Modelled from the spec: `ml->addFile( path )`: an insert through the Identity
Cache of media. -/
def Library.addFile (ml : Library) (path : String) : Instance String × Library :=
  ((ml.media.insert path).1, { ml with media := (ml.media.insert path).2 })

/-- Modelled from the spec: `album->addTrack( media, trackNb, discNumber, artistId,
genreId )`: an insert through the Identity Cache of album tracks, with the keys of
the album and of the media among the construction arguments. -/
def Library.addTrack (ml : Library) (album media : Instance String)
    (trackNb discNumber artistId genreId : Nat) : Instance AlbumTrackFields × Library :=
  ((ml.tracks.insert ⟨media.id, album.id, trackNb, discNumber, artistId, genreId⟩).1,
   { ml with
     tracks := (ml.tracks.insert ⟨media.id, album.id, trackNb, discNumber, artistId,
       genreId⟩).2 })

/-- Modelled from the spec: `media->save()`: the fields of the media are persisted. -/
def Library.saveMedia (ml : Library) (media : Instance String) : Library :=
  { ml with media := ml.media.save media }

/-- Modelled from the spec: `ml->album( id )`: a fetch by primary key through the
Identity Cache of albums. -/
def Library.album (ml : Library) (id : Nat) : Option (Instance String) × Library :=
  ((ml.albums.fetch id).1, { ml with albums := (ml.albums.fetch id).2 })

/-- Modelled from the spec: `ml->media( id )`: a fetch by primary key through the
Identity Cache of media. -/
def Library.mediaById (ml : Library) (id : Nat) : Option (Instance String) × Library :=
  ((ml.media.fetch id).1, { ml with media := (ml.media.fetch id).2 })

/-- Modelled from the spec: `ml->albumTrack( id )`: a fetch by primary key through
the Identity Cache of album tracks. -/
def Library.albumTrack (ml : Library) (id : Nat) :
    Option (Instance AlbumTrackFields) × Library :=
  ((ml.tracks.fetch id).1, { ml with tracks := (ml.tracks.fetch id).2 })

/-- Modelled from the spec: `track->album()`: the album reference of a track is an
id, resolved through the Identity Cache of albums. -/
def Library.albumOfTrack (ml : Library) (track : Instance AlbumTrackFields) :
    Option (Instance String) × Library :=
  ml.album track.fields.albumId

/-- Modelled from the spec: `media->albumTrack()`: the secondary lookup of the album
track by the key of its media. -/
def Library.albumTrackOfMedia (ml : Library) (media : Instance String) :
    Option (Instance AlbumTrackFields) × Library :=
  ((ml.tracks.fetchBy (fun f => decide (f.mediaId = media.id))).1,
   { ml with tracks := (ml.tracks.fetchBy (fun f => decide (f.mediaId = media.id))).2 })

/-- `Reload()` of the tests: every cache is reloaded. -/
def Library.reload (ml : Library) : Library :=
  ⟨ml.albums.reload, ml.media.reload, ml.tracks.reload⟩

/-- What the opening lines of the tests of `AlbumTrackTests.cpp` produce. -/
structure TrackFixture where
  album : Instance String
  media : Instance String
  track : Instance AlbumTrackFields
  ml : Library
deriving DecidableEq, Repr

/-- The opening lines of the tests of `AlbumTrackTests.cpp`: `ml->createAlbum`,
`ml->addFile`, `album->addTrack( f, trackNb, discNumber, artistId, genreId )` and
`f->save()`. -/
def Library.withTrack (ml : Library) (title path : String)
    (trackNb discNumber artistId genreId : Nat) : TrackFixture :=
  { album := (ml.createAlbum title).1
    media := ((ml.createAlbum title).2.addFile path).1
    track := (((ml.createAlbum title).2.addFile path).2.addTrack (ml.createAlbum title).1
      ((ml.createAlbum title).2.addFile path).1 trackNb discNumber artistId genreId).1
    ml := ((((ml.createAlbum title).2.addFile path).2.addTrack (ml.createAlbum title).1
      ((ml.createAlbum title).2.addFile path).1 trackNb discNumber artistId genreId).2).saveMedia
      ((ml.createAlbum title).2.addFile path).1 }

namespace Scenario

/-- The fixed disk registered, with a live folder stored under `music/` and the ban
record of `/videos`; the removable device `usb-1` is not registered. -/
def unknownUsbDb : Db :=
  ⟨[⟨1, "dev-1", false, true⟩],
   [⟨1, "music/", none, false, 1, true, false⟩, ⟨2, "/videos", none, true, 1, true, false⟩],
   [], 1, 2⟩

end Scenario

namespace Scenario

end Scenario

/-! ## Modification date of a file (`filesystem/win32/File.cpp`)

`unsigned int` is 32 bits wide; `st_mtime` is a `time_t`, a signed integer. The
class `CommonFile`, which holds `m_fullPath`, and the declaration of the mutable
member `m_lastModificationDate` are in headers that are not part of the sources. -/

/-- The fields of `fs::File` that `File::lastModificationDate` uses: `m_fullPath`
(of `CommonFile`) and the mutable `unsigned int m_lastModificationDate`, 0 while no
date is cached. -/
structure fs.File where
  m_fullPath : String
  m_lastModificationDate : Nat
deriving DecidableEq, Repr

/-- The operating system as `File::lastModificationDate` sees it: `_stat( path )`
gives the `st_mtime` of the file or fails (`none`), and `GetLastError()` gives an
error code. -/
structure fs.Win32 where
  stat : String → Option Int
  getLastError : Nat

/-- The exception `std::system_error( GetLastError(), std::generic_category(),
"Failed to get stats" )`. -/
structure fs.SystemError where
  code : Nat
  what : String
deriving DecidableEq, Repr

/-- What a call of `File::lastModificationDate()` yields: the returned value or the
exception thrown, the object after the call, and the paths `_stat` was called
with. -/
structure fs.DateResult where
  result : Except fs.SystemError Nat
  self : fs.File
  statCalls : List String

/-- The conversion of a `time_t` to `unsigned int`: the value modulo 2^32. -/
def fs.toUnsignedInt (t : Int) : Nat :=
  (t % 4294967296).toNat

/-- `File::lastModificationDate()`. -/
def fs.File.lastModificationDate (os : fs.Win32) (self : fs.File) : fs.DateResult :=
  if self.m_lastModificationDate = 0 then
    match os.stat self.m_fullPath with
    | none => ⟨.error ⟨os.getLastError, "Failed to get stats"⟩, self, [self.m_fullPath]⟩
    | some st_mtime =>
      ⟨.ok (fs.toUnsignedInt st_mtime),
       { self with m_lastModificationDate := fs.toUnsignedInt st_mtime }, [self.m_fullPath]⟩
  else ⟨.ok self.m_lastModificationDate, self, []⟩

/-- Successive calls of `File::lastModificationDate()` on one object, the i-th call
under the i-th state of the operating system: what each call returned or threw, the
paths `_stat` was called with by all of them, and the object after the last call. -/
def fs.File.lastModificationDateRepeat (self : fs.File) :
    List fs.Win32 → List (Except fs.SystemError Nat) × List String × fs.File
  | [] => ([], [], self)
  | os :: rest =>
    ((self.lastModificationDate os).result ::
        (fs.File.lastModificationDateRepeat (self.lastModificationDate os).self rest).1,
     (self.lastModificationDate os).statCalls ++
        (fs.File.lastModificationDateRepeat (self.lastModificationDate os).self rest).2.1,
     (fs.File.lastModificationDateRepeat (self.lastModificationDate os).self rest).2.2)

namespace Scenario

/-- A system on which every file was last modified at `mtime`. -/
def modifiedAt (mtime : Int) : fs.Win32 := ⟨fun _ => some mtime, 0⟩

/-- A system on which `_stat` fails, with the error code 2. -/
def statFails : fs.Win32 := ⟨fun _ => none, 2⟩

/-- The file `C:/music/a.mp3` with no date cached. -/
def track : fs.File := ⟨"C:/music/a.mp3", 0⟩

end Scenario

deriving instance DecidableEq for Except

/-! ## Theorems -/

/-! ### Presence propagation -/

theorem mem_isDevicePresentTrigger (folders : List FolderRow) (dev : Nat) (b : Bool)
    (r : FolderRow) :
    r ∈ isDevicePresentTrigger folders dev b ↔
      ∃ r0 ∈ folders, r = if r0.deviceId = dev then { r0 with isPresent := b } else r0 := by
  unfold isDevicePresentTrigger
  simp only [List.mem_map]
  constructor
  · rintro ⟨a, ha, rfl⟩; exact ⟨a, ha, rfl⟩
  · rintro ⟨a, ha, rfl⟩; exact ⟨a, ha, rfl⟩

theorem any_device_id (db : Db) (dev : Nat) (hdev : ∃ d ∈ db.devices, d.id = dev) :
    db.devices.any (fun d => decide (d.id = dev)) = true := by
  obtain ⟨d, hd, hid⟩ := hdev
  simp only [List.any_eq_true, decide_eq_true_eq]
  exact ⟨d, hd, hid⟩

theorem setPresent_folders (db : Db) (dev : Nat) (b : Bool)
    (hdev : ∃ d ∈ db.devices, d.id = dev) :
    (Device.setPresent db dev b).folders = isDevicePresentTrigger db.folders dev b := by
  simp [Device.setPresent, any_device_id db dev hdev]

theorem setPresent_keeps_device (db : Db) (dev : Nat) (b : Bool)
    (hdev : ∃ d ∈ db.devices, d.id = dev) :
    ∃ d ∈ (Device.setPresent db dev b).devices, d.id = dev := by
  have hany := any_device_id db dev hdev
  obtain ⟨d, hd, hid⟩ := hdev
  refine ⟨{ d with isPresent := b }, ?_, hid⟩
  simp only [Device.setPresent, hany, if_true, List.mem_map]
  exact ⟨d, hd, by simp [hid]⟩

theorem trigger_trigger (folders : List FolderRow) (dev : Nat) (a b : Bool) :
    isDevicePresentTrigger (isDevicePresentTrigger folders dev a) dev b =
      isDevicePresentTrigger folders dev b := by
  unfold isDevicePresentTrigger
  rw [List.map_map]
  apply List.map_congr_left
  intro r _
  by_cases h : r.deviceId = dev <;> simp [h]

/-- C5: marking a registered device absent sets `is_present = 0` on every folder row
of that device, so `folders()` and `fetchRootFolders()` return none of them; marking
it present again sets `is_present = 1` on exactly those rows; in both steps the rows
of other devices are the rows that were there before, and no row is added or lost. -/
theorem setPresent_hides_then_restores (db : Db) (dev : Nat)
    (hdev : ∃ d ∈ db.devices, d.id = dev) :
    (∀ r ∈ (Device.setPresent db dev false).folders, r.deviceId = dev → r.isPresent = false) ∧
    (∀ self, ∀ x ∈ Folder.folders (Device.setPresent db dev false) self, x.m_deviceId ≠ dev) ∧
    (∀ x ∈ Folder.fetchRootFolders (Device.setPresent db dev false), x.m_deviceId ≠ dev) ∧
    (Device.setPresent db dev false).folders =
      db.folders.map (fun r => if r.deviceId = dev then { r with isPresent := false } else r) ∧
    (Device.setPresent (Device.setPresent db dev false) dev true).folders =
      db.folders.map (fun r => if r.deviceId = dev then { r with isPresent := true } else r) ∧
    (∀ r ∈ (Device.setPresent (Device.setPresent db dev false) dev true).folders,
      r.deviceId = dev → r.isPresent = true) ∧
    (∀ r : FolderRow, r.deviceId ≠ dev →
      (r ∈ (Device.setPresent db dev false).folders ↔ r ∈ db.folders) ∧
      (r ∈ (Device.setPresent (Device.setPresent db dev false) dev true).folders ↔
        r ∈ db.folders)) := by
  have hoff := setPresent_folders db dev false hdev
  have hon := setPresent_folders (Device.setPresent db dev false) dev true
    (setPresent_keeps_device db dev false hdev)
  rw [hoff, trigger_trigger] at hon
  have key : ∀ (b : Bool), ∀ r ∈ isDevicePresentTrigger db.folders dev b,
      r.deviceId = dev → r.isPresent = b := by
    intro b r hr hrd
    rw [mem_isDevicePresentTrigger] at hr
    obtain ⟨r0, _, rfl⟩ := hr
    by_cases h : r0.deviceId = dev
    · simp [h]
    · simp [h] at hrd
  have other : ∀ (b : Bool) (r : FolderRow), r.deviceId ≠ dev →
      (r ∈ isDevicePresentTrigger db.folders dev b ↔ r ∈ db.folders) := by
    intro b r hne
    rw [mem_isDevicePresentTrigger]
    constructor
    · rintro ⟨r0, h0, rfl⟩
      by_cases h : r0.deviceId = dev
      · simp [h] at hne
      · simpa [h] using h0
    · intro hr
      exact ⟨r, hr, by simp [hne]⟩
  rw [hon, hoff]
  refine ⟨key false, ?_, ?_, rfl, rfl, key true, fun r hne => ⟨other false r hne, other true r hne⟩⟩
  · intro self x hx hxd
    simp only [Folder.folders, List.mem_map, List.mem_filter, Bool.and_eq_true] at hx
    obtain ⟨r, ⟨hr, hc⟩, rfl⟩ := hx
    rw [hoff] at hr
    have := key false r hr hxd
    simp [this] at hc
  · intro x hx hxd
    simp only [Folder.fetchRootFolders, List.mem_map, List.mem_filter, Bool.and_eq_true] at hx
    obtain ⟨r, ⟨hr, hc⟩, rfl⟩ := hx
    rw [hoff] at hr
    have := key false r hr hxd
    simp [this] at hc

/-- C5 at `Scenario.twoDevicesDb` and its removable device 2: the two live folders
of device 2 are hidden and come back, the folders of device 1 stay. -/
theorem setPresent_hides_then_restores_witness :
    (∃ d ∈ Scenario.twoDevicesDb.devices, d.id = 2) ∧
    (∀ r ∈ (Device.setPresent Scenario.twoDevicesDb 2 false).folders,
      r.deviceId = 2 → r.isPresent = false) ∧
    (Folder.fetchRootFolders (Device.setPresent Scenario.twoDevicesDb 2 false)).map
      (fun x => x.m_id) = [1] ∧
    (Folder.fetchRootFolders
      (Device.setPresent (Device.setPresent Scenario.twoDevicesDb 2 false) 2 true)).map
      (fun x => x.m_id) = [1, 3] :=
  ⟨by decide,
   (setPresent_hides_then_restores Scenario.twoDevicesDb 2 (by decide)).1,
   by decide, by decide⟩

/-! ### Path resolution -/

theorem path_of_fixed (ml : MediaLibrary) (db : Db) (self : Folder)
    (h : self.m_isRemovable = false) :
    Folder.path ml db self = .ok ⟨self.m_path, self, []⟩ := by
  simp [Folder.path, h]

theorem path_of_cached (ml : MediaLibrary) (db : Db) (self : Folder) (mp : String)
    (h : self.m_isRemovable = true) (hc : self.m_deviceMountpoint = some mp) :
    Folder.path ml db self = .ok ⟨self.m_fullPath, self, []⟩ := by
  simp [Folder.path, h, hc]

theorem path_of_uncached (ml : MediaLibrary) (db : Db) (self : Folder) (d : DeviceRow)
    (fac : FsFactory) (dfs : FsDevice)
    (h : self.m_isRemovable = true) (hc : self.m_deviceMountpoint = none)
    (hd : Device.fetch db self.m_deviceId = some d)
    (hf : ml.fsFactoryForPath self.m_fullPath = some fac)
    (hm : fac.createDevice d.uuid = some dfs) :
    Folder.path ml db self = .ok ⟨dfs.mountpoint ++ self.m_path,
      { self with m_deviceMountpoint := some dfs.mountpoint,
                  m_fullPath := dfs.mountpoint ++ self.m_path },
      [ProviderCall.fsFactoryForPath self.m_fullPath, ProviderCall.createDevice d.uuid,
       ProviderCall.mountpoint d.uuid]⟩ := by
  simp [Folder.path, h, hc, hd, hf, hm]

theorem create_removable_cached (ml : MediaLibrary) (db db' : Db) (fullPath : String)
    (parentId : Nat) (device : DeviceRow) (deviceFs : FsDevice) (self : Folder)
    (hr : device.isRemovable = true)
    (hc : Folder.create ml db fullPath parentId device deviceFs = (some self, db')) :
    self.m_isRemovable = true ∧ self.m_deviceMountpoint = some deviceFs.mountpoint ∧
    self.m_path = ml.removePath fullPath deviceFs.mountpoint ∧
    self.m_fullPath = deviceFs.mountpoint ++ self.m_path := by
  unfold Folder.create at hc
  simp only [hr, if_true] at hc
  split at hc
  · simp at hc
  · simp only [Prod.mk.injEq, Option.some.injEq] at hc
    obtain ⟨rfl, _⟩ := hc
    simp

theorem firstInIndex_mem (rows : List FolderRow) (m : FolderRow)
    (h : firstInIndex rows = some m) : m ∈ rows := by
  induction rows generalizing m with
  | nil => simp [firstInIndex] at h
  | cons r rest ih =>
    simp only [firstInIndex] at h
    cases hrest : firstInIndex rest with
    | none =>
      simp only [hrest, Option.some.injEq] at h
      subst h
      exact List.mem_cons_self _ _
    | some m0 =>
      simp only [hrest] at h
      split at h
      · simp only [Option.some.injEq] at h
        subst h
        exact List.mem_cons_self _ _
      · simp only [Option.some.injEq] at h
        subst h
        exact List.mem_cons_of_mem _ (ih m0 hrest)

theorem firstInIndex_eq_none (rows : List FolderRow) :
    firstInIndex rows = none ↔ rows = [] := by
  cases rows with
  | nil => simp [firstInIndex]
  | cons r rest =>
    simp only [firstInIndex, reduceCtorEq, iff_false]
    cases firstInIndex rest with
    | none => simp
    | some m0 => simp only; split <;> simp

theorem fetch_some (db : Db) (cond : FolderRow → Bool) (x : Folder)
    (h : Folder.fetch db cond = some x) :
    ∃ r ∈ db.folders, cond r = true ∧ x = Folder.ofRow r := by
  unfold Folder.fetch at h
  cases hf : firstInIndex (db.folders.filter cond) with
  | none => simp [hf] at h
  | some r =>
    simp only [hf, Option.map_some', Option.some.injEq] at h
    have hmem := List.mem_filter.mp (firstInIndex_mem _ r hf)
    exact ⟨r, hmem.1, hmem.2, h.symm⟩

/-- A query that no row satisfies fetches nothing. -/
theorem fetch_none (db : Db) (cond : FolderRow → Bool)
    (h : ∀ r ∈ db.folders, cond r = false) : Folder.fetch db cond = none := by
  unfold Folder.fetch
  have : db.folders.filter cond = [] := by
    rw [List.filter_eq_nil_iff]
    intro r hr
    simp [h r hr]
  rw [this]
  rfl

/-- A query that one row only satisfies fetches that row, whatever the order in
which the engine visits the table. -/
theorem fetch_unique (db : Db) (cond : FolderRow → Bool) (row : FolderRow)
    (hrow : row ∈ db.folders) (hc : cond row = true)
    (huniq : ∀ r ∈ db.folders, cond r = true → r = row) :
    Folder.fetch db cond = some (Folder.ofRow row) := by
  cases hf : Folder.fetch db cond with
  | none =>
    unfold Folder.fetch at hf
    simp only [Option.map_eq_none'] at hf
    have hnil := (firstInIndex_eq_none _).mp hf
    have : row ∈ db.folders.filter cond := List.mem_filter.mpr ⟨hrow, hc⟩
    rw [hnil] at this
    cases this
  | some x =>
    obtain ⟨r, hr, hcr, rfl⟩ := fetch_some db cond x hf
    rw [huniq r hr hcr]

/-- The query on a table whose last row is the only one to satisfy it. -/
theorem fetch_append_last (db : Db) (rows : List FolderRow) (m : FolderRow)
    (cond : FolderRow → Bool) (hdb : db.folders = rows ++ [m])
    (hl : ∀ r ∈ rows, cond r = false) (hm : cond m = true) :
    Folder.fetch db cond = some (Folder.ofRow m) := by
  apply fetch_unique db cond m (by rw [hdb]; simp) hm
  intro r hr hcr
  rw [hdb] at hr
  simp only [List.mem_append, List.mem_singleton] at hr
  rcases hr with hr | rfl
  · rw [hl r hr] at hcr
    cases hcr
  · rfl

/-- The query on a table none of whose rows, the last included, satisfies it. -/
theorem fetch_append_none (db : Db) (rows : List FolderRow) (m : FolderRow)
    (cond : FolderRow → Bool) (hdb : db.folders = rows ++ [m])
    (hl : ∀ r ∈ rows, cond r = false) (hm : cond m = false) :
    Folder.fetch db cond = none := by
  apply fetch_none
  intro r hr
  rw [hdb] at hr
  simp only [List.mem_append, List.mem_singleton] at hr
  rcases hr with hr | rfl
  · exact hl r hr
  · exact hm

theorem fromPath_removable_cached (ml : MediaLibrary) (db : Db) (fullPath : String)
    (bt : BannedType) (self : Folder)
    (h : Folder.fromPath ml db fullPath bt = some self) (hr : self.m_isRemovable = true) :
    ∃ fac dir dfs, ml.fsFactoryForPath fullPath = some fac ∧
      fac.createDirectory fullPath = some dir ∧ dir.device = some dfs ∧
      self.m_deviceMountpoint = some dfs.mountpoint ∧
      self.m_path = ml.removePath dir.path dfs.mountpoint ∧
      self.m_fullPath = dfs.mountpoint ++ self.m_path := by
  unfold Folder.fromPath at h
  cases hfac : ml.fsFactoryForPath fullPath with
  | none => simp [hfac] at h
  | some fac =>
    cases hdir : fac.createDirectory fullPath with
    | none => simp [hfac, hdir] at h
    | some dir =>
      cases hdev : dir.device with
      | none => simp [hfac, hdir, hdev] at h
      | some dfs =>
        simp only [hfac, hdir, hdev] at h
        refine ⟨fac, dir, dfs, rfl, hdir, hdev, ?_⟩
        by_cases hfix : dfs.isRemovable = false
        · simp only [hfix, if_true] at h
          split at h
          · obtain ⟨r, _, hc, rfl⟩ := fetch_some _ _ _ h
            simp [Folder.ofRow] at hr hc
            simp [hr] at hc
          · obtain ⟨r, _, hc, rfl⟩ := fetch_some _ _ _ h
            simp [Folder.ofRow] at hr hc
            simp [hr] at hc
        · simp only [hfix, if_false] at h
          cases hd : Device.fromUuid db dfs.uuid with
          | none => simp [hd] at h
          | some device =>
            simp only [hd] at h
            have key : ∀ (cond : FolderRow → Bool),
                (∀ r, cond r = true → r.path = ml.removePath dir.path dfs.mountpoint) →
                (match Folder.fetch db cond with
                  | none => none
                  | some folder =>
                    some { folder with m_deviceMountpoint := some dfs.mountpoint,
                                       m_fullPath := dfs.mountpoint ++
                                         ml.removePath dir.path dfs.mountpoint }) = some self →
                self.m_deviceMountpoint = some dfs.mountpoint ∧
                self.m_path = ml.removePath dir.path dfs.mountpoint ∧
                self.m_fullPath = dfs.mountpoint ++ self.m_path := by
              intro cond hcond hm
              cases hfe : Folder.fetch db cond with
              | none => simp [hfe] at hm
              | some folder =>
                obtain ⟨r, _, hc, rfl⟩ := fetch_some _ _ _ hfe
                simp only [hfe, Option.some.injEq] at hm
                subst hm
                simp [Folder.ofRow, hcond r hc]
            by_cases hbt : bt = BannedType.Any
            · simp only [hbt, if_true] at h
              exact key _ (fun r hc => by simp at hc; exact hc.1) h
            · simp only [hbt, if_false] at h
              exact key _ (fun r hc => by simp at hc; exact hc.1.1) h

/-- C8 fails on the code: the folder that `Folder::fromPath` returns while the
removable device is mounted at `/mnt/usb/` has that mountpoint cached. With the
device record unchanged and the provider now reporting the mountpoint `/media/usb/`
for the device, `path()` returns `/mnt/usb/music/`, which is not the current
mountpoint followed by the stored relative path `music/`. -/
theorem path_not_current_mountpoint_counterexample :
    Folder.fromPath (Scenario.usbLibrary "/mnt/usb/") Scenario.usbDb "/mnt/usb/music/"
      BannedType.No = some Scenario.usbMusic ∧
    Scenario.usbMusic.m_path = "music/" ∧
    ((Scenario.usbLibrary "/media/usb/").fsFactoryForPath "/mnt/usb/music/").bind
      (fun fac => (fac.createDevice "usb-1").map (fun d => d.mountpoint)) =
      some "/media/usb/" ∧
    (Folder.path (Scenario.usbLibrary "/media/usb/") Scenario.usbDb Scenario.usbMusic).map
      (fun r => r.value) = .ok "/mnt/usb/music/" ∧
    "/mnt/usb/music/" ≠ "/media/usb/" ++ Scenario.usbMusic.m_path := by
  decide

/-- C8 as amended: `path()` returns the stored path unchanged for a folder of a fixed
device; for a folder of a removable device it returns a mountpoint followed by the
stored relative path: the mountpoint that the provider reports for the device when
the folder is not yet resolved (and the device record, the factory and the device
are found), the mountpoint of the device handle for a folder returned by
`Folder::create` or by `Folder::fromPath`. A folder whose mountpoint is cached
returns the full path computed when it was cached, whatever the provider reports
now. -/
theorem path_is_stored_or_mountpoint_plus_relative (ml : MediaLibrary) (db : Db) :
    (∀ self : Folder, self.m_isRemovable = false →
      Folder.path ml db self = .ok ⟨self.m_path, self, []⟩) ∧
    (∀ (self : Folder) (d : DeviceRow) (fac : FsFactory) (dfs : FsDevice),
      self.m_isRemovable = true → self.m_deviceMountpoint = none →
      Device.fetch db self.m_deviceId = some d →
      ml.fsFactoryForPath self.m_fullPath = some fac → fac.createDevice d.uuid = some dfs →
      ∃ r, Folder.path ml db self = .ok r ∧ r.value = dfs.mountpoint ++ self.m_path) ∧
    (∀ (fullPath : String) (parentId : Nat) (device : DeviceRow) (deviceFs : FsDevice)
      (self : Folder) (db' : Db), device.isRemovable = true →
      Folder.create ml db fullPath parentId device deviceFs = (some self, db') →
      self.m_path = ml.removePath fullPath deviceFs.mountpoint ∧
      ∃ r, Folder.path ml db' self = .ok r ∧ r.value = deviceFs.mountpoint ++ self.m_path) ∧
    (∀ (fullPath : String) (bt : BannedType) (self : Folder),
      Folder.fromPath ml db fullPath bt = some self → self.m_isRemovable = true →
      ∃ fac dir dfs r, ml.fsFactoryForPath fullPath = some fac ∧
        fac.createDirectory fullPath = some dir ∧ dir.device = some dfs ∧
        self.m_path = ml.removePath dir.path dfs.mountpoint ∧
        Folder.path ml db self = .ok r ∧ r.value = dfs.mountpoint ++ self.m_path) ∧
    (∀ (self : Folder) (mp : String), self.m_isRemovable = true →
      self.m_deviceMountpoint = some mp →
      Folder.path ml db self = .ok ⟨self.m_fullPath, self, []⟩) := by
  refine ⟨fun self h => path_of_fixed ml db self h, ?_, ?_, ?_,
    fun self mp h hc => path_of_cached ml db self mp h hc⟩
  · intro self d fac dfs h hc hd hf hm
    exact ⟨_, path_of_uncached ml db self d fac dfs h hc hd hf hm, rfl⟩
  · intro fullPath parentId device deviceFs self db' hr hc
    obtain ⟨h1, h2, h3, h4⟩ := create_removable_cached ml db db' fullPath parentId device
      deviceFs self hr hc
    exact ⟨h3, _, path_of_cached ml db' self _ h1 h2, h4⟩
  · intro fullPath bt self h hr
    obtain ⟨fac, dir, dfs, h1, h2, h3, h4, h5, h6⟩ :=
      fromPath_removable_cached ml db fullPath bt self h hr
    exact ⟨fac, dir, dfs, _, h1, h2, h3, h5, path_of_cached ml db self _ hr h4, h6⟩

/-- C8 as amended, at the scenario of a removable device mounted at `/mnt/usb/`: the
folder loaded from its row resolves to `/mnt/usb/music/`. -/
theorem path_is_stored_or_mountpoint_plus_relative_witness :
    ∃ r, Folder.path (Scenario.usbLibrary "/mnt/usb/") Scenario.usbDb
        (Folder.ofRow ⟨1, "music/", none, false, 1, true, true⟩) = .ok r ∧
      r.value = "/mnt/usb/" ++ "music/" :=
  (path_is_stored_or_mountpoint_plus_relative (Scenario.usbLibrary "/mnt/usb/")
    Scenario.usbDb).2.1 (Folder.ofRow ⟨1, "music/", none, false, 1, true, true⟩)
    ⟨1, "usb-1", true, true⟩ (Scenario.usbFactory "/mnt/usb/") (Scenario.usb "/mnt/usb/")
    rfl rfl rfl rfl rfl

theorem pathRepeat_of_cached (self : Folder) (mp : String)
    (h : self.m_isRemovable = true) (hc : self.m_deviceMountpoint = some mp)
    (later : List (MediaLibrary × Db)) :
    Folder.pathRepeat self later =
      .ok (List.replicate later.length self.m_fullPath, [], self) := by
  induction later with
  | nil => rfl
  | cons e rest ih =>
    obtain ⟨ml, db⟩ := e
    simp [Folder.pathRepeat, path_of_cached ml db self mp h hc, ih, List.replicate_succ]

/-- C9: once the mountpoint of a folder of a removable device is resolved, by
`Folder::create`, by `Folder::fromPath` or by a first `path()`, every later `path()`
on that object returns the same string and makes no call to the filesystem provider,
whatever the provider and the database (so the device presence too) are by then. -/
theorem path_resolved_once_is_reused (ml : MediaLibrary) (db : Db)
    (later : List (MediaLibrary × Db)) :
    (∀ (fullPath : String) (parentId : Nat) (device : DeviceRow) (deviceFs : FsDevice)
      (self : Folder) (db' : Db), device.isRemovable = true →
      Folder.create ml db fullPath parentId device deviceFs = (some self, db') →
      Folder.pathRepeat self later =
        .ok (List.replicate later.length (deviceFs.mountpoint ++ self.m_path), [], self)) ∧
    (∀ (fullPath : String) (bt : BannedType) (self : Folder),
      Folder.fromPath ml db fullPath bt = some self → self.m_isRemovable = true →
      Folder.pathRepeat self later =
        .ok (List.replicate later.length self.m_fullPath, [], self)) ∧
    (∀ (self : Folder) (first : PathResult), self.m_isRemovable = true →
      Folder.path ml db self = .ok first →
      Folder.pathRepeat first.self later =
        .ok (List.replicate later.length first.value, [], first.self)) := by
  refine ⟨?_, ?_, ?_⟩
  · intro fullPath parentId device deviceFs self db' hr hc
    obtain ⟨h1, h2, _, h4⟩ := create_removable_cached ml db db' fullPath parentId device
      deviceFs self hr hc
    rw [pathRepeat_of_cached self _ h1 h2, h4]
  · intro fullPath bt self h hr
    obtain ⟨fac, dir, dfs, _, _, _, h4, _, _⟩ :=
      fromPath_removable_cached ml db fullPath bt self h hr
    exact pathRepeat_of_cached self _ hr h4 later
  · intro self first hr hp
    cases hc : self.m_deviceMountpoint with
    | some mp =>
      rw [path_of_cached ml db self mp hr hc] at hp
      simp only [Except.ok.injEq] at hp
      subst hp
      exact pathRepeat_of_cached self mp hr hc later
    | none =>
      cases hf : ml.fsFactoryForPath self.m_fullPath with
      | none => simp [Folder.path, hr, hc, hf] at hp
      | some fac =>
        cases hd : Device.fetch db self.m_deviceId with
        | none => simp [Folder.path, hr, hc, hf, hd] at hp
        | some d =>
          cases hm : fac.createDevice d.uuid with
          | none => simp [Folder.path, hr, hc, hf, hd, hm] at hp
          | some dfs =>
            rw [path_of_uncached ml db self d fac dfs hr hc hd hf hm] at hp
            simp only [Except.ok.injEq] at hp
            subst hp
            exact pathRepeat_of_cached
              { self with m_deviceMountpoint := some dfs.mountpoint,
                          m_fullPath := dfs.mountpoint ++ self.m_path }
              dfs.mountpoint hr rfl later

/-- C9 at the scenario of a removable device: the folder found by `fromPath` while
the device is mounted at `/mnt/usb/` answers three later `path()` calls, made after
the device was marked absent and remounted at `/media/usb/`, with the same string
and without a provider call. -/
theorem path_resolved_once_is_reused_witness :
    Folder.fromPath (Scenario.usbLibrary "/mnt/usb/") Scenario.usbDb "/mnt/usb/music/"
      BannedType.No = some Scenario.usbMusic ∧
    Folder.pathRepeat Scenario.usbMusic
        (List.replicate 3 (Scenario.usbLibrary "/media/usb/",
          Device.setPresent Scenario.usbDb 1 false)) =
      .ok (["/mnt/usb/music/", "/mnt/usb/music/", "/mnt/usb/music/"], [], Scenario.usbMusic) :=
  ⟨by decide,
   (path_resolved_once_is_reused (Scenario.usbLibrary "/mnt/usb/") Scenario.usbDb
      (List.replicate 3 (Scenario.usbLibrary "/media/usb/",
        Device.setPresent Scenario.usbDb 1 false))).2.1
      "/mnt/usb/music/" BannedType.No Scenario.usbMusic (by decide) rfl⟩

/-- C10 fails on the code: the folder found while the device is mounted at
`/mnt/usb/` keeps its cached mountpoint after the device is marked absent; the next
`path()`, with the device now mounted at `/media/usb/`, returns the old full path
and makes no provider call, while a resolution through the provider (the same row,
loaded anew) yields `/media/usb/music/`. -/
theorem path_after_presence_change_counterexample :
    Folder.fromPath (Scenario.usbLibrary "/mnt/usb/") Scenario.usbDb "/mnt/usb/music/"
      BannedType.No = some Scenario.usbMusic ∧
    Device.fetch (Device.setPresent Scenario.usbDb 1 false) 1 = some ⟨1, "usb-1", true, false⟩ ∧
    Folder.path (Scenario.usbLibrary "/media/usb/") (Device.setPresent Scenario.usbDb 1 false)
      Scenario.usbMusic = .ok ⟨"/mnt/usb/music/", Scenario.usbMusic, []⟩ ∧
    (Folder.path (Scenario.usbLibrary "/media/usb/") (Device.setPresent Scenario.usbDb 1 false)
      (Folder.ofRow ⟨1, "music/", none, false, 1, false, true⟩)).map (fun r => r.value) =
      .ok "/media/usb/music/" := by
  decide

/-- C10 as amended: the mountpoint cell of a folder object of a removable device is
not invalidated by a change of the device presence: after `is_present` of any device
is set to any value, `path()` on the object returns the cached full path, leaves the
object as it is and makes no provider call. Only an object loaded anew from its row
has an empty cell, and its first `path()` resolves the mountpoint through the
provider (three provider calls). -/
theorem path_after_presence_change_keeps_cache (ml : MediaLibrary) (db : Db) (dev : Nat)
    (present : Bool) :
    (∀ (self : Folder) (mp : String), self.m_isRemovable = true →
      self.m_deviceMountpoint = some mp →
      Folder.path ml (Device.setPresent db dev present) self =
        .ok ⟨self.m_fullPath, self, []⟩) ∧
    (∀ (row : FolderRow) (d : DeviceRow) (fac : FsFactory) (dfs : FsDevice),
      row.isRemovable = true →
      Device.fetch (Device.setPresent db dev present) row.deviceId = some d →
      ml.fsFactoryForPath "" = some fac → fac.createDevice d.uuid = some dfs →
      ∃ r, Folder.path ml (Device.setPresent db dev present) (Folder.ofRow row) = .ok r ∧
        r.value = dfs.mountpoint ++ row.path ∧
        r.providerCalls = [ProviderCall.fsFactoryForPath "", ProviderCall.createDevice d.uuid,
          ProviderCall.mountpoint d.uuid]) := by
  refine ⟨fun self mp hr hc => path_of_cached ml _ self mp hr hc, ?_⟩
  intro row d fac dfs hr hd hf hm
  exact ⟨_, path_of_uncached ml _ (Folder.ofRow row) d fac dfs hr rfl hd hf hm, rfl, rfl⟩

/-- C10 as amended, at the scenario of the removable device: after the device is
marked absent the cached object still answers `/mnt/usb/music/`. -/
theorem path_after_presence_change_keeps_cache_witness :
    Scenario.usbMusic.m_isRemovable = true ∧
    Scenario.usbMusic.m_deviceMountpoint = some "/mnt/usb/" ∧
    Folder.path (Scenario.usbLibrary "/media/usb/") (Device.setPresent Scenario.usbDb 1 false)
      Scenario.usbMusic = .ok ⟨"/mnt/usb/music/", Scenario.usbMusic, []⟩ :=
  ⟨rfl, rfl,
   (path_after_presence_change_keeps_cache (Scenario.usbLibrary "/media/usb/") Scenario.usbDb 1
      false).1 Scenario.usbMusic "/mnt/usb/" rfl rfl⟩

/-! ### Storage operations -/

theorem le_maxFolderId (rows : List FolderRow) (r : FolderRow) (h : r ∈ rows) :
    r.id ≤ maxFolderId rows := by
  induction rows with
  | nil => cases h
  | cons a rest ih =>
    simp only [maxFolderId, List.foldr_cons]
    rcases List.mem_cons.mp h with rfl | h
    · exact le_max_left _ _
    · exact le_trans (ih h) (le_max_right _ _)

theorem le_maxDeviceId (rows : List DeviceRow) (r : DeviceRow) (h : r ∈ rows) :
    r.id ≤ maxDeviceId rows := by
  induction rows with
  | nil => cases h
  | cons a rest ih =>
    simp only [maxDeviceId, List.foldr_cons]
    rcases List.mem_cons.mp h with rfl | h
    · exact le_max_left _ _
    · exact le_trans (ih h) (le_max_right _ _)

theorem insertFolderRow_conflict (db : Db) (path : String) (parent : Option Nat)
    (isBlacklisted : Bool) (deviceId : Nat) (isRemovable : Bool)
    (h : ∃ r ∈ db.folders, r.path = path ∧ r.deviceId = deviceId) :
    insertFolderRow db path parent isBlacklisted deviceId isRemovable = (0, db) := by
  have : db.folders.any (fun r => decide (r.path = path) && decide (r.deviceId = deviceId))
      = true := by
    simp only [List.any_eq_true, Bool.and_eq_true, decide_eq_true_eq]
    exact h
  simp [insertFolderRow, this]

theorem insertFolderRow_fail_or_append (db : Db) (path : String) (parent : Option Nat)
    (isBlacklisted : Bool) (deviceId : Nat) (isRemovable : Bool) :
    insertFolderRow db path parent isBlacklisted deviceId isRemovable = (0, db) ∨
    (insertFolderRow db path parent isBlacklisted deviceId isRemovable =
        (max db.folderSeq (maxFolderId db.folders) + 1,
         { db with
           folders := db.folders ++ [⟨max db.folderSeq (maxFolderId db.folders) + 1, path,
             parent, isBlacklisted, deviceId, true, isRemovable⟩]
           folderSeq := max db.folderSeq (maxFolderId db.folders) + 1 }) ∧
      (∀ r ∈ db.folders, r.path = path → r.deviceId ≠ deviceId) ∧
      (∃ d ∈ db.devices, d.id = deviceId)) := by
  unfold insertFolderRow
  by_cases h1 : db.folders.any (fun r => decide (r.path = path) && decide (r.deviceId = deviceId))
      = true
  · left; simp [h1]
  · by_cases h2 : db.devices.any (fun d => decide (d.id = deviceId)) = true
    · by_cases h3 : (match parent with
          | some p => !(db.folders.any (fun r => decide (r.id = p)))
          | none => false) = true
      · left; simp only [h1, h2, h3]; simp
      · right
        refine ⟨?_, ?_, ?_⟩
        · simp only [h1, h2, h3]; simp
        · intro r hr hp hd
          apply h1
          simp only [List.any_eq_true, Bool.and_eq_true, decide_eq_true_eq]
          exact ⟨r, hr, hp, hd⟩
        · simpa only [List.any_eq_true, decide_eq_true_eq] using h2
    · left; simp [h1, h2]

theorem destroy_devices (db : Db) (id : Nat) : (Folder.destroy db id).devices = db.devices := by
  unfold Folder.destroy
  split <;> rfl

theorem destroy_folderSeq (db : Db) (id : Nat) :
    (Folder.destroy db id).folderSeq = db.folderSeq := by
  unfold Folder.destroy
  split <;> rfl

theorem destroy_folders_sublist (db : Db) (id : Nat) :
    (Folder.destroy db id).folders.Sublist db.folders := by
  unfold Folder.destroy
  split
  · exact List.filter_sublist _
  · exact List.Sublist.refl _

theorem destroyFound_devices (db : Db) (f : Option Folder) :
    (Folder.destroyFound db f).devices = db.devices := by
  cases f with
  | none => rfl
  | some x => exact destroy_devices db x.m_id

theorem destroyFound_folders_sublist (db : Db) (f : Option Folder) :
    (Folder.destroyFound db f).folders.Sublist db.folders := by
  cases f with
  | none => exact List.Sublist.refl _
  | some x => exact destroy_folders_sublist db x.m_id

theorem deviceCreate_cases (db : Db) (uuid : String) (isRemovable : Bool) :
    Device.create db uuid isRemovable = (none, db) ∨
    (Device.create db uuid isRemovable =
        (some ⟨max db.deviceSeq (maxDeviceId db.devices) + 1, uuid, isRemovable, true⟩,
         { db with
           devices := db.devices ++
             [⟨max db.deviceSeq (maxDeviceId db.devices) + 1, uuid, isRemovable, true⟩]
           deviceSeq := max db.deviceSeq (maxDeviceId db.devices) + 1 }) ∧
      ∀ d ∈ db.devices, d.uuid ≠ uuid) := by
  unfold Device.create
  by_cases h : db.devices.any (fun d => decide (d.uuid = uuid)) = true
  · left; simp [h]
  · right
    refine ⟨by simp [h], ?_⟩
    intro d hd hu
    apply h
    simp only [List.any_eq_true, decide_eq_true_eq]
    exact ⟨d, hd, hu⟩

theorem fromUuid_some (db : Db) (uuid : String) (d : DeviceRow)
    (h : Device.fromUuid db uuid = some d) : d ∈ db.devices ∧ d.uuid = uuid := by
  unfold Device.fromUuid at h
  exact ⟨List.mem_of_find?_eq_some h, by simpa using List.find?_some h⟩

theorem fromUuidOrCreate_cases (db dbc : Db) (dfs : FsDevice) (device : DeviceRow)
    (h : Device.fromUuidOrCreate db dfs = (some device, dbc)) :
    (Device.fromUuid db dfs.uuid = some device ∧ dbc = db) ∨
    (Device.fromUuid db dfs.uuid = none ∧
      device = ⟨max db.deviceSeq (maxDeviceId db.devices) + 1, dfs.uuid, dfs.isRemovable, true⟩ ∧
      dbc = { db with
        devices := db.devices ++ [device]
        deviceSeq := max db.deviceSeq (maxDeviceId db.devices) + 1 }) := by
  unfold Device.fromUuidOrCreate at h
  cases hf : Device.fromUuid db dfs.uuid with
  | some d =>
    simp only [hf, Prod.mk.injEq, Option.some.injEq] at h
    left; exact ⟨by rw [h.1], h.2.symm⟩
  | none =>
    simp only [hf] at h
    right
    rcases deviceCreate_cases db dfs.uuid dfs.isRemovable with hc | ⟨hc, _⟩
    · rw [hc] at h; simp at h
    · rw [hc] at h
      simp only [Prod.mk.injEq, Option.some.injEq] at h
      obtain ⟨h1, h2⟩ := h
      subst h1
      exact ⟨rfl, rfl, h2.symm⟩

theorem blacklist_resolved (ml : MediaLibrary) (db : Db) (fullPath : String) (fac : FsFactory)
    (dir : FsDirectory) (dfs : FsDevice) (hfac : ml.fsFactoryForPath fullPath = some fac)
    (hdir : fac.createDirectory fullPath = some dir) (hdev : dir.device = some dfs) :
    Folder.blacklist ml db fullPath =
      if (Folder.fromPath ml db fullPath BannedType.Any).map (fun x => x.m_isBlacklisted)
          = some true then .ok (true, db)
      else
        match (Device.fromUuidOrCreate
          (Folder.destroyFound db (Folder.fromPath ml db fullPath BannedType.Any)) dfs).1 with
        | none => .error Fault.nullDevice
        | some device =>
          .ok ((insertFolderRow (Device.fromUuidOrCreate
                  (Folder.destroyFound db (Folder.fromPath ml db fullPath BannedType.Any)) dfs).2
                (if dfs.isRemovable then ml.removePath fullPath dfs.mountpoint else fullPath)
                none true device.id dfs.isRemovable).1 != 0,
               (insertFolderRow (Device.fromUuidOrCreate
                  (Folder.destroyFound db (Folder.fromPath ml db fullPath BannedType.Any)) dfs).2
                (if dfs.isRemovable then ml.removePath fullPath dfs.mountpoint else fullPath)
                none true device.id dfs.isRemovable).2) := by
  simp only [Folder.blacklist, hfac, hdir, hdev]

/-- Every way in which `Folder::blacklist` returns: without a change, or after the
optional destroy, the device lookup or creation, and the insert of the ban record. -/
theorem blacklist_ok_cases (ml : MediaLibrary) (db db' : Db) (fullPath : String) (res : Bool)
    (h : Folder.blacklist ml db fullPath = .ok (res, db')) :
    db' = db ∨
    ∃ fac dir dfs device dbc,
      ml.fsFactoryForPath fullPath = some fac ∧ fac.createDirectory fullPath = some dir ∧
      dir.device = some dfs ∧
      (Folder.fromPath ml db fullPath BannedType.Any).map (fun x => x.m_isBlacklisted)
        ≠ some true ∧
      Device.fromUuidOrCreate
        (Folder.destroyFound db (Folder.fromPath ml db fullPath BannedType.Any)) dfs
        = (some device, dbc) ∧
      res = ((insertFolderRow dbc
          (if dfs.isRemovable then ml.removePath fullPath dfs.mountpoint else fullPath)
          none true device.id dfs.isRemovable).1 != 0) ∧
      db' = (insertFolderRow dbc
          (if dfs.isRemovable then ml.removePath fullPath dfs.mountpoint else fullPath)
          none true device.id dfs.isRemovable).2 := by
  cases hfac : ml.fsFactoryForPath fullPath with
  | none =>
    left
    simp only [Folder.blacklist, hfac] at h
    split at h <;> simp at h <;> exact h.2.symm
  | some fac =>
    cases hdir : fac.createDirectory fullPath with
    | none =>
      left
      simp only [Folder.blacklist, hfac, hdir] at h
      split at h <;> simp at h <;> exact h.2.symm
    | some dir =>
      cases hdev : dir.device with
      | none =>
        simp only [Folder.blacklist, hfac, hdir, hdev] at h
        split at h
        · left; simp at h; exact h.2.symm
        · simp at h
      | some dfs =>
        rw [blacklist_resolved ml db fullPath fac dir dfs hfac hdir hdev] at h
        split at h
        · left; simp at h; exact h.2.symm
        · rename_i hnb
          right
          cases hfound : Device.fromUuidOrCreate
            (Folder.destroyFound db (Folder.fromPath ml db fullPath BannedType.Any)) dfs with
          | mk dv dbc =>
            cases dv with
            | none => simp [hfound] at h
            | some device =>
              simp only [hfound, Except.ok.injEq, Prod.mk.injEq] at h
              exact ⟨fac, dir, dfs, device, dbc, rfl, hdir, hdev, hnb, hfound, h.1.symm, h.2.symm⟩

/-! ### Uniqueness of `(path, device_id)` -/

theorem insertFolderRow_pairs_nodup (db : Db) (path : String) (parent : Option Nat)
    (isBlacklisted : Bool) (deviceId : Nat) (isRemovable : Bool)
    (h : (db.folders.map (fun r => (r.path, r.deviceId))).Nodup) :
    ((insertFolderRow db path parent isBlacklisted deviceId isRemovable).2.folders.map
      (fun r => (r.path, r.deviceId))).Nodup := by
  rcases insertFolderRow_fail_or_append db path parent isBlacklisted deviceId isRemovable with
    hf | ⟨hs, hfree, _⟩
  · rw [hf]; exact h
  · rw [hs]
    simp only [List.map_append, List.map_cons, List.map_nil]
    rw [List.nodup_append]
    refine ⟨h, List.nodup_singleton _, ?_⟩
    intro a ha hb
    simp only [List.mem_singleton] at hb
    subst hb
    simp only [List.mem_map, Prod.mk.injEq] at ha
    obtain ⟨r, hr, hp, hd⟩ := ha
    exact hfree r hr hp hd

theorem deviceCreate_folders (db : Db) (uuid : String) (isRemovable : Bool) :
    (Device.create db uuid isRemovable).2.folders = db.folders := by
  rcases deviceCreate_cases db uuid isRemovable with h | ⟨h, _⟩ <;> rw [h]

theorem fromUuidOrCreate_folders (db : Db) (dfs : FsDevice) :
    (Device.fromUuidOrCreate db dfs).2.folders = db.folders := by
  unfold Device.fromUuidOrCreate
  split
  · rfl
  · exact deviceCreate_folders db dfs.uuid dfs.isRemovable

theorem trigger_pairs (folders : List FolderRow) (dev : Nat) (b : Bool) :
    (isDevicePresentTrigger folders dev b).map (fun r => (r.path, r.deviceId)) =
      folders.map (fun r => (r.path, r.deviceId)) := by
  unfold isDevicePresentTrigger
  rw [List.map_map]
  apply List.map_congr_left
  intro r _
  by_cases h : r.deviceId = dev <;> simp [h]

theorem setPresent_pairs (db : Db) (dev : Nat) (b : Bool) :
    (Device.setPresent db dev b).folders.map (fun r => (r.path, r.deviceId)) =
      db.folders.map (fun r => (r.path, r.deviceId)) := by
  unfold Device.setPresent
  split
  · exact trigger_pairs db.folders dev b
  · rfl

theorem create_cases (ml : MediaLibrary) (db : Db) (fullPath : String) (parentId : Nat)
    (device : DeviceRow) (deviceFs : FsDevice) :
    Folder.create ml db fullPath parentId device deviceFs = (none, db) ∨
    (Folder.create ml db fullPath parentId device deviceFs).2 =
      (insertFolderRow db
        (if device.isRemovable then ml.removePath fullPath deviceFs.mountpoint else fullPath)
        (foreignKey parentId) false device.id device.isRemovable).2 := by
  by_cases h0 : (insertFolderRow db
      (if device.isRemovable then ml.removePath fullPath deviceFs.mountpoint else fullPath)
      (foreignKey parentId) false device.id device.isRemovable).1 = 0
  · left
    simp only [Folder.create, h0, if_true]
  · right
    simp only [Folder.create, h0, if_false]
    split <;> rfl

theorem create_pairs_nodup (ml : MediaLibrary) (db : Db) (fullPath : String) (parentId : Nat)
    (device : DeviceRow) (deviceFs : FsDevice)
    (h : (db.folders.map (fun r => (r.path, r.deviceId))).Nodup) :
    ((Folder.create ml db fullPath parentId device deviceFs).2.folders.map
      (fun r => (r.path, r.deviceId))).Nodup := by
  rcases create_cases ml db fullPath parentId device deviceFs with hc | hc
  · rw [hc]; exact h
  · rw [hc]; exact insertFolderRow_pairs_nodup db _ _ _ _ _ h

theorem blacklist_pairs_nodup (ml : MediaLibrary) (db db' : Db) (fullPath : String) (res : Bool)
    (hb : Folder.blacklist ml db fullPath = .ok (res, db'))
    (h : (db.folders.map (fun r => (r.path, r.deviceId))).Nodup) :
    (db'.folders.map (fun r => (r.path, r.deviceId))).Nodup := by
  rcases blacklist_ok_cases ml db db' fullPath res hb with rfl | ⟨fac, dir, dfs, device, dbc,
    _, _, _, _, hfound, _, hdb⟩
  · exact h
  · rw [hdb]
    apply insertFolderRow_pairs_nodup
    have hfold : dbc.folders = (Folder.destroyFound db
        (Folder.fromPath ml db fullPath BannedType.Any)).folders := by
      have := fromUuidOrCreate_folders (Folder.destroyFound db
        (Folder.fromPath ml db fullPath BannedType.Any)) dfs
      rw [hfound] at this
      exact this
    rw [hfold]
    exact List.Nodup.sublist ((destroyFound_folders_sublist db _).map _) h

theorem blacklist_false_inserts_nothing (ml : MediaLibrary) (db db' : Db) (fullPath : String)
    (hb : Folder.blacklist ml db fullPath = .ok (false, db')) :
    db'.folders.Sublist db.folders := by
  rcases blacklist_ok_cases ml db db' fullPath false hb with rfl | ⟨fac, dir, dfs, device, dbc,
    _, _, _, _, hfound, hres, hdb⟩
  · exact List.Sublist.refl _
  · have hfold : dbc.folders = (Folder.destroyFound db
        (Folder.fromPath ml db fullPath BannedType.Any)).folders := by
      have := fromUuidOrCreate_folders (Folder.destroyFound db
        (Folder.fromPath ml db fullPath BannedType.Any)) dfs
      rw [hfound] at this
      exact this
    rcases insertFolderRow_fail_or_append dbc
      (if dfs.isRemovable then ml.removePath fullPath dfs.mountpoint else fullPath)
      none true device.id dfs.isRemovable with hf | ⟨hs, _, _⟩
    · rw [hdb, hf, hfold]
      exact destroyFound_folders_sublist db _
    · rw [hs] at hres
      simp at hres

theorem reachable_pairs_nodup (db : Db) (h : Reachable db) :
    (db.folders.map (fun r => (r.path, r.deviceId))).Nodup := by
  induction h with
  | init => exact List.nodup_nil
  | deviceCreate uuid isRemovable _ ih => rw [deviceCreate_folders]; exact ih
  | setPresent deviceId present _ ih => rw [setPresent_pairs]; exact ih
  | folderCreate ml fullPath parentId device deviceFs _ ih =>
    exact create_pairs_nodup ml _ fullPath parentId device deviceFs ih
  | blacklist ml fullPath res db' _ hb ih =>
    exact blacklist_pairs_nodup ml _ db' fullPath res hb ih

/-- C7: in every state reachable through device creation, presence updates,
`Folder::create` and `Folder::blacklist`, no two folder rows share the pair
(stored path, device id). From such a state, a `Folder::create` whose pair is
already stored returns null and leaves the database as it is; the insert that both
operations use fails on a stored pair; and whatever `Folder::blacklist` returns, the
pairs are still distinct afterwards and a ban that returns false has inserted no
row. -/
theorem reachable_path_device_unique (db : Db) (h : Reachable db) :
    (db.folders.map (fun r => (r.path, r.deviceId))).Nodup ∧
    (∀ (ml : MediaLibrary) (fullPath : String) (parentId : Nat) (device : DeviceRow)
      (deviceFs : FsDevice),
      (∃ r ∈ db.folders,
        r.path = (if device.isRemovable then ml.removePath fullPath deviceFs.mountpoint
          else fullPath) ∧ r.deviceId = device.id) →
      Folder.create ml db fullPath parentId device deviceFs = (none, db)) ∧
    (∀ (path : String) (parent : Option Nat) (isBlacklisted : Bool) (deviceId : Nat)
      (isRemovable : Bool), (∃ r ∈ db.folders, r.path = path ∧ r.deviceId = deviceId) →
      insertFolderRow db path parent isBlacklisted deviceId isRemovable = (0, db)) ∧
    (∀ (ml : MediaLibrary) (fullPath : String) (res : Bool) (db' : Db),
      Folder.blacklist ml db fullPath = .ok (res, db') →
      (db'.folders.map (fun r => (r.path, r.deviceId))).Nodup ∧
      (res = false → db'.folders.Sublist db.folders)) := by
  have hn := reachable_pairs_nodup db h
  refine ⟨hn, ?_, ?_, ?_⟩
  · intro ml fullPath parentId device deviceFs hex
    have := insertFolderRow_conflict db _ (foreignKey parentId) false device.id
      device.isRemovable hex
    simp only [Folder.create, this, if_true]
  · intro path parent isBlacklisted deviceId isRemovable hex
    exact insertFolderRow_conflict db path parent isBlacklisted deviceId isRemovable hex
  · intro ml fullPath res db' hb
    refine ⟨blacklist_pairs_nodup ml db db' fullPath res hb hn, ?_⟩
    intro hres
    subst hres
    exact blacklist_false_inserts_nothing ml db db' fullPath hb

/-! ### Folder presence mirrors device presence -/

theorem mirrored_deviceCreate (db : Db) (uuid : String) (isRemovable : Bool)
    (h : db.Mirrored) : (Device.create db uuid isRemovable).2.Mirrored := by
  rcases deviceCreate_cases db uuid isRemovable with hc | ⟨hc, _⟩
  · rw [hc]; exact h
  · rw [hc]
    obtain ⟨hu, hfk, hm⟩ := h
    have fresh : ∀ d ∈ db.devices, d.id ≠ max db.deviceSeq (maxDeviceId db.devices) + 1 := by
      intro d hd heq
      have := le_maxDeviceId db.devices d hd
      have := le_max_right db.deviceSeq (maxDeviceId db.devices)
      omega
    refine ⟨?_, ?_, ?_⟩
    · intro d1 h1 d2 h2 heq
      simp only [List.mem_append, List.mem_singleton] at h1 h2
      rcases h1 with h1 | rfl <;> rcases h2 with h2 | rfl
      · exact hu d1 h1 d2 h2 heq
      · exact absurd heq (fresh d1 h1)
      · exact absurd heq.symm (fresh d2 h2)
      · rfl
    · intro f hf
      obtain ⟨d, hd, hid⟩ := hfk f hf
      exact ⟨d, List.mem_append_left _ hd, hid⟩
    · intro f hf d hd hid
      simp only [List.mem_append, List.mem_singleton] at hd
      rcases hd with hd | rfl
      · exact hm f hf d hd hid
      · obtain ⟨d0, hd0, hid0⟩ := hfk f hf
        exact absurd (hid0.trans hid.symm) (fresh d0 hd0)

theorem setPresent_device_id (d : DeviceRow) (dev : Nat) (b : Bool) :
    (if d.id = dev then { d with isPresent := b } else d).id = d.id := by
  split <;> rfl

theorem trigger_row_deviceId (f : FolderRow) (dev : Nat) (b : Bool) :
    (if f.deviceId = dev then { f with isPresent := b } else f).deviceId = f.deviceId := by
  split <;> rfl

theorem mirrored_setPresent (db : Db) (dev : Nat) (b : Bool) (h : db.Mirrored) :
    (Device.setPresent db dev b).Mirrored := by
  unfold Device.setPresent
  split
  · obtain ⟨hu, hfk, hm⟩ := h
    refine ⟨?_, ?_, ?_⟩
    · intro d1 h1 d2 h2 heq
      simp only [List.mem_map] at h1 h2
      obtain ⟨a1, ha1, rfl⟩ := h1
      obtain ⟨a2, ha2, rfl⟩ := h2
      rw [setPresent_device_id, setPresent_device_id] at heq
      rw [hu a1 ha1 a2 ha2 heq]
    · intro f hf
      rw [mem_isDevicePresentTrigger] at hf
      obtain ⟨f0, hf0, rfl⟩ := hf
      obtain ⟨d, hd, hid⟩ := hfk f0 hf0
      refine ⟨if d.id = dev then { d with isPresent := b } else d,
        List.mem_map.mpr ⟨d, hd, rfl⟩, ?_⟩
      rw [setPresent_device_id, trigger_row_deviceId]
      exact hid
    · intro f hf d hd hid
      rw [mem_isDevicePresentTrigger] at hf
      obtain ⟨f0, hf0, rfl⟩ := hf
      simp only [List.mem_map] at hd
      obtain ⟨d0, hd0, rfl⟩ := hd
      rw [setPresent_device_id, trigger_row_deviceId] at hid
      by_cases c : f0.deviceId = dev
      · have c' : d0.id = dev := hid.trans c
        simp [c, c']
      · have c' : ¬ d0.id = dev := fun e => c (hid.symm.trans e)
        simp only [c, c', if_false]
        exact hm f0 hf0 d0 hd0 hid
  · exact h

theorem mirrored_of_sublist (db db' : Db) (hd : db'.devices = db.devices)
    (hs : db'.folders.Sublist db.folders) (h : db.Mirrored) : db'.Mirrored := by
  obtain ⟨hu, hfk, hm⟩ := h
  refine ⟨?_, ?_, ?_⟩
  · rw [hd]; exact hu
  · intro f hf; rw [hd]; exact hfk f (hs.subset hf)
  · intro f hf; rw [hd]; exact hm f (hs.subset hf)

theorem mirrored_insert (db : Db) (path : String) (parent : Option Nat) (isBlacklisted : Bool)
    (deviceId : Nat) (isRemovable : Bool) (h : db.Mirrored)
    (hp : ∀ d ∈ db.devices, d.id = deviceId → d.isPresent = true) :
    (insertFolderRow db path parent isBlacklisted deviceId isRemovable).2.Mirrored := by
  rcases insertFolderRow_fail_or_append db path parent isBlacklisted deviceId isRemovable with
    hf | ⟨hs, _, hex⟩
  · rw [hf]; exact h
  · rw [hs]
    obtain ⟨hu, hfk, hm⟩ := h
    refine ⟨hu, ?_, ?_⟩
    · intro f hf
      simp only [List.mem_append, List.mem_singleton] at hf
      rcases hf with hf | rfl
      · exact hfk f hf
      · exact hex
    · intro f hf d hd hid
      simp only [List.mem_append, List.mem_singleton] at hf
      rcases hf with hf | rfl
      · exact hm f hf d hd hid
      · exact (hp d hd hid).symm

theorem mirrored_create (ml : MediaLibrary) (db : Db) (fullPath : String) (parentId : Nat)
    (device : DeviceRow) (deviceFs : FsDevice) (h : db.Mirrored)
    (hp : ∀ d ∈ db.devices, d.id = device.id → d.isPresent = true) :
    (Folder.create ml db fullPath parentId device deviceFs).2.Mirrored := by
  rcases create_cases ml db fullPath parentId device deviceFs with hc | hc
  · rw [hc]; exact h
  · rw [hc]; exact mirrored_insert db _ _ _ _ _ h hp

theorem mirrored_blacklist (ml : MediaLibrary) (db db' : Db) (fullPath : String) (res : Bool)
    (hb : Folder.blacklist ml db fullPath = .ok (res, db')) (h : db.Mirrored)
    (hp : BanTargetPresent ml db fullPath) : db'.Mirrored := by
  rcases blacklist_ok_cases ml db db' fullPath res hb with rfl | ⟨fac, dir, dfs, device, dbc,
    hfac, hdir, hdev, _, hfound, _, hdb⟩
  · exact h
  · have hd : (Folder.destroyFound db (Folder.fromPath ml db fullPath BannedType.Any)).Mirrored :=
      mirrored_of_sublist db _ (destroyFound_devices db _) (destroyFound_folders_sublist db _) h
    have hdevs := destroyFound_devices db (Folder.fromPath ml db fullPath BannedType.Any)
    rw [hdb]
    rcases fromUuidOrCreate_cases _ dbc dfs device hfound with ⟨hfu, rfl⟩ | ⟨hfu, hnew, hdbc⟩
    · apply mirrored_insert _ _ _ _ _ _ hd
      obtain ⟨hmem, huuid⟩ := fromUuid_some _ _ _ hfu
      intro d hdm hid
      rw [hd.1 d hdm device hmem hid]
      rw [hdevs] at hmem
      exact hp fac dir dfs hfac hdir hdev device hmem huuid
    · have hc := mirrored_deviceCreate _ dfs.uuid dfs.isRemovable hd
      have hcreate : (Device.create (Folder.destroyFound db
          (Folder.fromPath ml db fullPath BannedType.Any)) dfs.uuid dfs.isRemovable).2 = dbc := by
        have := hfound
        unfold Device.fromUuidOrCreate at this
        rw [hfu] at this
        simp only at this
        rw [this]
      rw [hcreate] at hc
      apply mirrored_insert _ _ _ _ _ _ hc
      intro d hdm hid
      have hmem : device ∈ dbc.devices := by rw [hdbc]; simp
      rw [hc.1 d hdm device hmem hid, hnew]

theorem reachableWhilePresent_mirrored (db : Db) (h : ReachableWhilePresent db) :
    db.Mirrored := by
  induction h with
  | init => refine ⟨?_, ?_, ?_⟩ <;> intro x hx <;> exact absurd hx (List.not_mem_nil _)
  | deviceCreate uuid isRemovable _ ih => exact mirrored_deviceCreate _ uuid isRemovable ih
  | setPresent deviceId present _ ih => exact mirrored_setPresent _ deviceId present ih
  | folderCreate ml fullPath parentId device deviceFs _ hp ih =>
    exact mirrored_create ml _ fullPath parentId device deviceFs ih hp
  | blacklist ml fullPath res db' _ hp hb ih =>
    exact mirrored_blacklist ml _ db' fullPath res hb ih hp

theorem Scenario.diskDb_steps :
    Folder.blacklist Scenario.diskLibrary
      (Folder.create Scenario.diskLibrary (Device.create Db.empty "dev-1" false).2 "/music" 0
        ⟨1, "dev-1", false, true⟩ Scenario.disk).2 "/videos" = .ok (true, Scenario.diskDb) := by
  decide

theorem Scenario.absentDiskDb_steps :
    Folder.blacklist Scenario.diskLibrary
      (Folder.create Scenario.diskLibrary
        (Device.setPresent (Device.create Db.empty "dev-1" false).2 1 false) "/music" 0
        ⟨1, "dev-1", false, true⟩ Scenario.disk).2 "/videos"
      = .ok (true, Scenario.absentDiskDb) := by
  decide

theorem Scenario.diskDb_reachable : Reachable Scenario.diskDb :=
  Reachable.blacklist Scenario.diskLibrary "/videos" true Scenario.diskDb
    (Reachable.folderCreate Scenario.diskLibrary "/music" 0 ⟨1, "dev-1", false, true⟩
      Scenario.disk (Reachable.deviceCreate "dev-1" false Reachable.init))
    Scenario.diskDb_steps

/-- C7 at `Scenario.diskDb`, reached by registering the disk, creating `/music` and
banning `/videos`: the pairs are distinct, and creating `/music` again on the same
device returns null and changes nothing. -/
theorem reachable_path_device_unique_witness :
    Reachable Scenario.diskDb ∧
    (Scenario.diskDb.folders.map (fun r => (r.path, r.deviceId))).Nodup ∧
    Folder.create Scenario.diskLibrary Scenario.diskDb "/music" 0 ⟨1, "dev-1", false, true⟩
      Scenario.disk = (none, Scenario.diskDb) :=
  ⟨Scenario.diskDb_reachable,
   (reachable_path_device_unique Scenario.diskDb Scenario.diskDb_reachable).1,
   (reachable_path_device_unique Scenario.diskDb Scenario.diskDb_reachable).2.1
      Scenario.diskLibrary "/music" 0 ⟨1, "dev-1", false, true⟩ Scenario.disk
      ⟨⟨1, "/music", none, false, 1, true, false⟩, by decide, by decide⟩⟩

/-- C6 fails on the code: register the disk, mark it absent, then create `/music`
and ban `/videos`. The state is reachable and both folder rows have
`is_present = 1` while the device they reference has `is_present = 0`. -/
theorem presence_mirror_counterexample :
    Reachable Scenario.absentDiskDb ∧
    ∀ f ∈ Scenario.absentDiskDb.folders, ∃ d ∈ Scenario.absentDiskDb.devices,
      d.id = f.deviceId ∧ f.isPresent = true ∧ d.isPresent = false :=
  ⟨Reachable.blacklist Scenario.diskLibrary "/videos" true Scenario.absentDiskDb
    (Reachable.folderCreate Scenario.diskLibrary "/music" 0 ⟨1, "dev-1", false, true⟩
      Scenario.disk
      (Reachable.setPresent 1 false (Reachable.deviceCreate "dev-1" false Reachable.init)))
    Scenario.absentDiskDb_steps,
   by decide⟩

/-- C6 as amended: in every state reachable through device creation, device
presence updates, `Folder::create` and `Folder::blacklist`, where the last two are
applied only while the device they insert a row for is marked present, every folder
row references a registered device and its `is_present` equals the `is_present` of
that device. -/
theorem reachableWhilePresent_presence_mirrors_device (db : Db)
    (h : ReachableWhilePresent db) :
    ∀ f ∈ db.folders, (∃ d ∈ db.devices, d.id = f.deviceId) ∧
      ∀ d ∈ db.devices, d.id = f.deviceId → f.isPresent = d.isPresent :=
  fun f hf => ⟨(reachableWhilePresent_mirrored db h).2.1 f hf,
    (reachableWhilePresent_mirrored db h).2.2 f hf⟩

theorem Scenario.diskDb_reachableWhilePresent : ReachableWhilePresent Scenario.diskDb := by
  refine ReachableWhilePresent.blacklist Scenario.diskLibrary "/videos" true Scenario.diskDb
    (ReachableWhilePresent.folderCreate Scenario.diskLibrary "/music" 0
      ⟨1, "dev-1", false, true⟩ Scenario.disk
      (ReachableWhilePresent.deviceCreate "dev-1" false ReachableWhilePresent.init)
      (by decide)) ?_ Scenario.diskDb_steps
  intro fac dir dfs _ _ _ d hd _
  have hdev : (Folder.create Scenario.diskLibrary (Device.create Db.empty "dev-1" false).2
      "/music" 0 ⟨1, "dev-1", false, true⟩ Scenario.disk).2.devices
      = [⟨1, "dev-1", false, true⟩] := by decide
  rw [hdev, List.mem_singleton] at hd
  rw [hd]

/-- C6 as amended, at the state reached by registering the disk, creating `/music`,
banning `/videos` and then marking the disk absent: both rows follow the device. -/
theorem reachableWhilePresent_presence_mirrors_device_witness :
    ReachableWhilePresent (Device.setPresent Scenario.diskDb 1 false) ∧
    ∀ f ∈ (Device.setPresent Scenario.diskDb 1 false).folders,
      (∃ d ∈ (Device.setPresent Scenario.diskDb 1 false).devices, d.id = f.deviceId) ∧
      ∀ d ∈ (Device.setPresent Scenario.diskDb 1 false).devices,
        d.id = f.deviceId → f.isPresent = d.isPresent :=
  ⟨ReachableWhilePresent.setPresent 1 false Scenario.diskDb_reachableWhilePresent,
   reachableWhilePresent_presence_mirrors_device (Device.setPresent Scenario.diskDb 1 false)
     (ReachableWhilePresent.setPresent 1 false Scenario.diskDb_reachableWhilePresent)⟩

/-! ### The delete cascade -/

theorem cascadeDelete_facts (budget : Nat) (rows : List FolderRow) :
    ∀ (id : Nat) (dead : List Nat),
      (∀ x ∈ dead, x ∈ (cascadeDelete budget rows id dead).1) ∧
      id ∈ (cascadeDelete budget rows id dead).1 ∧
      ((cascadeDelete budget rows id dead).2 = true →
        ∀ r ∈ rows, ∀ p, r.parent = some p → p ∈ (cascadeDelete budget rows id dead).1 →
          p ∉ dead → r.id ∈ (cascadeDelete budget rows id dead).1) := by
  induction budget with
  | zero =>
    intro id dead
    refine ⟨?_, ?_, ?_⟩
    · intro x hx
      simp [cascadeDelete, hx]
    · simp [cascadeDelete]
    · intro h
      simp [cascadeDelete] at h
  | succ n ih =>
    -- the visit of a list of children, from any state of the cascade
    have visit : ∀ (children : List FolderRow) (acc : List Nat × Bool),
        (∀ x ∈ acc.1, x ∈ (children.foldl (fun acc child =>
          if acc.2 && !(acc.1.contains child.id) then cascadeDelete n rows child.id acc.1
          else acc) acc).1) ∧
        ((children.foldl (fun acc child =>
          if acc.2 && !(acc.1.contains child.id) then cascadeDelete n rows child.id acc.1
          else acc) acc).2 = true →
          acc.2 = true ∧
          (∀ c ∈ children, c.id ∈ (children.foldl (fun acc child =>
            if acc.2 && !(acc.1.contains child.id) then cascadeDelete n rows child.id acc.1
            else acc) acc).1) ∧
          (∀ r ∈ rows, ∀ p, r.parent = some p →
            p ∈ (children.foldl (fun acc child =>
              if acc.2 && !(acc.1.contains child.id) then cascadeDelete n rows child.id acc.1
              else acc) acc).1 →
            p ∉ acc.1 →
            r.id ∈ (children.foldl (fun acc child =>
              if acc.2 && !(acc.1.contains child.id) then cascadeDelete n rows child.id acc.1
              else acc) acc).1)) := by
      intro children
      induction children with
      | nil =>
        intro acc
        refine ⟨fun x hx => hx, fun h => ⟨h, ?_, ?_⟩⟩
        · intro c hc; cases hc
        · intro r _ p _ hp hnp
          exact absurd hp hnp
      | cons c rest ihc =>
        intro acc
        simp only [List.foldl_cons]
        by_cases hcond : (acc.2 && !(acc.1.contains c.id)) = true
        · simp only [hcond, if_true]
          obtain ⟨hsub, hself, hclosed⟩ := ih c.id acc.1
          obtain ⟨hmono, hrest⟩ := ihc (cascadeDelete n rows c.id acc.1)
          refine ⟨fun x hx => hmono x (hsub x hx), ?_⟩
          intro hok
          obtain ⟨hok1, hall, hcl⟩ := hrest hok
          simp only [Bool.and_eq_true] at hcond
          refine ⟨hcond.1, ?_, ?_⟩
          · intro c' hc'
            simp only [List.mem_cons] at hc'
            rcases hc' with rfl | hc'
            · exact hmono _ hself
            · exact hall c' hc'
          · intro r hr p hp hpin hpn
            by_cases hmid : p ∈ (cascadeDelete n rows c.id acc.1).1
            · exact hmono _ (hclosed hok1 r hr p hp hmid hpn)
            · exact hcl r hr p hp hpin hmid
        · simp only [hcond, Bool.false_eq_true, if_false]
          obtain ⟨hmono, hrest⟩ := ihc acc
          refine ⟨hmono, ?_⟩
          intro hok
          obtain ⟨hok1, hall, hcl⟩ := hrest hok
          refine ⟨hok1, ?_, hcl⟩
          intro c' hc'
          simp only [List.mem_cons] at hc'
          rcases hc' with rfl | hc'
          · have : c'.id ∈ acc.1 := by
              simp only [hok1, Bool.true_and, Bool.not_eq_true', Bool.not_eq_false] at hcond
              simpa using hcond
            exact hmono _ this
          · exact hall c' hc'
    intro id dead
    obtain ⟨hmono, hrest⟩ := visit (rows.filter (fun r => r.parent == some id))
      (dead ++ [id], true)
    simp only [cascadeDelete]
    refine ⟨fun x hx => hmono x (List.mem_append_left _ hx),
      hmono id (by simp), ?_⟩
    intro hok r hr p hp hpin hpn
    obtain ⟨_, hall, hcl⟩ := hrest hok
    by_cases hpid : p = id
    · apply hall r
      rw [List.mem_filter]
      exact ⟨hr, by simp [hp, hpid]⟩
    · apply hcl r hr p hp hpin
      simp only [List.mem_append, List.mem_singleton, not_or]
      exact ⟨hpn, hpid⟩

/-- The row that the `DELETE` names is deleted, whether or not the cascade reaches
every descendant. -/
theorem cascadeDelete_self (budget : Nat) (rows : List FolderRow) (id : Nat) :
    id ∈ (cascadeDelete budget rows id []).1 :=
  (cascadeDelete_facts budget rows id []).2.1

/-- When the cascade stays within the nesting limit of the engine, every row of the
subtree is deleted. -/
theorem destroy_removes_subtree (db : Db) (root : Nat) (r : FolderRow)
    (hok : (cascadeDelete maxTriggerDepth db.folders root []).2 = true)
    (h : InSubtree db.folders root r) :
    r.id ∈ (cascadeDelete maxTriggerDepth db.folders root []).1 := by
  induction h with
  | root r _ hid => rw [hid]; exact cascadeDelete_self _ _ _
  | child r q hr _ hp ih =>
    exact (cascadeDelete_facts maxTriggerDepth db.folders root []).2.2 hok r hr q.id hp ih
      (List.not_mem_nil _)

theorem destroy_folders (db : Db) (id : Nat) (h : ∃ r ∈ db.folders, r.id = id) :
    (Folder.destroy db id).folders = db.folders.filter
      (fun r => !((cascadeDelete maxTriggerDepth db.folders id []).1.contains r.id)) ∧
    (Folder.destroy db id).files = db.files.filter
      (fun x => !((cascadeDelete maxTriggerDepth db.folders id []).1.contains x.folderId)) := by
  have : db.folders.any (fun r => decide (r.id = id)) = true := by
    simpa only [List.any_eq_true, decide_eq_true_eq] using h
  simp [Folder.destroy, cascadeFiles, this]

/-! ### Lookups and the ban record -/

theorem insertFolderRow_success (db : Db) (path : String) (isBlacklisted : Bool)
    (deviceId : Nat) (isRemovable : Bool)
    (hfree : ∀ r ∈ db.folders, r.path = path → r.deviceId ≠ deviceId)
    (hdev : ∃ d ∈ db.devices, d.id = deviceId) :
    insertFolderRow db path none isBlacklisted deviceId isRemovable =
      (max db.folderSeq (maxFolderId db.folders) + 1,
       { db with
         folders := db.folders ++ [⟨max db.folderSeq (maxFolderId db.folders) + 1, path, none,
           isBlacklisted, deviceId, true, isRemovable⟩]
         folderSeq := max db.folderSeq (maxFolderId db.folders) + 1 }) := by
  have h1 : db.folders.any (fun r => decide (r.path = path) && decide (r.deviceId = deviceId))
      = false := by
    rw [Bool.eq_false_iff]
    intro hany
    simp only [List.any_eq_true, Bool.and_eq_true, decide_eq_true_eq] at hany
    obtain ⟨r, hr, hp, hd⟩ := hany
    exact hfree r hr hp hd
  have h2 := any_device_id db deviceId hdev
  simp [insertFolderRow, h1, h2]

theorem fromPath_fixed_any (ml : MediaLibrary) (db : Db) (fullPath : String) (fac : FsFactory)
    (dir : FsDirectory) (dfs : FsDevice) (hfac : ml.fsFactoryForPath fullPath = some fac)
    (hdir : fac.createDirectory fullPath = some dir) (hdev : dir.device = some dfs)
    (hfix : dfs.isRemovable = false) :
    Folder.fromPath ml db fullPath BannedType.Any =
      Folder.fetch db (fun r => decide (r.path = dir.path) && !r.isRemovable) := by
  simp [Folder.fromPath, hfac, hdir, hdev, hfix]

theorem fromPath_fixed_no (ml : MediaLibrary) (db : Db) (fullPath : String) (fac : FsFactory)
    (dir : FsDirectory) (dfs : FsDevice) (hfac : ml.fsFactoryForPath fullPath = some fac)
    (hdir : fac.createDirectory fullPath = some dir) (hdev : dir.device = some dfs)
    (hfix : dfs.isRemovable = false) :
    Folder.fromPath ml db fullPath BannedType.No =
      Folder.fetch db (fun r => decide (r.path = dir.path) && !r.isRemovable &&
        (r.isBlacklisted == false)) := by
  simp [Folder.fromPath, hfac, hdir, hdev, hfix]

theorem fromPath_removable_any (ml : MediaLibrary) (db : Db) (fullPath : String)
    (fac : FsFactory) (dir : FsDirectory) (dfs : FsDevice) (device : DeviceRow)
    (hfac : ml.fsFactoryForPath fullPath = some fac)
    (hdir : fac.createDirectory fullPath = some dir) (hdev : dir.device = some dfs)
    (hrem : dfs.isRemovable = true) (hd : Device.fromUuid db dfs.uuid = some device) :
    Folder.fromPath ml db fullPath BannedType.Any =
      (Folder.fetch db (fun r => decide (r.path = ml.removePath dir.path dfs.mountpoint) &&
        decide (r.deviceId = device.id))).map
        (fun folder => { folder with
          m_deviceMountpoint := some dfs.mountpoint
          m_fullPath := dfs.mountpoint ++ ml.removePath dir.path dfs.mountpoint }) := by
  simp only [Folder.fromPath, hfac, hdir, hdev, hrem, hd]
  simp only [Bool.true_eq_false, if_false, if_true]
  cases Folder.fetch db (fun r => decide (r.path = ml.removePath dir.path dfs.mountpoint) &&
    decide (r.deviceId = device.id)) <;> rfl

theorem fromUuid_destroyFound (db : Db) (f : Option Folder) (uuid : String) :
    Device.fromUuid (Folder.destroyFound db f) uuid = Device.fromUuid db uuid := by
  unfold Device.fromUuid
  rw [destroyFound_devices]

/-- A ban that returns true either found a ban record and changed nothing, or
appended the ban record after the optional destroy and the device lookup. -/
theorem blacklist_true_cases (ml : MediaLibrary) (db db' : Db) (fullPath : String)
    (h : Folder.blacklist ml db fullPath = .ok (true, db')) :
    ∃ fac dir dfs, ml.fsFactoryForPath fullPath = some fac ∧
      fac.createDirectory fullPath = some dir ∧ dir.device = some dfs ∧
      (((Folder.fromPath ml db fullPath BannedType.Any).map (fun x => x.m_isBlacklisted)
          = some true ∧ db' = db) ∨
       ((Folder.fromPath ml db fullPath BannedType.Any).map (fun x => x.m_isBlacklisted)
          ≠ some true ∧
        ∃ device dbc,
          Device.fromUuidOrCreate
            (Folder.destroyFound db (Folder.fromPath ml db fullPath BannedType.Any)) dfs
            = (some device, dbc) ∧
          (∀ r ∈ dbc.folders,
            r.path = (if dfs.isRemovable then ml.removePath fullPath dfs.mountpoint
              else fullPath) → r.deviceId ≠ device.id) ∧
          db' = { dbc with
            folders := dbc.folders ++ [banRecord dbc
              (if dfs.isRemovable then ml.removePath fullPath dfs.mountpoint else fullPath)
              device.id dfs.isRemovable]
            folderSeq := max dbc.folderSeq (maxFolderId dbc.folders) + 1 })) := by
  cases hfac : ml.fsFactoryForPath fullPath with
  | none => simp [Folder.blacklist, Folder.fromPath, hfac] at h
  | some fac =>
    cases hdir : fac.createDirectory fullPath with
    | none => simp [Folder.blacklist, Folder.fromPath, hfac, hdir] at h
    | some dir =>
      cases hdev : dir.device with
      | none => simp [Folder.blacklist, Folder.fromPath, hfac, hdir, hdev] at h
      | some dfs =>
        refine ⟨fac, dir, dfs, rfl, hdir, hdev, ?_⟩
        rw [blacklist_resolved ml db fullPath fac dir dfs hfac hdir hdev] at h
        split at h
        · rename_i hb
          left
          simp only [Except.ok.injEq, Prod.mk.injEq, true_and] at h
          exact ⟨hb, h.symm⟩
        · rename_i hnb
          right
          refine ⟨hnb, ?_⟩
          cases hfound : Device.fromUuidOrCreate
            (Folder.destroyFound db (Folder.fromPath ml db fullPath BannedType.Any)) dfs with
          | mk dv dbc =>
            cases dv with
            | none => simp [hfound] at h
            | some device =>
              simp only [hfound, Except.ok.injEq, Prod.mk.injEq] at h
              refine ⟨device, dbc, rfl, ?_⟩
              rcases insertFolderRow_fail_or_append dbc
                (if dfs.isRemovable then ml.removePath fullPath dfs.mountpoint else fullPath)
                none true device.id dfs.isRemovable with hf | ⟨hs, hfree, _⟩
              · rw [hf] at h; simp at h
              · rw [hs] at h
                exact ⟨hfree, h.2.symm⟩

/-! ### Ban, then look up -/

theorem destroy_drops_root_path (db : Db) (row : FolderRow) (p : String)
    (hrow : row ∈ db.folders) (huniq : ∀ r ∈ db.folders, r.path = p → r = row) :
    ∀ r ∈ (Folder.destroy db row.id).folders, r.path ≠ p := by
  intro r hr hp
  rw [(destroy_folders db row.id ⟨row, hrow, rfl⟩).1] at hr
  obtain ⟨hmem, hkeep⟩ := List.mem_filter.mp hr
  have := huniq r hmem hp
  subst this
  have hin := cascadeDelete_self maxTriggerDepth db.folders r.id
  simp [hin] at hkeep

theorem Scenario.twoDisksDb_reachable : Reachable Scenario.twoDisksDb := by
  have h := Reachable.folderCreate Scenario.diskLibrary "/music" 0 ⟨2, "dev-2", false, true⟩
    Scenario.disk
    (Reachable.folderCreate Scenario.diskLibrary "/music" 0 ⟨1, "dev-1", false, true⟩
      Scenario.disk
      (Reachable.deviceCreate "dev-2" false (Reachable.deviceCreate "dev-1" false Reachable.init)))
  have e : (Folder.create Scenario.diskLibrary
      (Folder.create Scenario.diskLibrary
        (Device.create (Device.create Db.empty "dev-1" false).2 "dev-2" false).2 "/music" 0
        ⟨1, "dev-1", false, true⟩ Scenario.disk).2 "/music" 0 ⟨2, "dev-2", false, true⟩
      Scenario.disk).2 = Scenario.twoDisksDb := by decide
  rw [e] at h
  exact h

/-- C1 fails on the code: two fixed disks are registered and each has a live folder
stored as `/music` (a reachable state); the provider places `/music` on `dev-1`.
`ban("/music")` returns true, deleting the folder of `dev-1`, yet the `LiveOnly`
lookup of `/music` still returns a folder, the live one of `dev-2`. -/
theorem ban_then_lookup_counterexample :
    Reachable Scenario.twoDisksDb ∧
    Device.fromUuid Scenario.twoDisksDb "dev-1" = some ⟨1, "dev-1", false, true⟩ ∧
    (⟨1, "/music", none, false, 1, true, false⟩ : FolderRow) ∈ Scenario.twoDisksDb.folders ∧
    ∃ db', Folder.blacklist Scenario.diskLibrary Scenario.twoDisksDb "/music" = .ok (true, db') ∧
      db'.folders = [⟨2, "/music", none, false, 2, true, false⟩,
        ⟨3, "/music", none, true, 1, true, false⟩] ∧
      (Folder.fromPath Scenario.diskLibrary db' "/music" BannedType.No).map
        (fun g => (g.m_id, g.m_deviceId, g.m_isBlacklisted)) = some (2, 2, false) :=
  ⟨Scenario.twoDisksDb_reachable, by decide, by decide,
   ⟨[⟨1, "dev-1", false, true⟩, ⟨2, "dev-2", false, true⟩],
    [⟨2, "/music", none, false, 2, true, false⟩, ⟨3, "/music", none, true, 1, true, false⟩],
    [], 2, 3⟩, by decide, rfl, by decide⟩

/-- C1 as amended: let a fixed device be registered, let the provider report `p`
itself as the path of the directory of `p`, and let a live folder row stored under
`p` exist on that device, no other folder row being stored under `p`. Then `ban(p)`
returns true, and afterwards the `LiveOnly` lookup of `p` finds nothing while the
`Any` lookup of `p` returns a folder whose banned flag is set. -/
theorem ban_then_lookup (ml : MediaLibrary) (db : Db) (p : String) (fac : FsFactory)
    (dir : FsDirectory) (dfs : FsDevice) (dev : DeviceRow) (row : FolderRow)
    (hfac : ml.fsFactoryForPath p = some fac) (hdir : fac.createDirectory p = some dir)
    (hdev : dir.device = some dfs) (hfix : dfs.isRemovable = false)
    (hreg : Device.fromUuid db dfs.uuid = some dev) (hpath : dir.path = p)
    (hrow : row ∈ db.folders) (hrp : row.path = p) (_hrd : row.deviceId = dev.id)
    (hrr : row.isRemovable = false) (hlive : row.isBlacklisted = false)
    (huniq : ∀ r ∈ db.folders, r.path = p → r = row) :
    ∃ db', Folder.blacklist ml db p = .ok (true, db') ∧
      Folder.fromPath ml db' p BannedType.No = none ∧
      ∃ g, Folder.fromPath ml db' p BannedType.Any = some g ∧ g.m_isBlacklisted = true := by
  -- the lookup of `blacklist` finds the live row
  have hany : Folder.fromPath ml db p BannedType.Any = some (Folder.ofRow row) := by
    rw [fromPath_fixed_any ml db p fac dir dfs hfac hdir hdev hfix]
    apply fetch_unique db _ row hrow (by simp [hpath, hrp, hrr])
    intro r hr hc
    simp only [Bool.and_eq_true, decide_eq_true_eq] at hc
    exact huniq r hr (hc.1.trans hpath)
  have hgone := destroy_drops_root_path db row p hrow huniq
  have hdest : Folder.destroyFound db (some (Folder.ofRow row)) = Folder.destroy db row.id := rfl
  have hfound : Device.fromUuidOrCreate (Folder.destroy db row.id) dfs
      = (some dev, Folder.destroy db row.id) := by
    have := fromUuid_destroyFound db (some (Folder.ofRow row)) dfs.uuid
    rw [hdest, hreg] at this
    simp [Device.fromUuidOrCreate, this]
  have hins := insertFolderRow_success (Folder.destroy db row.id) p true dev.id false
    (fun r hr hp => absurd hp (hgone r hr))
    ⟨dev, by rw [destroy_devices]; exact (fromUuid_some db _ dev hreg).1, rfl⟩
  refine ⟨(insertFolderRow (Folder.destroy db row.id) p none true dev.id false).2, ?_, ?_, ?_⟩
  · rw [blacklist_resolved ml db p fac dir dfs hfac hdir hdev, hany, hdest, hfound]
    simp only [Option.map_some', Folder.ofRow, hlive, hfix, Bool.false_eq_true, if_false,
      Option.some.injEq]
    rw [hins]
    rfl
  · rw [fromPath_fixed_no ml _ p fac dir dfs hfac hdir hdev hfix, hins]
    apply fetch_append_none _ _ _ _ rfl
    · intro r hr
      have := hgone r hr
      simp [hpath, this]
    · simp
  · refine ⟨Folder.ofRow ⟨max (Folder.destroy db row.id).folderSeq
      (maxFolderId (Folder.destroy db row.id).folders) + 1, p, none, true, dev.id, true, false⟩,
      ?_, rfl⟩
    rw [fromPath_fixed_any ml _ p fac dir dfs hfac hdir hdev hfix, hins]
    apply fetch_append_last _ _ _ _ rfl
    · intro r hr
      have := hgone r hr
      simp [hpath, this]
    · simp [hpath]

/-- C1 as amended, at `Scenario.diskDb`: the disk `dev-1` is registered, `/music` is
its only row stored under that path. -/
theorem ban_then_lookup_witness :
    ∃ db', Folder.blacklist Scenario.diskLibrary Scenario.diskDb "/music" = .ok (true, db') ∧
      Folder.fromPath Scenario.diskLibrary db' "/music" BannedType.No = none ∧
      ∃ g, Folder.fromPath Scenario.diskLibrary db' "/music" BannedType.Any = some g ∧
        g.m_isBlacklisted = true :=
  ban_then_lookup Scenario.diskLibrary Scenario.diskDb "/music" Scenario.diskFactory
    ⟨"/music", some Scenario.disk⟩ Scenario.disk ⟨1, "dev-1", false, true⟩
    ⟨1, "/music", none, false, 1, true, false⟩ rfl rfl rfl rfl (by decide) rfl (by decide)
    rfl rfl rfl rfl (by decide)

/-! ### Banning twice -/

theorem destroy_drops_id (db : Db) (id : Nat) (h : ∃ r ∈ db.folders, r.id = id) :
    ∀ r ∈ (Folder.destroy db id).folders, r.id ≠ id := by
  intro r hr hid
  rw [(destroy_folders db id h).1] at hr
  have hkeep := (List.mem_filter.mp hr).2
  have hin := cascadeDelete_self maxTriggerDepth db.folders id
  rw [hid] at hkeep
  simp [hin] at hkeep

theorem fromUuid_after_fromUuidOrCreate (db dbc : Db) (dfs : FsDevice) (device : DeviceRow)
    (h : Device.fromUuidOrCreate db dfs = (some device, dbc)) :
    Device.fromUuid dbc dfs.uuid = some device := by
  rcases fromUuidOrCreate_cases db dbc dfs device h with ⟨hf, rfl⟩ | ⟨hf, hnew, hdbc⟩
  · exact hf
  · unfold Device.fromUuid at hf ⊢
    rw [hdbc]
    simp only [List.find?_append, hf, Option.none_or]
    simp [List.find?_cons, hnew]

/-- After `Folder::blacklist` appended the ban record for `p`, the `Any` lookup of
`p` returns a banned folder, provided the directory of `p` reports the path `p` and
at most one row of a fixed device was stored under `p`. -/
theorem anyLookup_finds_banRecord (ml : MediaLibrary) (db db1 dbc : Db) (p : String)
    (fac : FsFactory) (dir : FsDirectory) (dfs : FsDevice) (device : DeviceRow)
    (hfac : ml.fsFactoryForPath p = some fac) (hdir : fac.createDirectory p = some dir)
    (hdev : dir.device = some dfs) (hpath : dir.path = p)
    (hM : ∀ r1 ∈ db.folders, ∀ r2 ∈ db.folders, r1.path = p → r2.path = p →
      r1.isRemovable = false → r2.isRemovable = false → r1 = r2)
    (hfound : Device.fromUuidOrCreate
      (Folder.destroyFound db (Folder.fromPath ml db p BannedType.Any)) dfs = (some device, dbc))
    (hfree : ∀ r ∈ dbc.folders,
      r.path = (if dfs.isRemovable then ml.removePath p dfs.mountpoint else p) →
      r.deviceId ≠ device.id)
    (hdb1 : db1 = { dbc with
      folders := dbc.folders ++ [banRecord dbc
        (if dfs.isRemovable then ml.removePath p dfs.mountpoint else p) device.id
        dfs.isRemovable]
      folderSeq := max dbc.folderSeq (maxFolderId dbc.folders) + 1 }) :
    (Folder.fromPath ml db1 p BannedType.Any).map (fun x => x.m_isBlacklisted) = some true := by
  have hfold : dbc.folders = (Folder.destroyFound db
      (Folder.fromPath ml db p BannedType.Any)).folders := by
    have := fromUuidOrCreate_folders (Folder.destroyFound db
      (Folder.fromPath ml db p BannedType.Any)) dfs
    rw [hfound] at this
    exact this
  by_cases hrem : dfs.isRemovable = true
  · have hdv : Device.fromUuid db1 dfs.uuid = some device := by
      have := fromUuid_after_fromUuidOrCreate _ dbc dfs device hfound
      unfold Device.fromUuid at this ⊢
      rw [hdb1]
      exact this
    rw [fromPath_removable_any ml db1 p fac dir dfs device hfac hdir hdev hrem hdv]
    simp only [hrem, if_true] at hfree hdb1
    rw [fetch_append_last db1 dbc.folders (banRecord dbc (ml.removePath p dfs.mountpoint)
      device.id true) _ (by rw [hdb1])]
    · rfl
    · intro r hr
      by_cases hp : r.path = ml.removePath p dfs.mountpoint
      · simp [hpath, hp, hfree r hr hp]
      · simp [hpath, hp]
    · simp [banRecord, hpath]
  · have hfix : dfs.isRemovable = false := by simpa using hrem
    rw [fromPath_fixed_any ml db1 p fac dir dfs hfac hdir hdev hfix]
    simp only [hfix, Bool.false_eq_true, if_false] at hfree hdb1
    rw [fetch_append_last db1 dbc.folders (banRecord dbc p device.id false) _ (by rw [hdb1])]
    · rfl
    · intro r hr
      rw [Bool.eq_false_iff]
      intro hc
      simp only [Bool.and_eq_true, decide_eq_true_eq, Bool.not_eq_true',
        hpath] at hc
      rw [hfold] at hr
      have hany := fromPath_fixed_any ml db p fac dir dfs hfac hdir hdev hfix
      rw [hpath] at hany
      cases hfe : Folder.fetch db (fun r => decide (r.path = p) && !r.isRemovable) with
      | none =>
        rw [hfe] at hany
        rw [hany] at hr
        unfold Folder.fetch at hfe
        simp only [Option.map_eq_none'] at hfe
        have hnil := (firstInIndex_eq_none _).mp hfe
        have : r ∈ db.folders.filter (fun r => decide (r.path = p) && !r.isRemovable) :=
          List.mem_filter.mpr ⟨hr, by simp [hc.1, hc.2]⟩
        rw [hnil] at this
        cases this
      | some x =>
        rw [hfe] at hany
        obtain ⟨r0, hr0, hc0, rfl⟩ := fetch_some _ _ _ hfe
        simp only [Bool.and_eq_true, decide_eq_true_eq, Bool.not_eq_true'] at hc0
        rw [hany] at hr
        have hr' : r ∈ (Folder.destroy db r0.id).folders := hr
        have hne := destroy_drops_id db r0.id ⟨r0, hr0, rfl⟩ r hr'
        have hmem := (destroy_folders_sublist db r0.id).subset hr'
        exact hne (by rw [hM r hmem r0 hr0 hc.1 hc0.1 hc.2 hc0.2])
    · simp [banRecord, hpath, hfix]

/-- C2 fails on the code: over a provider that reports `/music/` as the path of the
directory `/music`, a first `ban("/music")` on the empty library returns true and a
second one returns false (the lookup by `/music/` misses the record stored as
`/music`, and the second insert violates the uniqueness constraint). -/
theorem ban_twice_counterexample :
    ∃ db1, Folder.blacklist Scenario.slashLibrary Db.empty "/music" = .ok (true, db1) ∧
      Folder.blacklist Scenario.slashLibrary db1 "/music" = .ok (false, db1) :=
  ⟨⟨[⟨1, "dev-1", false, true⟩], [⟨1, "/music", none, true, 1, true, false⟩], [], 1, 1⟩,
   by decide, by decide⟩

/-- C2 as amended: when the provider reports `p` itself as the path of the directory
of `p`, and at most one folder row of a fixed device is stored under `p`, `ban` is
idempotent: if `ban(p)` returned true, a second `ban(p)` returns true and leaves the
database exactly as the first call left it. -/
theorem ban_twice (ml : MediaLibrary) (db db1 : Db) (p : String)
    (hN : ∀ fac dir, ml.fsFactoryForPath p = some fac → fac.createDirectory p = some dir →
      dir.path = p)
    (hM : ∀ r1 ∈ db.folders, ∀ r2 ∈ db.folders, r1.path = p → r2.path = p →
      r1.isRemovable = false → r2.isRemovable = false → r1 = r2)
    (h1 : Folder.blacklist ml db p = .ok (true, db1)) :
    Folder.blacklist ml db1 p = .ok (true, db1) := by
  obtain ⟨fac, dir, dfs, hfac, hdir, hdev, hcase⟩ := blacklist_true_cases ml db db1 p h1
  have hpath := hN fac dir hfac hdir
  rcases hcase with ⟨_, rfl⟩ | ⟨hnb, device, dbc, hfound, hfree, hdb1⟩
  · exact h1
  · have hbanned := anyLookup_finds_banRecord ml db db1 dbc p fac dir dfs device hfac hdir hdev
      hpath hM hfound hfree hdb1
    rw [blacklist_resolved ml db1 p fac dir dfs hfac hdir hdev, if_pos hbanned]

theorem Scenario.diskLibrary_reports_path (p : String) :
    ∀ fac dir, Scenario.diskLibrary.fsFactoryForPath p = some fac →
      fac.createDirectory p = some dir → dir.path = p := by
  intro fac dir hf hd
  simp only [Scenario.diskLibrary, Option.some.injEq] at hf
  subst hf
  simp only [Scenario.diskFactory, Option.some.injEq] at hd
  subst hd
  rfl

/-- C2 as amended, at `Scenario.diskDb`: `ban("/music")` returns true and yields
`Scenario.bannedMusicDb`; the second call returns true and yields the same state. -/
theorem ban_twice_witness :
    Folder.blacklist Scenario.diskLibrary Scenario.diskDb "/music"
      = .ok (true, Scenario.bannedMusicDb) ∧
    Folder.blacklist Scenario.diskLibrary Scenario.bannedMusicDb "/music"
      = .ok (true, Scenario.bannedMusicDb) :=
  ⟨by decide,
   ban_twice Scenario.diskLibrary Scenario.diskDb Scenario.bannedMusicDb "/music"
     (Scenario.diskLibrary_reports_path "/music") (by decide) (by decide)⟩

/-! ### A ban that fails after the destroy -/

theorem Scenario.rebanDb_reachable : Reachable Scenario.rebanDb := by
  have h := Reachable.folderCreate Scenario.slashLibrary "/music/rock/" 2
    ⟨1, "dev-1", false, true⟩ Scenario.disk
    (Reachable.folderCreate Scenario.slashLibrary "/music/" 0 ⟨1, "dev-1", false, true⟩
      Scenario.disk
      (Reachable.blacklist Scenario.slashLibrary "/music" true
        ⟨[⟨1, "dev-1", false, true⟩], [⟨1, "/music", none, true, 1, true, false⟩], [], 1, 1⟩
        Reachable.init (by decide)))
  have e : (Folder.create Scenario.slashLibrary
      (Folder.create Scenario.slashLibrary
        ⟨[⟨1, "dev-1", false, true⟩], [⟨1, "/music", none, true, 1, true, false⟩], [], 1, 1⟩
        "/music/" 0 ⟨1, "dev-1", false, true⟩ Scenario.disk).2 "/music/rock/" 2
      ⟨1, "dev-1", false, true⟩ Scenario.disk).2 = Scenario.rebanDb := by decide
  rw [e] at h
  exact h

/-- C3, the code at the failing input: in the reachable state `Scenario.rebanDb`,
`ban("/music")` finds the live folder `/music/` through the reported path, destroys
it with its subfolder, fails to insert the record `/music` (it exists) and commits:
it returns false and the two live rows are gone. -/
theorem ban_returns_false_after_destroy :
    Reachable Scenario.rebanDb ∧
    (Folder.fromPath Scenario.slashLibrary Scenario.rebanDb "/music" BannedType.No).map
      (fun f => f.m_id) = some 2 ∧
    Folder.blacklist Scenario.slashLibrary Scenario.rebanDb "/music" =
      .ok (false, ⟨[⟨1, "dev-1", false, true⟩], [⟨1, "/music", none, true, 1, true, false⟩],
        [], 1, 3⟩) :=
  ⟨Scenario.rebanDb_reachable, by decide, by decide⟩

/-! ### The ban removes the subtree -/

theorem InSubtree.mem {rows : List FolderRow} {root : Nat} {r : FolderRow}
    (h : InSubtree rows root r) : r ∈ rows := by
  cases h with
  | root _ hr _ => exact hr
  | child _ _ hr _ _ => exact hr

theorem fromPath_some_row (ml : MediaLibrary) (db : Db) (q : String) (bt : BannedType)
    (x : Folder) (h : Folder.fromPath ml db q bt = some x) :
    ∃ r ∈ db.folders, x.m_id = r.id ∧ x.m_isBlacklisted = r.isBlacklisted := by
  unfold Folder.fromPath at h
  cases hfac : ml.fsFactoryForPath q with
  | none => simp [hfac] at h
  | some fac =>
    cases hdir : fac.createDirectory q with
    | none => simp [hfac, hdir] at h
    | some dir =>
      cases hdev : dir.device with
      | none => simp [hfac, hdir, hdev] at h
      | some dfs =>
        simp only [hfac, hdir, hdev] at h
        by_cases hfix : dfs.isRemovable = false
        · simp only [hfix, if_true] at h
          split at h
          · obtain ⟨r, hr, _, rfl⟩ := fetch_some _ _ _ h
            exact ⟨r, hr, rfl, rfl⟩
          · obtain ⟨r, hr, _, rfl⟩ := fetch_some _ _ _ h
            exact ⟨r, hr, rfl, rfl⟩
        · simp only [hfix, if_false] at h
          cases hd : Device.fromUuid db dfs.uuid with
          | none => simp [hd] at h
          | some device =>
            simp only [hd] at h
            have key : ∀ (cond : FolderRow → Bool),
                (match Folder.fetch db cond with
                  | none => none
                  | some folder =>
                    some { folder with m_deviceMountpoint := some dfs.mountpoint,
                                       m_fullPath := dfs.mountpoint ++
                                         ml.removePath dir.path dfs.mountpoint }) = some x →
                ∃ r ∈ db.folders, x.m_id = r.id ∧ x.m_isBlacklisted = r.isBlacklisted := by
              intro cond hm
              cases hfe : Folder.fetch db cond with
              | none => simp [hfe] at hm
              | some folder =>
                obtain ⟨r, hr, _, rfl⟩ := fetch_some _ _ _ hfe
                simp only [hfe, Option.some.injEq] at hm
                subst hm
                exact ⟨r, hr, rfl, rfl⟩
            by_cases hbt : bt = BannedType.Any
            · simp only [hbt, if_true] at h
              exact key _ h
            · simp only [hbt, if_false] at h
              exact key _ h

theorem fromUuidOrCreate_files_seq (db : Db) (dfs : FsDevice) :
    (Device.fromUuidOrCreate db dfs).2.files = db.files ∧
    (Device.fromUuidOrCreate db dfs).2.folderSeq = db.folderSeq := by
  unfold Device.fromUuidOrCreate
  split
  · exact ⟨rfl, rfl⟩
  · rcases deviceCreate_cases db dfs.uuid dfs.isRemovable with h | ⟨h, _⟩ <;> rw [h] <;>
      exact ⟨rfl, rfl⟩

theorem Scenario.threeDisksTreeDb_reachable : Reachable Scenario.threeDisksTreeDb := by
  have h := Reachable.folderCreate Scenario.diskLibrary "/music" 0 ⟨2, "dev-2", false, true⟩
    Scenario.disk
    (Reachable.folderCreate Scenario.diskLibrary "/music/rock" 1 ⟨1, "dev-1", false, true⟩
      Scenario.disk
      (Reachable.folderCreate Scenario.diskLibrary "/music" 0 ⟨1, "dev-1", false, true⟩
        Scenario.disk
        (Reachable.deviceCreate "dev-3" false
          (Reachable.deviceCreate "dev-2" false
            (Reachable.deviceCreate "dev-1" false Reachable.init)))))
  have e : (Folder.create Scenario.diskLibrary
      (Folder.create Scenario.diskLibrary
        (Folder.create Scenario.diskLibrary
          (Device.create (Device.create (Device.create Db.empty "dev-1" false).2 "dev-2"
            false).2 "dev-3" false).2 "/music" 0
          ⟨1, "dev-1", false, true⟩ Scenario.disk).2 "/music/rock" 1
        ⟨1, "dev-1", false, true⟩ Scenario.disk).2 "/music" 0 ⟨2, "dev-2", false, true⟩
      Scenario.disk).2 = Scenario.threeDisksTreeDb := by decide
  rw [e] at h
  exact h

theorem insertFolderRow_ids_le_seq (db : Db) (path : String) (parent : Option Nat)
    (isBlacklisted : Bool) (deviceId : Nat) (isRemovable : Bool)
    (h : ∀ r ∈ db.folders, r.id ≤ db.folderSeq) :
    ∀ r ∈ (insertFolderRow db path parent isBlacklisted deviceId isRemovable).2.folders,
      r.id ≤ (insertFolderRow db path parent isBlacklisted deviceId isRemovable).2.folderSeq := by
  rcases insertFolderRow_fail_or_append db path parent isBlacklisted deviceId isRemovable with
    hf | ⟨hs, _, _⟩
  · rw [hf]; exact h
  · rw [hs]
    intro r hr
    simp only [List.mem_append, List.mem_singleton] at hr
    have := le_max_left db.folderSeq (maxFolderId db.folders)
    rcases hr with hr | rfl
    · have := h r hr
      simp only
      omega
    · exact le_refl _

/-- In every reachable state the `AUTOINCREMENT` counter of the Folder table is no
smaller than any stored folder id. -/
theorem reachable_ids_le_seq (db : Db) (h : Reachable db) :
    ∀ r ∈ db.folders, r.id ≤ db.folderSeq := by
  induction h with
  | init => intro r hr; cases hr
  | @deviceCreate db0 uuid isRemovable _ ih =>
    rcases deviceCreate_cases db0 uuid isRemovable with hc | ⟨hc, _⟩ <;> rw [hc] <;> exact ih
  | @setPresent db0 deviceId present _ ih =>
    unfold Device.setPresent
    split
    · intro r hr
      simp only at hr
      rw [mem_isDevicePresentTrigger] at hr
      obtain ⟨r0, hr0, rfl⟩ := hr
      have := ih r0 hr0
      split <;> exact this
    · exact ih
  | @folderCreate db0 ml fullPath parentId device deviceFs _ ih =>
    rcases create_cases ml db0 fullPath parentId device deviceFs with hc | hc
    · rw [hc]; exact ih
    · rw [hc]; exact insertFolderRow_ids_le_seq db0 _ _ _ _ _ ih
  | @blacklist db0 ml fullPath res db' _ hb ih =>
    rcases blacklist_ok_cases ml db0 db' fullPath res hb with rfl | ⟨fac, dir, dfs, device, dbc,
      _, _, _, _, hfound, _, hdb⟩
    · exact ih
    · rw [hdb]
      apply insertFolderRow_ids_le_seq
      have hfold := fromUuidOrCreate_folders (Folder.destroyFound db0
        (Folder.fromPath ml db0 fullPath BannedType.Any)) dfs
      have hseq := (fromUuidOrCreate_files_seq (Folder.destroyFound db0
        (Folder.fromPath ml db0 fullPath BannedType.Any)) dfs).2
      rw [hfound] at hfold hseq
      simp only at hfold hseq
      intro r hr
      rw [hfold] at hr
      rw [hseq]
      have hmem := (destroyFound_folders_sublist db0 _).subset hr
      have : (Folder.destroyFound db0 (Folder.fromPath ml db0 fullPath
          BannedType.Any)).folderSeq = db0.folderSeq := by
        cases Folder.fromPath ml db0 fullPath BannedType.Any with
        | none => rfl
        | some x => exact destroy_folderSeq db0 x.m_id
      rw [this]
      exact ih r hmem

/-- C4 fails on the code: three fixed disks are registered, `dev-1` and `dev-2`
each hold a live folder stored as `/music` (a reachable state), the one of `dev-1`
with a subfolder, and the provider places `/music` on `dev-3`. The lookup of
`/music` returns the live folder of `dev-1`; `ban("/music")` returns true, removes
that folder with its subfolder and stores the ban record on `dev-3`; but the `Any`
lookup of `/music` then returns the live folder of `dev-2`, which comes before the
ban record in the index, and not the ban record. -/
theorem ban_removes_subtree_counterexample :
    Reachable Scenario.threeDisksTreeDb ∧
    (Folder.fromPath Scenario.thirdDiskLibrary Scenario.threeDisksTreeDb "/music"
      BannedType.No).map (fun f => (f.m_id, f.m_deviceId)) = some (1, 1) ∧
    ∃ db', Folder.blacklist Scenario.thirdDiskLibrary Scenario.threeDisksTreeDb "/music"
        = .ok (true, db') ∧
      db'.folders = [⟨3, "/music", none, false, 2, true, false⟩,
        ⟨4, "/music", none, true, 3, true, false⟩] ∧
      (Folder.fromPath Scenario.thirdDiskLibrary db' "/music" BannedType.Any).map
        (fun m => (m.m_id, m.m_isBlacklisted)) = some (3, false) :=
  ⟨Scenario.threeDisksTreeDb_reachable, by decide,
   ⟨[⟨1, "dev-1", false, true⟩, ⟨2, "dev-2", false, true⟩, ⟨3, "dev-3", false, true⟩],
    [⟨3, "/music", none, false, 2, true, false⟩, ⟨4, "/music", none, true, 3, true, false⟩],
    [], 3, 4⟩, by decide, rfl, by decide⟩

/-- C4 as amended: let the `AUTOINCREMENT` counter be no smaller than the stored
folder ids (as in every reachable state, `reachable_ids_le_seq`), let the `Any`
lookup of `p` return a live folder, let the cascade from that folder stay within the
nesting limit of the engine, and let `ban(p)` return true. Then no folder row and no
file row of the subtree rooted at that folder is left, so no folder of the subtree is
returned by a `LiveOnly` lookup, by `folders()` or by `fetchRootFolders()`. When
moreover the provider reports `p` itself as the path of the directory of `p` and at
most one folder row of a fixed device was stored under `p`, the `Any` lookup of `p`
returns the ban record. -/
theorem ban_removes_subtree (ml : MediaLibrary) (db db' : Db) (p : String) (f : Folder)
    (hseq : ∀ r ∈ db.folders, r.id ≤ db.folderSeq)
    (hlive : Folder.fromPath ml db p BannedType.Any = some f)
    (hf : f.m_isBlacklisted = false)
    (hok : (cascadeDelete maxTriggerDepth db.folders f.m_id []).2 = true)
    (hb : Folder.blacklist ml db p = .ok (true, db')) :
    (∀ g, InSubtree db.folders f.m_id g →
      (∀ r ∈ db'.folders, r.id ≠ g.id) ∧
      (∀ x ∈ db'.files, x.folderId ≠ g.id) ∧
      (∀ (ml' : MediaLibrary) (q : String) (x : Folder),
        Folder.fromPath ml' db' q BannedType.No = some x → x.m_id ≠ g.id) ∧
      (∀ (self x : Folder), x ∈ Folder.folders db' self → x.m_id ≠ g.id) ∧
      (∀ x ∈ Folder.fetchRootFolders db', x.m_id ≠ g.id)) ∧
    ((∀ fac dir, ml.fsFactoryForPath p = some fac → fac.createDirectory p = some dir →
        dir.path = p) →
      (∀ r1 ∈ db.folders, ∀ r2 ∈ db.folders, r1.path = p → r2.path = p →
        r1.isRemovable = false → r2.isRemovable = false → r1 = r2) →
      ∃ m, Folder.fromPath ml db' p BannedType.Any = some m ∧ m.m_isBlacklisted = true) := by
  obtain ⟨fac, dir, dfs, hfac, hdir, hdev, hcase⟩ := blacklist_true_cases ml db db' p hb
  rcases hcase with ⟨hbanned, _⟩ | ⟨_, device, dbc, hfound, hfree, hdb'⟩
  · rw [hlive] at hbanned
    simp [hf] at hbanned
  · obtain ⟨r0, hr0, hid0, _⟩ := fromPath_some_row ml db p BannedType.Any f hlive
    have hdbc := hfound
    rw [hlive] at hfound
    have hdest : Folder.destroyFound db (some f) = Folder.destroy db f.m_id := rfl
    rw [hdest] at hfound
    have hfold : dbc.folders = (Folder.destroy db f.m_id).folders := by
      have := fromUuidOrCreate_folders (Folder.destroy db f.m_id) dfs
      rw [hfound] at this
      exact this
    have hrest := fromUuidOrCreate_files_seq (Folder.destroy db f.m_id) dfs
    rw [hfound] at hrest
    obtain ⟨hfiles, hsq⟩ := hrest
    simp only at hfiles hsq
    rw [destroy_folderSeq] at hsq
    obtain ⟨hdf, hdfiles⟩ := destroy_folders db f.m_id ⟨r0, hr0, hid0.symm⟩
    have rows : ∀ g, InSubtree db.folders f.m_id g → ∀ r ∈ db'.folders, r.id ≠ g.id := by
      intro g hg r hr hid
      have hdead := destroy_removes_subtree db f.m_id g hok hg
      rw [hdb'] at hr
      simp only [List.mem_append, List.mem_singleton] at hr
      rcases hr with hr | rfl
      · rw [hfold, hdf] at hr
        have hkeep := (List.mem_filter.mp hr).2
        rw [hid] at hkeep
        simp [hdead] at hkeep
      · have h1 := hseq g hg.mem
        have h2 := le_max_left dbc.folderSeq (maxFolderId dbc.folders)
        simp only [banRecord] at hid
        omega
    refine ⟨?_, ?_⟩
    · intro g hg
      refine ⟨rows g hg, ?_, ?_, ?_, ?_⟩
      · intro x hx hid
        have hdead := destroy_removes_subtree db f.m_id g hok hg
        rw [hdb'] at hx
        simp only at hx
        rw [hfiles, hdfiles] at hx
        have hkeep := (List.mem_filter.mp hx).2
        rw [hid] at hkeep
        simp [hdead] at hkeep
      · intro ml' q x hx
        obtain ⟨r, hr, hid, _⟩ := fromPath_some_row ml' db' q BannedType.No x hx
        rw [hid]
        exact rows g hg r hr
      · intro self x hx
        simp only [Folder.folders, List.mem_map, List.mem_filter] at hx
        obtain ⟨r, ⟨hr, _⟩, rfl⟩ := hx
        exact rows g hg r hr
      · intro x hx
        simp only [Folder.fetchRootFolders, List.mem_map, List.mem_filter] at hx
        obtain ⟨r, ⟨hr, _⟩, rfl⟩ := hx
        exact rows g hg r hr
    · intro hN hM
      have hbanned := anyLookup_finds_banRecord ml db db' dbc p fac dir dfs device hfac hdir
        hdev (hN fac dir hfac hdir) hM hdbc hfree hdb'
      cases hm : Folder.fromPath ml db' p BannedType.Any with
      | none => simp [hm] at hbanned
      | some m =>
        refine ⟨m, rfl, ?_⟩
        simpa [hm] using hbanned

/-- C4 as amended, at `Scenario.treeDb`: `ban("/music")` returns true; the folder
`/music/rock/live` (id 3), two levels below `/music`, has no row left; the `Any`
lookup of `/music` returns a banned folder. -/
theorem ban_removes_subtree_witness :
    Folder.blacklist Scenario.diskLibrary Scenario.treeDb "/music"
      = .ok (true, Scenario.treeBannedDb) ∧
    ((∀ r ∈ Scenario.treeBannedDb.folders, r.id ≠ 3) ∧
      (∀ x ∈ Scenario.treeBannedDb.files, x.folderId ≠ 3)) ∧
    ∃ m, Folder.fromPath Scenario.diskLibrary Scenario.treeBannedDb "/music" BannedType.Any
      = some m ∧ m.m_isBlacklisted = true :=
  ⟨by decide,
   ⟨((ban_removes_subtree Scenario.diskLibrary Scenario.treeDb Scenario.treeBannedDb "/music"
        (Folder.ofRow ⟨1, "/music", none, false, 1, true, false⟩) (by decide) (by decide) rfl
        (by decide) (by decide)).1 ⟨3, "/music/rock/live", some 2, false, 1, true, false⟩
        (InSubtree.child _ ⟨2, "/music/rock", some 1, false, 1, true, false⟩ (by decide)
          (InSubtree.child _ ⟨1, "/music", none, false, 1, true, false⟩ (by decide)
            (InSubtree.root _ (by decide) rfl) rfl) rfl)).1,
    ((ban_removes_subtree Scenario.diskLibrary Scenario.treeDb Scenario.treeBannedDb "/music"
        (Folder.ofRow ⟨1, "/music", none, false, 1, true, false⟩) (by decide) (by decide) rfl
        (by decide) (by decide)).1 ⟨3, "/music/rock/live", some 2, false, 1, true, false⟩
        (InSubtree.child _ ⟨2, "/music/rock", some 1, false, 1, true, false⟩ (by decide)
          (InSubtree.child _ ⟨1, "/music", none, false, 1, true, false⟩ (by decide)
            (InSubtree.root _ (by decide) rfl) rfl) rfl)).2.1⟩,
   (ban_removes_subtree Scenario.diskLibrary Scenario.treeDb Scenario.treeBannedDb "/music"
      (Folder.ofRow ⟨1, "/music", none, false, 1, true, false⟩) (by decide) (by decide) rfl
      (by decide) (by decide)).2 (Scenario.diskLibrary_reports_path "/music") (by decide)⟩

/-! ### Path access when the resolution fails -/

/-- C11 fails on the code: for the unresolved folder `music/` of the removable
device, `path()` trips the assertion when no filesystem factory is found, calls
`uuid()` on a null device when the device record cannot be fetched, and calls
`mountpoint()` on a null handle when the provider does not know the uuid. None of
the three returns a result. -/
theorem path_unresolved_counterexample :
    Folder.path Scenario.noFactoryLibrary Scenario.usbDb Scenario.usbMusicUnresolved
      = .error Fault.fsFactoryAssert ∧
    Folder.path (Scenario.usbLibrary "/mnt/usb/") Db.empty Scenario.usbMusicUnresolved
      = .error Fault.nullDevice ∧
    Folder.path Scenario.unpluggedLibrary Scenario.usbDb Scenario.usbMusicUnresolved
      = .error Fault.nullDeviceFs := by
  decide

/-- C11 as amended: `path()` has no unavailable result. For a folder of a removable
device whose mountpoint is not cached, it returns a string exactly when the device
record is fetched, a filesystem factory is found and the provider locates the device
by uuid, and that string is the mountpoint followed by the stored path; when no
filesystem factory is found, the assertion `fsFactory != nullptr` fails. -/
theorem path_unresolved_returns_iff (ml : MediaLibrary) (db : Db) (self : Folder)
    (hr : self.m_isRemovable = true) (hc : self.m_deviceMountpoint = none) :
    ((∃ r, Folder.path ml db self = .ok r) ↔
      ∃ d fac dfs, Device.fetch db self.m_deviceId = some d ∧
        ml.fsFactoryForPath self.m_fullPath = some fac ∧ fac.createDevice d.uuid = some dfs) ∧
    (∀ r, Folder.path ml db self = .ok r →
      ∃ d fac dfs, Device.fetch db self.m_deviceId = some d ∧
        ml.fsFactoryForPath self.m_fullPath = some fac ∧ fac.createDevice d.uuid = some dfs ∧
        r.value = dfs.mountpoint ++ self.m_path) ∧
    (ml.fsFactoryForPath self.m_fullPath = none →
      Folder.path ml db self = .error Fault.fsFactoryAssert) := by
  have key : ∀ r, Folder.path ml db self = .ok r →
      ∃ d fac dfs, Device.fetch db self.m_deviceId = some d ∧
        ml.fsFactoryForPath self.m_fullPath = some fac ∧ fac.createDevice d.uuid = some dfs ∧
        r.value = dfs.mountpoint ++ self.m_path := by
    intro r hp
    cases hf : ml.fsFactoryForPath self.m_fullPath with
    | none => simp [Folder.path, hr, hc, hf] at hp
    | some fac =>
      cases hd : Device.fetch db self.m_deviceId with
      | none => simp [Folder.path, hr, hc, hf, hd] at hp
      | some d =>
        cases hm : fac.createDevice d.uuid with
        | none => simp [Folder.path, hr, hc, hf, hd, hm] at hp
        | some dfs =>
          rw [path_of_uncached ml db self d fac dfs hr hc hd hf hm] at hp
          simp only [Except.ok.injEq] at hp
          subst hp
          exact ⟨d, fac, dfs, rfl, rfl, hm, rfl⟩
  refine ⟨⟨?_, ?_⟩, key, ?_⟩
  · rintro ⟨r, hp⟩
    obtain ⟨d, fac, dfs, h1, h2, h3, _⟩ := key r hp
    exact ⟨d, fac, dfs, h1, h2, h3⟩
  · rintro ⟨d, fac, dfs, hd, hf, hm⟩
    exact ⟨_, path_of_uncached ml db self d fac dfs hr hc hd hf hm⟩
  · intro hf
    simp [Folder.path, hr, hc, hf]

/-- C11 as amended, at the unresolved folder `music/` with the device mounted at
`/mnt/usb/`: the three lookups succeed and `path()` returns a string. -/
theorem path_unresolved_returns_iff_witness :
    Scenario.usbMusicUnresolved.m_isRemovable = true ∧
    Scenario.usbMusicUnresolved.m_deviceMountpoint = none ∧
    ∃ r, Folder.path (Scenario.usbLibrary "/mnt/usb/") Scenario.usbDb
      Scenario.usbMusicUnresolved = .ok r :=
  ⟨rfl, rfl,
   (path_unresolved_returns_iff (Scenario.usbLibrary "/mnt/usb/") Scenario.usbDb
      Scenario.usbMusicUnresolved rfl rfl).1.mpr
      ⟨⟨1, "usb-1", true, true⟩, Scenario.usbFactory "/mnt/usb/", Scenario.usb "/mnt/usb/",
        rfl, rfl, rfl⟩⟩

/-! ### A ban on a path the provider cannot resolve -/

theorem blacklist_no_factory (ml : MediaLibrary) (db : Db) (fullPath : String)
    (h : ml.fsFactoryForPath fullPath = none) :
    Folder.blacklist ml db fullPath = .ok (false, db) := by
  simp [Folder.blacklist, Folder.fromPath, Folder.destroyFound, h]

theorem blacklist_no_directory (ml : MediaLibrary) (db : Db) (fullPath : String)
    (fac : FsFactory) (hfac : ml.fsFactoryForPath fullPath = some fac)
    (h : fac.createDirectory fullPath = none) :
    Folder.blacklist ml db fullPath = .ok (false, db) := by
  simp [Folder.blacklist, Folder.fromPath, Folder.destroyFound, hfac, h]

theorem blacklist_no_device_handle (ml : MediaLibrary) (db : Db) (fullPath : String)
    (fac : FsFactory) (dir : FsDirectory) (hfac : ml.fsFactoryForPath fullPath = some fac)
    (hdir : fac.createDirectory fullPath = some dir) (h : dir.device = none) :
    Folder.fromPath ml db fullPath BannedType.Any = none ∧
    Folder.blacklist ml db fullPath = .error Fault.nullDeviceFs := by
  simp [Folder.blacklist, Folder.fromPath, Folder.destroyFound, hfac, hdir, h]

/-- C12, the code at the failing input: over a provider whose directory handle for
`/music` reports no device handle, `Folder::fromPath` returns null (its null check)
while `Folder::blacklist` goes on to call `deviceFs->uuid()` on the null handle. The
two other cases of the claim return false: no factory, no directory handle. -/
theorem ban_without_device_handle :
    Folder.fromPath Scenario.orphanLibrary Scenario.diskDb "/music" BannedType.Any = none ∧
    Folder.blacklist Scenario.orphanLibrary Scenario.diskDb "/music"
      = .error Fault.nullDeviceFs ∧
    Folder.blacklist Scenario.noFactoryLibrary Scenario.diskDb "/music"
      = .ok (false, Scenario.diskDb) ∧
    Folder.blacklist Scenario.unpluggedLibrary Scenario.diskDb "/music"
      = .ok (false, Scenario.diskDb) := by
  decide

/-! ### The change notifier -/

theorem notify_media_nonempty (q : Queue) :
    ∀ cb ∈ notify q Callback.onMediaAdded Callback.onMediaUpdated Callback.onMediaDeleted,
      cb.payload ≠ [] := by
  intro cb hcb
  unfold notify at hcb
  simp only [List.mem_append] at hcb
  rcases hcb with (h | h) | h <;> split at h <;> simp at h <;> subst h <;> assumption

theorem notify_artists_nonempty (q : Queue) :
    ∀ cb ∈ notify q Callback.onArtistsAdded Callback.onArtistsModified
      Callback.onArtistsDeleted, cb.payload ≠ [] := by
  intro cb hcb
  unfold notify at hcb
  simp only [List.mem_append] at hcb
  rcases hcb with (h | h) | h <;> split at h <;> simp at h <;> subst h <;> assumption

theorem runStep_nonempty (s : ModificationNotifier) (now : Nat) :
    ∀ cb ∈ (s.runStep now).1, cb.payload ≠ [] := by
  intro cb hcb
  unfold ModificationNotifier.runStep at hcb
  split at hcb
  · cases hcb
  · split at hcb
    · cases hcb
    · split at hcb
      · cases hcb
      · split at hcb
        · cases hcb
        · simp only [List.mem_append] at hcb
          rcases hcb with h | h
          · exact notify_media_nonempty _ cb h
          · exact notify_artists_nonempty _ cb h

theorem destroy_eq (s : ModificationNotifier) :
    s.destroy = ([], { s with m_stop := s.m_stop || s.threadRunning, threadRunning := false }) := by
  obtain ⟨st, tm, me, ar, th⟩ := s
  cases th <;> simp [ModificationNotifier.destroy, ModificationNotifier.runStep]

theorem step_nonempty (window : Nat) (s : ModificationNotifier) (e : NotifierEvent) :
    ∀ cb ∈ (s.step window e).1, cb.payload ≠ [] := by
  intro cb hcb
  cases e with
  | wake now => exact runStep_nonempty s now cb hcb
  | destroy =>
    simp only [ModificationNotifier.step, destroy_eq] at hcb
    cases hcb
  | _ => cases hcb

/-- C15: whatever the writers, the clock and the scheduling of the notifier thread
do, every call made to the observer (`onMediaAdded`, `onMediaUpdated`,
`onMediaDeleted`, `onArtistsAdded`, `onArtistsModified`, `onArtistsDeleted`) passes a
collection with at least one element. -/
theorem callbacks_never_empty (window : Nat) (s : ModificationNotifier)
    (events : List NotifierEvent) :
    ∀ cb ∈ (s.exec window events).1, cb.payload ≠ [] := by
  induction events generalizing s with
  | nil => intro cb hcb; cases hcb
  | cons e rest ih =>
    intro cb hcb
    simp only [ModificationNotifier.exec, List.mem_append] at hcb
    rcases hcb with h | h
    · exact step_nonempty window s e cb h
    · exact ih _ cb h

/-- C15 at a started, idle notifier with a window of 500: media 7 is created at time
0, removed media 9 is reported, artist 3 is modified, and the thread is scheduled at
time 500. `onMediaAdded` is called, with the one media 7. -/
theorem callbacks_never_empty_witness :
    Callback.onMediaAdded [7] ∈ (ModificationNotifier.idle.exec 500
      [NotifierEvent.mediaCreation 7 0, NotifierEvent.mediaRemoval 9 10,
       NotifierEvent.artistModification 3 20, NotifierEvent.wake 500]).1 ∧
    (Callback.onMediaAdded [7]).payload ≠ [] :=
  ⟨by decide,
   callbacks_never_empty 500 ModificationNotifier.idle
     [NotifierEvent.mediaCreation 7 0, NotifierEvent.mediaRemoval 9 10,
      NotifierEvent.artistModification 3 20, NotifierEvent.wake 500]
     (Callback.onMediaAdded [7]) (by decide)⟩

theorem exec_append (window : Nat) (s : ModificationNotifier) (l1 l2 : List NotifierEvent) :
    s.exec window (l1 ++ l2) =
      ((s.exec window l1).1 ++ ((s.exec window l1).2.exec window l2).1,
       ((s.exec window l1).2.exec window l2).2) := by
  induction l1 generalizing s with
  | nil => simp [ModificationNotifier.exec]
  | cons e rest ih =>
    rw [List.cons_append]
    simp only [ModificationNotifier.exec]
    rw [ih]
    simp only [List.append_assoc]

theorem exec_wakes_waiting (window : Nat) (s : ModificationNotifier) (times : List Nat)
    (hstop : s.m_stop = false)
    (h : s.m_timeout = 0 ∨ ∀ t ∈ times, t < s.m_timeout) :
    s.exec window (times.map NotifierEvent.wake) = ([], s) := by
  induction times with
  | nil => rfl
  | cons t rest ih =>
    have hstep : s.runStep t = ([], s) := by
      unfold ModificationNotifier.runStep
      rcases h with h0 | hlt
      · cases hr : s.threadRunning <;> simp [hr, hstop, h0]
      · have := hlt t (List.mem_cons_self _ _)
        cases hr : s.threadRunning <;> simp [hr, hstop, this]
    have hrest : s.m_timeout = 0 ∨ ∀ t ∈ rest, t < s.m_timeout := by
      rcases h with h0 | hlt
      · exact Or.inl h0
      · exact Or.inr (fun t ht => hlt t (List.mem_cons_of_mem _ ht))
    simp only [List.map_cons, ModificationNotifier.exec, ModificationNotifier.step, hstep,
      ih hrest, List.append_nil]

theorem exec_stopped_thread (window : Nat) (s : ModificationNotifier)
    (events : List NotifierEvent) (h : s.threadRunning = false) :
    (s.exec window events).1 = [] := by
  induction events generalizing s with
  | nil => rfl
  | cons e rest ih =>
    have hstep : (s.step window e).1 = [] ∧ (s.step window e).2.threadRunning = false := by
      cases e <;>
        simp [ModificationNotifier.step, ModificationNotifier.notifyMediaCreation,
          ModificationNotifier.notifyMediaModification, ModificationNotifier.notifyMediaRemoval,
          ModificationNotifier.notifyArtistCreation,
          ModificationNotifier.notifyArtistModification,
          ModificationNotifier.notifyArtistRemoval, ModificationNotifier.runStep, destroy_eq, h]
    simp only [ModificationNotifier.exec, hstep.1, ih _ hstep.2, List.append_nil]

/-- C13 fails on the code: a started, idle notifier receives the creation of media 7
and is then destroyed. No callback is made, the thread has left its loop, and
media 7 is still in the pending batch: it was delivered zero times, not once. -/
theorem shutdown_flush_counterexample :
    ModificationNotifier.idle.exec 500
        [NotifierEvent.mediaCreation 7 0, NotifierEvent.destroy] =
      ([], ⟨true, 500, ⟨[7], [], [], 500⟩, Queue.empty, false⟩) := by
  decide

/-- C13 as amended: on shutdown the notifier does not flush. The destructor makes no
callback and leaves the pending media and artist batches as they are while the
thread leaves its loop; a thread that is scheduled once the stop flag is set leaves
the loop without a callback, whatever the time; and after the destruction no event leads to a callback, so
the events pending at the stop are never delivered. -/
theorem shutdown_does_not_flush (window : Nat) (s : ModificationNotifier) :
    s.destroy.1 = [] ∧ s.destroy.2.m_media = s.m_media ∧
    s.destroy.2.m_artists = s.m_artists ∧ s.destroy.2.threadRunning = false ∧
    (∀ now, (ModificationNotifier.runStep { s with m_stop := true } now).1 = [] ∧
      (ModificationNotifier.runStep { s with m_stop := true } now).2.threadRunning = false ∧
      (ModificationNotifier.runStep { s with m_stop := true } now).2.m_media = s.m_media ∧
      (ModificationNotifier.runStep { s with m_stop := true } now).2.m_artists =
        s.m_artists) ∧
    (∀ events, (s.exec window (NotifierEvent.destroy :: events)).1 = []) := by
  refine ⟨?_, ?_, ?_, ?_, ?_, ?_⟩
  · rw [destroy_eq]
  · rw [destroy_eq]
  · rw [destroy_eq]
  · rw [destroy_eq]
  · intro now
    unfold ModificationNotifier.runStep
    cases hr : s.threadRunning <;> simp [hr]
  · intro events
    simp only [ModificationNotifier.exec, ModificationNotifier.step, destroy_eq,
      List.nil_append]
    exact exec_stopped_thread window _ events rfl

/-- C14: a started notifier is idle and the debounce window is positive; three
distinct media are created at times `t1`, `t2`, `t3`, all three before the notifier
thread wakes for the deadline `t1 + window` armed by the first; the thread may be
scheduled any number of times before the deadline, is scheduled at a time `now` at
or after it, and any number of times later. The observer receives exactly one call,
`onMediaAdded` with the three media. -/
theorem three_creations_one_callback (window a b c t1 t2 t3 now : Nat)
    (early1 early2 early3 later : List Nat)
    (hw : 0 < window) (hab : a ≠ b) (hac : a ≠ c) (hbc : b ≠ c)
    (he1 : ∀ t ∈ early1, t < t1 + window) (he2 : ∀ t ∈ early2, t < t1 + window)
    (he3 : ∀ t ∈ early3, t < t1 + window) (hnow : t1 + window ≤ now) :
    (ModificationNotifier.idle.exec window
      ([NotifierEvent.mediaCreation a t1] ++ early1.map NotifierEvent.wake ++
       [NotifierEvent.mediaCreation b t2] ++ early2.map NotifierEvent.wake ++
       [NotifierEvent.mediaCreation c t3] ++ early3.map NotifierEvent.wake ++
       [NotifierEvent.wake now] ++ later.map NotifierEvent.wake)).1 =
      [Callback.onMediaAdded [a, b, c]] := by
  have hne : t1 + window ≠ 0 := by omega
  -- the states after each creation
  have s1 : ModificationNotifier.idle.exec window [NotifierEvent.mediaCreation a t1] =
      ([], ⟨false, t1 + window, ⟨[a], [], [], t1 + window⟩, Queue.empty, true⟩) := by
    simp [ModificationNotifier.exec, ModificationNotifier.step,
      ModificationNotifier.notifyMediaCreation, ModificationNotifier.idle, Queue.empty,
      Queue.notifyCreation, Queue.arm, scheduleWakeUp]
  have s2 : (⟨false, t1 + window, ⟨[a], [], [], t1 + window⟩, Queue.empty, true⟩ :
        ModificationNotifier).exec window [NotifierEvent.mediaCreation b t2] =
      ([], ⟨false, t1 + window, ⟨[a, b], [], [], t1 + window⟩, Queue.empty, true⟩) := by
    simp [ModificationNotifier.exec, ModificationNotifier.step,
      ModificationNotifier.notifyMediaCreation, Queue.notifyCreation, Queue.arm,
      scheduleWakeUp, hne, Ne.symm hab]
  have s3 : (⟨false, t1 + window, ⟨[a, b], [], [], t1 + window⟩, Queue.empty, true⟩ :
        ModificationNotifier).exec window [NotifierEvent.mediaCreation c t3] =
      ([], ⟨false, t1 + window, ⟨[a, b, c], [], [], t1 + window⟩, Queue.empty, true⟩) := by
    simp [ModificationNotifier.exec, ModificationNotifier.step,
      ModificationNotifier.notifyMediaCreation, Queue.notifyCreation, Queue.arm,
      scheduleWakeUp, hne, Ne.symm hac, Ne.symm hbc]
  have s4 : (⟨false, t1 + window, ⟨[a, b, c], [], [], t1 + window⟩, Queue.empty, true⟩ :
        ModificationNotifier).exec window [NotifierEvent.wake now] =
      ([Callback.onMediaAdded [a, b, c]], ⟨false, 0, Queue.empty, Queue.empty, true⟩) := by
    have hlt : ¬ now < t1 + window := by omega
    simp [ModificationNotifier.exec, ModificationNotifier.step, ModificationNotifier.runStep,
      checkQueue, notify, Queue.empty, hne, hlt, hnow]
  have w1 := exec_wakes_waiting window
    ⟨false, t1 + window, ⟨[a], [], [], t1 + window⟩, Queue.empty, true⟩ early1 rfl (Or.inr he1)
  have w2 := exec_wakes_waiting window
    ⟨false, t1 + window, ⟨[a, b], [], [], t1 + window⟩, Queue.empty, true⟩ early2 rfl
    (Or.inr he2)
  have w3 := exec_wakes_waiting window
    ⟨false, t1 + window, ⟨[a, b, c], [], [], t1 + window⟩, Queue.empty, true⟩ early3 rfl
    (Or.inr he3)
  have w4 := exec_wakes_waiting window ⟨false, 0, Queue.empty, Queue.empty, true⟩ later rfl
    (Or.inl rfl)
  simp only [exec_append, s1, w1, s2, w2, s3, w3, s4, w4, List.nil_append, List.append_nil]

/-- C14 at a window of 500: media 1, 2, 3 are created at times 0, 100 and 499, the
thread is scheduled at 10, 499, 500 and 1000: one `onMediaAdded` with all three. -/
theorem three_creations_one_callback_witness :
    (ModificationNotifier.idle.exec 500
      ([NotifierEvent.mediaCreation 1 0] ++ [10].map NotifierEvent.wake ++
       [NotifierEvent.mediaCreation 2 100] ++ ([] : List Nat).map NotifierEvent.wake ++
       [NotifierEvent.mediaCreation 3 499] ++ [499].map NotifierEvent.wake ++
       [NotifierEvent.wake 500] ++ [1000].map NotifierEvent.wake)).1 =
      [Callback.onMediaAdded [1, 2, 3]] :=
  three_creations_one_callback 500 1 2 3 0 100 499 500 [10] [] [499] [1000]
    (by decide) (by decide) (by decide) (by decide) (by decide) (by decide)
    (by decide) (by decide)

/-! ### The discovery scheduler -/

theorem submitted_append (l1 l2 : List WorkerAction) :
    submitted (l1 ++ l2) = submitted l1 ++ submitted l2 := by
  induction l1 with
  | nil => rfl
  | cons a rest ih => cases a <;> simp [submitted, ih]

theorem exec_append_action (w : DiscovererWorker) (actions : List WorkerAction)
    (a : WorkerAction) : w.exec (actions ++ [a]) = (w.exec actions).step a := by
  simp [DiscovererWorker.exec, List.foldl_append]

/-- The calls made so far are the calls of the tasks of a prefix of the submission
order, and the rest of the submission order is what is still queued. -/
theorem worker_fifo (actions : List WorkerAction) :
    ∃ done : List (Task × Walk),
      (DiscovererWorker.fresh.exec actions).callbacks =
        (done.map (fun d => taskCallbacks d.1 d.2)).flatten ∧
      done.map Prod.fst ++ (DiscovererWorker.fresh.exec actions).m_tasks = submitted actions := by
  induction actions using List.reverseRecOn with
  | nil => exact ⟨[], rfl, rfl⟩
  | append_singleton actions a ih =>
    obtain ⟨done, hcb, hq⟩ := ih
    rw [exec_append_action, submitted_append]
    cases a with
    | enqueue entryPoint reload =>
      refine ⟨done, hcb, ?_⟩
      simp only [DiscovererWorker.step, DiscovererWorker.enqueue, submitted, ← hq,
        List.append_assoc]
    | stop =>
      refine ⟨done, hcb, ?_⟩
      simp only [DiscovererWorker.step, DiscovererWorker.stop, submitted, hq, List.append_nil]
    | work walk =>
      simp only [DiscovererWorker.step, submitted, List.append_nil]
      unfold DiscovererWorker.work
      split
      · exact ⟨done, hcb, hq⟩
      · split
        · exact ⟨done, hcb, hq⟩
        · rename_i task rest htasks
          refine ⟨done ++ [(task, walk)], ?_, ?_⟩
          · simp [hcb]
          · rw [← hq, htasks]
            simp

theorem exec_enqueues (w : DiscovererWorker) (tasks : List Task) :
    w.exec (tasks.map (fun t => WorkerAction.enqueue t.entryPoint t.reload)) =
      { w with m_tasks := w.m_tasks ++ tasks } := by
  induction tasks generalizing w with
  | nil => simp [DiscovererWorker.exec]
  | cons t rest ih =>
    have := ih (w.enqueue t.entryPoint t.reload)
    simp only [DiscovererWorker.exec] at this
    simp only [DiscovererWorker.exec, List.map_cons, List.foldl_cons, DiscovererWorker.step]
    rw [this]
    simp [DiscovererWorker.enqueue]

theorem exec_works (w : DiscovererWorker) (tasks rest : List Task) (walks : List Walk)
    (hrun : w.m_run = true) (hq : w.m_tasks = tasks ++ rest)
    (hlen : walks.length = tasks.length) :
    (w.exec (walks.map WorkerAction.work)).callbacks =
        w.callbacks ++ ((tasks.zip walks).map (fun d => taskCallbacks d.1 d.2)).flatten ∧
      (w.exec (walks.map WorkerAction.work)).m_tasks = rest ∧
      (w.exec (walks.map WorkerAction.work)).m_run = true := by
  induction tasks generalizing w walks with
  | nil =>
    cases walks with
    | nil => simp [DiscovererWorker.exec, hq, hrun]
    | cons _ _ => simp at hlen
  | cons t ts ih =>
    cases walks with
    | nil => simp at hlen
    | cons wk wks =>
      have hstep : w.work wk = { w with
          m_tasks := ts ++ rest
          callbacks := w.callbacks ++ taskCallbacks t wk
          logged := match wk.error with
            | some e => w.logged ++ [e]
            | none => w.logged } := by
        simp [DiscovererWorker.work, hrun, hq]
      have := ih (w.work wk) wks (by rw [hstep]; exact hrun) (by rw [hstep])
        (by simpa using hlen)
      simp only [DiscovererWorker.exec] at this
      simp only [DiscovererWorker.exec, List.map_cons, List.foldl_cons, DiscovererWorker.step]
      refine ⟨?_, this.2.1, this.2.2⟩
      rw [this.1, hstep]
      simp [List.append_assoc]

/-- C16: discovery tasks run in strict submission order. Whatever callers, worker
and stop do, the calls made to the observer are, task after task, the start, the
progress calls and the completion of a prefix of the submitted tasks in submission
order, the other submitted tasks being still queued in that order (no reordering, no
deduplication, no overlap). And when tasks are submitted to a fresh worker that is
then scheduled once per task, the calls are exactly those blocks for all the tasks:
for `[A, B, C]`, start and completion of `A`, then of `B`, then of `C`. -/
theorem discovery_in_submission_order :
    (∀ actions : List WorkerAction, ∃ done : List (Task × Walk),
      (DiscovererWorker.fresh.exec actions).callbacks =
        (done.map (fun d => taskCallbacks d.1 d.2)).flatten ∧
      done.map Prod.fst ++ (DiscovererWorker.fresh.exec actions).m_tasks
        = submitted actions) ∧
    (∀ (tasks : List Task) (walks : List Walk), walks.length = tasks.length →
      (DiscovererWorker.fresh.exec
        (tasks.map (fun t => WorkerAction.enqueue t.entryPoint t.reload) ++
          walks.map WorkerAction.work)).callbacks =
        ((tasks.zip walks).map (fun d => taskCallbacks d.1 d.2)).flatten) ∧
    (∀ (A B C : Task) (wa wb wc : Walk),
      (DiscovererWorker.fresh.exec
        [WorkerAction.enqueue A.entryPoint A.reload, WorkerAction.enqueue B.entryPoint B.reload,
         WorkerAction.enqueue C.entryPoint C.reload, WorkerAction.work wa, WorkerAction.work wb,
         WorkerAction.work wc]).callbacks =
        [DiscoveryCallback.onDiscoveryStarted A.entryPoint] ++
          wa.entered.map DiscoveryCallback.onDiscoveryProgress ++
          [DiscoveryCallback.onDiscoveryCompleted A.entryPoint,
           DiscoveryCallback.onDiscoveryStarted B.entryPoint] ++
          wb.entered.map DiscoveryCallback.onDiscoveryProgress ++
          [DiscoveryCallback.onDiscoveryCompleted B.entryPoint,
           DiscoveryCallback.onDiscoveryStarted C.entryPoint] ++
          wc.entered.map DiscoveryCallback.onDiscoveryProgress ++
          [DiscoveryCallback.onDiscoveryCompleted C.entryPoint]) := by
  have general : ∀ (tasks : List Task) (walks : List Walk), walks.length = tasks.length →
      (DiscovererWorker.fresh.exec
        (tasks.map (fun t => WorkerAction.enqueue t.entryPoint t.reload) ++
          walks.map WorkerAction.work)).callbacks =
        ((tasks.zip walks).map (fun d => taskCallbacks d.1 d.2)).flatten := by
    intro tasks walks hlen
    have h1 := exec_enqueues DiscovererWorker.fresh tasks
    have h2 := exec_works { DiscovererWorker.fresh with
      m_tasks := DiscovererWorker.fresh.m_tasks ++ tasks } tasks [] walks rfl
      (by simp [DiscovererWorker.fresh]) hlen
    simp only [DiscovererWorker.exec, List.foldl_append] at h1 h2 ⊢
    rw [h1, h2.1]
    simp [DiscovererWorker.fresh]
  refine ⟨worker_fifo, general, ?_⟩
  intro A B C wa wb wc
  have := general [A, B, C] [wa, wb, wc] rfl
  simp only [List.map_cons, List.map_nil, List.cons_append, List.nil_append] at this
  rw [this]
  simp [taskCallbacks]

/-- C16 at three tasks: a discovery of `/a`, a reload of `/b` and a discovery of
`/c`, the second walk entering two directories. -/
theorem discovery_in_submission_order_witness :
    (DiscovererWorker.fresh.exec
      (([⟨"/a", false⟩, ⟨"/b", true⟩, ⟨"/c", false⟩] : List Task).map
          (fun t => WorkerAction.enqueue t.entryPoint t.reload) ++
        ([⟨[], none⟩, ⟨["/b", "/b/x"], none⟩, ⟨[], none⟩] : List Walk).map
          WorkerAction.work)).callbacks =
      [DiscoveryCallback.onDiscoveryStarted "/a", DiscoveryCallback.onDiscoveryCompleted "/a",
       DiscoveryCallback.onDiscoveryStarted "/b", DiscoveryCallback.onDiscoveryProgress "/b",
       DiscoveryCallback.onDiscoveryProgress "/b/x",
       DiscoveryCallback.onDiscoveryCompleted "/b",
       DiscoveryCallback.onDiscoveryStarted "/c",
       DiscoveryCallback.onDiscoveryCompleted "/c"] :=
  (discovery_in_submission_order.2.1 [⟨"/a", false⟩, ⟨"/b", true⟩, ⟨"/c", false⟩]
    [⟨[], none⟩, ⟨["/b", "/b/x"], none⟩, ⟨[], none⟩] rfl).trans (by decide)

/-- C17: discovery completion is unconditional. A running worker with the task
`task` at the head of its queue, scheduled with any walk (also one that fails
outright), keeps running, removes the task from the queue and reports its start, the
progress calls and its completion with the entry point of the task; a failure is
logged. Scheduled again, it does the same for the task queued next. A full reload is
queued, and so completed, with the empty entry point. -/
theorem completion_is_unconditional (w : DiscovererWorker) (task : Task) (rest : List Task)
    (walk : Walk) (hrun : w.m_run = true) (hq : w.m_tasks = task :: rest) :
    (w.work walk).callbacks = w.callbacks ++
      (DiscoveryCallback.onDiscoveryStarted task.entryPoint ::
        (walk.entered.map DiscoveryCallback.onDiscoveryProgress ++
          [DiscoveryCallback.onDiscoveryCompleted task.entryPoint])) ∧
    (w.work walk).m_run = true ∧ (w.work walk).m_tasks = rest ∧
    (∀ e, walk.error = some e → (w.work walk).logged = w.logged ++ [e]) ∧
    (∀ (next : Task) (rest' : List Task) (walk' : Walk), rest = next :: rest' →
      ((w.work walk).work walk').callbacks = (w.work walk).callbacks ++
        (DiscoveryCallback.onDiscoveryStarted next.entryPoint ::
          (walk'.entered.map DiscoveryCallback.onDiscoveryProgress ++
            [DiscoveryCallback.onDiscoveryCompleted next.entryPoint])) ∧
      ((w.work walk).work walk').m_tasks = rest') ∧
    (w.reloadAll.m_tasks = w.m_tasks ++ [⟨"", true⟩]) := by
  have hstep : w.work walk = { w with
      m_tasks := rest
      callbacks := w.callbacks ++ taskCallbacks task walk
      logged := match walk.error with
        | some e => w.logged ++ [e]
        | none => w.logged } := by
    simp [DiscovererWorker.work, hrun, hq]
  refine ⟨by rw [hstep]; rfl, by rw [hstep]; exact hrun, by rw [hstep], ?_, ?_, rfl⟩
  · intro e he
    rw [hstep]
    simp [he]
  · intro next rest' walk' hrest
    rw [hstep]
    simp [DiscovererWorker.work, hrun, hrest, taskCallbacks]

/-- C17 at a worker with the queue `[discover /gone, reload all]`: the discovery of
`/gone` fails outright and is still completed; the full reload queued after it is
started and completed with the empty entry point. -/
theorem completion_is_unconditional_witness :
    (((DiscovererWorker.fresh.discover "/gone").reloadAll.work
        ⟨[], some "entry point not found"⟩).work ⟨["/music"], none⟩) =
      ⟨[], true,
       [DiscoveryCallback.onDiscoveryStarted "/gone",
        DiscoveryCallback.onDiscoveryCompleted "/gone",
        DiscoveryCallback.onDiscoveryStarted "", DiscoveryCallback.onDiscoveryProgress "/music",
        DiscoveryCallback.onDiscoveryCompleted ""],
       ["entry point not found"]⟩ ∧
    ((DiscovererWorker.fresh.discover "/gone").reloadAll.work
        ⟨[], some "entry point not found"⟩).callbacks =
      [DiscoveryCallback.onDiscoveryStarted "/gone",
       DiscoveryCallback.onDiscoveryCompleted "/gone"] :=
  ⟨by decide,
   (completion_is_unconditional (DiscovererWorker.fresh.discover "/gone").reloadAll
      ⟨"/gone", false⟩ [⟨"", true⟩] ⟨[], some "entry point not found"⟩ rfl rfl).1⟩

/-! ### The identity cache -/

theorem find_append_new {α : Type} (l : List α) (x : α) (p : α → Bool)
    (hl : ∀ y ∈ l, p y = false) (hx : p x = true) : (l ++ [x]).find? p = some x := by
  have : l.find? p = none := by
    rw [List.find?_eq_none]
    intro y hy
    simp [hl y hy]
  simp [List.find?_append, this, List.find?_cons, hx]

theorem load_registered {α : Type} (s : EntityStore α) (id : Nat) (fields : α) :
    (s.load id fields).2.cache.find? (fun x => decide (x.id = id)) = some (s.load id fields).1 := by
  unfold EntityStore.load
  cases h : s.cache.find? (fun x => decide (x.id = id)) with
  | some x => simpa using h
  | none =>
    simp only
    apply find_append_new
    · intro y hy
      simpa using List.find?_eq_none.mp h y hy
    · simp

/-- Fetching a key twice returns the same instance, and the second fetch changes
nothing. -/
theorem fetch_twice {α : Type} (s s1 : EntityStore α) (id : Nat) (x : Instance α)
    (h : s.fetch id = (some x, s1)) : s1.fetch id = (some x, s1) := by
  unfold EntityStore.fetch at h
  cases hc : s.cache.find? (fun x => decide (x.id = id)) with
  | some y =>
    simp only [hc, Prod.mk.injEq, Option.some.injEq] at h
    obtain ⟨rfl, rfl⟩ := h
    simp [EntityStore.fetch, hc]
  | none =>
    simp only [hc] at h
    cases hr : s.rows.find? (fun r => decide (r.1 = id)) with
    | none => simp [hr] at h
    | some r =>
      simp only [hr, Prod.mk.injEq, Option.some.injEq] at h
      obtain ⟨rfl, rfl⟩ := h
      have := load_registered s id r.2
      simp [EntityStore.fetch, this]

theorem insert_then_fetch {α : Type} (s : EntityStore α) (args : α) (h : s.WellFormed) :
    (s.insert args).2.fetch (s.insert args).1.id = (some (s.insert args).1, (s.insert args).2) := by
  have hfind : (s.insert args).2.cache.find? (fun x => decide (x.id = s.nextId))
      = some ⟨s.nextHandle, s.nextId, args⟩ := by
    apply find_append_new
    · intro y hy
      have := h.2.1 y hy
      simp only [decide_eq_false_iff_not]
      omega
    · simp
  simp only [EntityStore.fetch, EntityStore.insert] at hfind ⊢
  simp [hfind]

theorem insert_reload_row {α : Type} (s : EntityStore α) (args : α) (h : s.WellFormed) :
    (s.insert args).2.rows.find? (fun r => decide (r.1 = s.nextId)) = some (s.nextId, args) := by
  apply find_append_new
  · intro r hr
    have := h.1 r hr
    simp only [decide_eq_false_iff_not]
    omega
  · simp

theorem wellFormed_insert {α : Type} (s : EntityStore α) (args : α) (h : s.WellFormed) :
    (s.insert args).2.WellFormed := by
  obtain ⟨h1, h2, h3⟩ := h
  refine ⟨?_, ?_, ?_⟩
  · intro r hr
    simp only [EntityStore.insert, List.mem_append, List.mem_singleton] at hr ⊢
    rcases hr with hr | rfl
    · have := h1 r hr; omega
    · exact Nat.lt_succ_self _
  · intro x hx
    simp only [EntityStore.insert, List.mem_append, List.mem_singleton] at hx ⊢
    rcases hx with hx | rfl
    · have := h2 x hx; omega
    · exact Nat.lt_succ_self _
  · simp only [EntityStore.insert, List.map_append, List.map_cons, List.map_nil]
    rw [List.nodup_append]
    refine ⟨h3, List.nodup_singleton _, ?_⟩
    intro a ha hb
    simp only [List.mem_singleton] at hb
    subst hb
    obtain ⟨x, hx, hid⟩ := List.mem_map.mp ha
    have := h2 x hx
    omega

theorem wellFormed_load {α : Type} (s : EntityStore α) (id : Nat) (fields : α)
    (h : s.WellFormed) (hid : id < s.nextId) : (s.load id fields).2.WellFormed := by
  unfold EntityStore.load
  cases hc : s.cache.find? (fun x => decide (x.id = id)) with
  | some x => exact h
  | none =>
    obtain ⟨h1, h2, h3⟩ := h
    refine ⟨h1, ?_, ?_⟩
    · intro x hx
      simp only [List.mem_append, List.mem_singleton] at hx
      rcases hx with hx | rfl
      · exact h2 x hx
      · exact hid
    · simp only [List.map_append, List.map_cons, List.map_nil]
      rw [List.nodup_append]
      refine ⟨h3, List.nodup_singleton _, ?_⟩
      intro a ha hb
      simp only [List.mem_singleton] at hb
      subst hb
      obtain ⟨x, hx, hxid⟩ := List.mem_map.mp ha
      have := List.find?_eq_none.mp hc x hx
      simp [hxid] at this

theorem wellFormed_fetch {α : Type} (s : EntityStore α) (id : Nat) (h : s.WellFormed) :
    (s.fetch id).2.WellFormed := by
  unfold EntityStore.fetch
  cases hc : s.cache.find? (fun x => decide (x.id = id)) with
  | some x => exact h
  | none =>
    cases hr : s.rows.find? (fun r => decide (r.1 = id)) with
    | none => exact h
    | some r =>
      have hmem := List.mem_of_find?_eq_some hr
      have hid : r.1 = id := by simpa using List.find?_some hr
      exact wellFormed_load s id r.2 h (hid ▸ h.1 r hmem)

theorem wellFormed_reload {α : Type} (s : EntityStore α) (h : s.WellFormed) :
    s.reload.WellFormed :=
  ⟨h.1, fun x hx => absurd hx (List.not_mem_nil x), List.nodup_nil⟩

theorem fetch_after_insert_and_reload {α : Type} (s : EntityStore α) (args : α)
    (h : s.WellFormed) :
    (s.insert args).2.reload.fetch s.nextId =
      (some ⟨s.nextHandle + 1, s.nextId, args⟩,
       { (s.insert args).2.reload with
         cache := [⟨s.nextHandle + 1, s.nextId, args⟩]
         nextHandle := s.nextHandle + 2 }) := by
  have hrow := insert_reload_row s args h
  simp only [EntityStore.fetch, EntityStore.reload, EntityStore.load, List.find?_nil, hrow]
  simp [EntityStore.insert]

/-- C18: single live instance per primary key. For every album id, once a fetch has
returned an instance, `ml->album( id )` and `track->album()` of every track of that
album return that same instance and register nothing new. Right after the lines
`createAlbum`, `addFile`, `addTrack`, `save`, `track->album()` is the instance that
`createAlbum` returned. After the caches were reloaded, the track fetched by its id
exists, and `track->album()`, then `ml->album( id )`, then a second `track->album()`
return one and the same instance, which has the key of the created album. -/
theorem album_instance_is_unique (ml : Library) (title path : String)
    (trackNb discNumber artistId genreId : Nat)
    (ha : ml.albums.WellFormed) (ht : ml.tracks.WellFormed) :
    (∀ (lib lib' : Library) (id : Nat) (a : Instance String),
      lib.album id = (some a, lib') →
      lib'.album id = (some a, lib') ∧
      ∀ track : Instance AlbumTrackFields, track.fields.albumId = id →
        lib'.albumOfTrack track = (some a, lib')) ∧
    (ml.withTrack title path trackNb discNumber artistId genreId).ml.albumOfTrack
        (ml.withTrack title path trackNb discNumber artistId genreId).track =
      (some (ml.withTrack title path trackNb discNumber artistId genreId).album,
       (ml.withTrack title path trackNb discNumber artistId genreId).ml) ∧
    ∃ (t : Instance AlbumTrackFields) (a : Instance String),
      ((ml.withTrack title path trackNb discNumber artistId genreId).ml.reload.albumTrack
          (ml.withTrack title path trackNb discNumber artistId genreId).track.id).1 = some t ∧
      (((ml.withTrack title path trackNb discNumber artistId genreId).ml.reload.albumTrack
          (ml.withTrack title path trackNb discNumber artistId genreId).track.id).2.albumOfTrack
          t).1 = some a ∧
      a.id = (ml.withTrack title path trackNb discNumber artistId genreId).album.id ∧
      ((((ml.withTrack title path trackNb discNumber artistId genreId).ml.reload.albumTrack
          (ml.withTrack title path trackNb discNumber artistId genreId).track.id).2.albumOfTrack
          t).2.album (ml.withTrack title path trackNb discNumber artistId genreId).album.id).1
        = some a ∧
      (((((ml.withTrack title path trackNb discNumber artistId genreId).ml.reload.albumTrack
          (ml.withTrack title path trackNb discNumber artistId genreId).track.id).2.albumOfTrack
          t).2.album
            (ml.withTrack title path trackNb discNumber artistId genreId).album.id).2.albumOfTrack
          t).1 = some a := by
  have generic : ∀ (lib lib' : Library) (id : Nat) (a : Instance String),
      lib.album id = (some a, lib') →
      lib'.album id = (some a, lib') ∧
      ∀ track : Instance AlbumTrackFields, track.fields.albumId = id →
        lib'.albumOfTrack track = (some a, lib') := by
    intro lib lib' id a h
    simp only [Library.album, Prod.mk.injEq] at h
    obtain ⟨h1, h2⟩ := h
    have hf : lib.albums.fetch id = (some a, lib'.albums) := by
      rw [← h2]
      exact Prod.ext h1 rfl
    have h2' := fetch_twice lib.albums lib'.albums id a hf
    have hre : lib'.album id = (some a, lib') := by
      simp [Library.album, h2']
    refine ⟨hre, ?_⟩
    intro track hid
    simp only [Library.albumOfTrack, hid]
    exact hre
  refine ⟨generic, ?_, ?_⟩
  · have := insert_then_fetch ml.albums title ha
    simp only [Library.albumOfTrack, Library.album, Library.withTrack, Library.createAlbum,
      Library.addFile, Library.addTrack, Library.saveMedia, EntityStore.insert] at this ⊢
    simp [this]
  · have htrack := fetch_after_insert_and_reload ml.tracks
      ⟨ml.media.nextId, ml.albums.nextId, trackNb, discNumber, artistId, genreId⟩ ht
    have halbum := fetch_after_insert_and_reload ml.albums title ha
    have e1 : (ml.withTrack title path trackNb discNumber artistId genreId).ml.reload.albumTrack
        (ml.withTrack title path trackNb discNumber artistId genreId).track.id =
        (some ⟨ml.tracks.nextHandle + 1, ml.tracks.nextId,
          ⟨ml.media.nextId, ml.albums.nextId, trackNb, discNumber, artistId, genreId⟩⟩,
         { (ml.withTrack title path trackNb discNumber artistId genreId).ml.reload with
           tracks := (ml.tracks.insert
             ⟨ml.media.nextId, ml.albums.nextId, trackNb, discNumber, artistId,
               genreId⟩).2.reload.fetch ml.tracks.nextId |>.2 }) := by
      rw [htrack]
      simp only [Library.albumTrack, Library.reload, Library.withTrack, Library.createAlbum,
        Library.addFile, Library.addTrack, Library.saveMedia, EntityStore.insert] at htrack ⊢
      rw [htrack]
    have e2 : ∀ lib : Library, lib.albums = (ml.albums.insert title).2.reload →
        lib.album ml.albums.nextId =
          (some ⟨ml.albums.nextHandle + 1, ml.albums.nextId, title⟩,
           { lib with albums := ((ml.albums.insert title).2.reload.fetch ml.albums.nextId).2 }) := by
      intro lib hlib
      simp only [Library.album, hlib, halbum]
    obtain ⟨lib1, hlib1, hlib1a⟩ : ∃ lib1 : Library,
        (ml.withTrack title path trackNb discNumber artistId genreId).ml.reload.albumTrack
          (ml.withTrack title path trackNb discNumber artistId genreId).track.id =
          (some ⟨ml.tracks.nextHandle + 1, ml.tracks.nextId,
            ⟨ml.media.nextId, ml.albums.nextId, trackNb, discNumber, artistId, genreId⟩⟩, lib1) ∧
        lib1.albums = (ml.albums.insert title).2.reload := ⟨_, e1, rfl⟩
    have g := generic lib1 _ _ _ (e2 lib1 hlib1a)
    refine ⟨⟨ml.tracks.nextHandle + 1, ml.tracks.nextId,
        ⟨ml.media.nextId, ml.albums.nextId, trackNb, discNumber, artistId, genreId⟩⟩,
      ⟨ml.albums.nextHandle + 1, ml.albums.nextId, title⟩, by rw [hlib1], ?_, rfl, ?_, ?_⟩
    · rw [hlib1]
      show (lib1.album ml.albums.nextId).1 = _
      rw [e2 lib1 hlib1a]
    · rw [hlib1]
      show ((lib1.album ml.albums.nextId).2.album ml.albums.nextId).1 = _
      rw [e2 lib1 hlib1a]
      simp only [g.1]
    · rw [hlib1]
      show (((lib1.album ml.albums.nextId).2.album ml.albums.nextId).2.album
        ml.albums.nextId).1 = _
      rw [e2 lib1 hlib1a]
      simp only [g.1]

/-- C18 at the empty library and the values of the test `AlbumTracks.Album`. -/
theorem album_instance_is_unique_witness :
    Library.empty.albums.WellFormed ∧ Library.empty.tracks.WellFormed ∧
    (Library.empty.withTrack "album" "track1.mp3" 1 0 0 0).ml.albumOfTrack
        (Library.empty.withTrack "album" "track1.mp3" 1 0 0 0).track =
      (some (Library.empty.withTrack "album" "track1.mp3" 1 0 0 0).album,
       (Library.empty.withTrack "album" "track1.mp3" 1 0 0 0).ml) :=
  ⟨⟨by decide, by decide, by decide⟩, ⟨by decide, by decide, by decide⟩,
   (album_instance_is_unique Library.empty "album" "track1.mp3" 1 0 0 0
     ⟨by decide, by decide, by decide⟩ ⟨by decide, by decide, by decide⟩).2.1⟩

/-- C19: the disc number of an album track round-trips. For every disc number `d`,
the track returned by `album->addTrack( media, trackNb, d, ... )` has the disc number
`d`; after `save` and the reload of the caches, the media fetched by the same id has
an album track, the one that was created, whose disc number is `d`. (No stored
album track refers to a media key that is not generated yet.) -/
theorem disc_number_round_trip (ml : Library) (title path : String)
    (trackNb d artistId genreId : Nat)
    (hm : ml.media.WellFormed)
    (hfk : ∀ r ∈ ml.tracks.rows, r.2.mediaId < ml.media.nextId) :
    (ml.withTrack title path trackNb d artistId genreId).track.fields.discNumber = d ∧
    ∃ (m : Instance String) (t : Instance AlbumTrackFields),
      ((ml.withTrack title path trackNb d artistId genreId).ml.reload.mediaById
          (ml.withTrack title path trackNb d artistId genreId).media.id).1 = some m ∧
      m.id = (ml.withTrack title path trackNb d artistId genreId).media.id ∧
      (((ml.withTrack title path trackNb d artistId genreId).ml.reload.mediaById
          (ml.withTrack title path trackNb d artistId genreId).media.id).2.albumTrackOfMedia
          m).1 = some t ∧
      t.id = (ml.withTrack title path trackNb d artistId genreId).track.id ∧
      t.fields.discNumber = d := by
  refine ⟨rfl, ?_⟩
  have hsaved : ((ml.media.insert path).2.save (ml.media.insert path).1).rows.find?
      (fun r => decide (r.1 = ml.media.nextId)) = some (ml.media.nextId, path) := by
    simp only [EntityStore.save, EntityStore.insert, List.map_append, List.map_cons,
      List.map_nil, if_true]
    apply find_append_new
    · intro r hr
      obtain ⟨r0, hr0, rfl⟩ := List.mem_map.mp hr
      have := hm.1 r0 hr0
      by_cases hc : r0.1 = ml.media.nextId
      · omega
      · simp [hc]
    · simp
  have htrack : (ml.tracks.insert
        ⟨ml.media.nextId, ml.albums.nextId, trackNb, d, artistId, genreId⟩).2.rows.find?
        (fun r => decide (r.2.mediaId = ml.media.nextId)) =
      some (ml.tracks.nextId,
        ⟨ml.media.nextId, ml.albums.nextId, trackNb, d, artistId, genreId⟩) := by
    apply find_append_new
    · intro r hr
      have := hfk r hr
      simp only [decide_eq_false_iff_not]
      omega
    · simp
  refine ⟨⟨ml.media.nextHandle + 1, ml.media.nextId, path⟩,
    ⟨ml.tracks.nextHandle + 1, ml.tracks.nextId,
      ⟨ml.media.nextId, ml.albums.nextId, trackNb, d, artistId, genreId⟩⟩, ?_, rfl, ?_, rfl,
    rfl⟩
  · simp only [Library.mediaById, Library.reload, Library.withTrack, Library.createAlbum,
      Library.addFile, Library.addTrack, Library.saveMedia, EntityStore.fetch,
      EntityStore.reload, EntityStore.load, List.find?_nil] at hsaved ⊢
    simp only [EntityStore.insert] at hsaved ⊢
    rw [hsaved]
    rfl
  · simp only [Library.albumTrackOfMedia, Library.mediaById, Library.reload,
      Library.withTrack, Library.createAlbum, Library.addFile, Library.addTrack,
      Library.saveMedia, EntityStore.fetchBy, EntityStore.reload, EntityStore.load,
      List.find?_nil, EntityStore.insert] at htrack ⊢
    rw [htrack]

/-- C19 at the empty library and the values of the test `AlbumTracks.Create`: disc
number 10. -/
theorem disc_number_round_trip_witness :
    Library.empty.media.WellFormed ∧
    (∀ r ∈ Library.empty.tracks.rows, r.2.mediaId < Library.empty.media.nextId) ∧
    ∃ (m : Instance String) (t : Instance AlbumTrackFields),
      ((Library.empty.withTrack "album" "track1.mp3" 1 10 0 0).ml.reload.mediaById
          (Library.empty.withTrack "album" "track1.mp3" 1 10 0 0).media.id).1 = some m ∧
      m.id = (Library.empty.withTrack "album" "track1.mp3" 1 10 0 0).media.id ∧
      (((Library.empty.withTrack "album" "track1.mp3" 1 10 0 0).ml.reload.mediaById
          (Library.empty.withTrack "album" "track1.mp3" 1 10 0 0).media.id).2.albumTrackOfMedia
          m).1 = some t ∧
      t.id = (Library.empty.withTrack "album" "track1.mp3" 1 10 0 0).track.id ∧
      t.fields.discNumber = 10 :=
  ⟨⟨by decide, by decide, by decide⟩, by decide,
   (disc_number_round_trip Library.empty "album" "track1.mp3" 1 10 0 0
     ⟨by decide, by decide, by decide⟩ (by decide)).2⟩

/-! ### What the two listings return -/

theorem insertFolderRow_banned_roots (db : Db) (path : String) (parent : Option Nat)
    (isBlacklisted : Bool) (deviceId : Nat) (isRemovable : Bool)
    (hnew : isBlacklisted = true → parent = none)
    (h : ∀ r ∈ db.folders, r.isBlacklisted = true → r.parent = none) :
    ∀ r ∈ (insertFolderRow db path parent isBlacklisted deviceId isRemovable).2.folders,
      r.isBlacklisted = true → r.parent = none := by
  rcases insertFolderRow_fail_or_append db path parent isBlacklisted deviceId isRemovable with
    hf | ⟨hs, _, _⟩
  · rw [hf]; exact h
  · rw [hs]
    intro r hr hb
    simp only [List.mem_append, List.mem_singleton] at hr
    rcases hr with hr | rfl
    · exact h r hr hb
    · exact hnew hb

theorem setPresent_banned_roots (db : Db) (dev : Nat) (b : Bool)
    (h : ∀ r ∈ db.folders, r.isBlacklisted = true → r.parent = none) :
    ∀ r ∈ (Device.setPresent db dev b).folders, r.isBlacklisted = true → r.parent = none := by
  unfold Device.setPresent
  split
  · intro r hr hb
    obtain ⟨r0, hr0, rfl⟩ := (mem_isDevicePresentTrigger db.folders dev b r).mp hr
    by_cases hd : r0.deviceId = dev
    · simp only [hd, if_true] at hb ⊢
      exact h r0 hr0 hb
    · simp only [hd, if_false] at hb ⊢
      exact h r0 hr0 hb
  · exact h

theorem reachable_banned_roots (db : Db) (h : Reachable db) :
    ∀ r ∈ db.folders, r.isBlacklisted = true → r.parent = none := by
  induction h with
  | init => intro r hr; cases hr
  | deviceCreate uuid isRemovable _ ih => rw [deviceCreate_folders]; exact ih
  | setPresent deviceId present _ ih => exact setPresent_banned_roots _ deviceId present ih
  | folderCreate ml fullPath parentId device deviceFs _ ih =>
    rcases create_cases ml _ fullPath parentId device deviceFs with hc | hc
    · rw [hc]; exact ih
    · rw [hc]
      exact insertFolderRow_banned_roots _ _ _ _ _ _ (fun hb => by cases hb) ih
  | @blacklist db0 ml fullPath res db' _ hb ih =>
    rcases blacklist_ok_cases ml db0 db' fullPath res hb with rfl | ⟨fac, dir, dfs, device,
      dbc, _, _, _, _, hfound, _, hdb⟩
    · exact ih
    · rw [hdb]
      apply insertFolderRow_banned_roots _ _ _ _ _ _ (fun _ => rfl)
      have hfold : dbc.folders = (Folder.destroyFound db0
          (Folder.fromPath ml db0 fullPath BannedType.Any)).folders := by
        have := fromUuidOrCreate_folders (Folder.destroyFound db0
          (Folder.fromPath ml db0 fullPath BannedType.Any)) dfs
        rw [hfound] at this
        exact this
      rw [hfold]
      intro r hr
      exact ih r ((destroyFound_folders_sublist db0 _).subset hr)

/-- C21: `fetchRootFolders` returns exactly the folder rows with no parent that are
not banned and are present, and `folders()` of a folder exactly the rows whose parent
is that folder and that are not banned and present: a folder is in the result exactly
when it is loaded from such a row, and the ids of the result are the ids of those
rows, in table order, each row once. No row with `is_blacklisted = 1` is loaded into
either result; and in every state reachable through device creation, presence
updates, `Folder::create` and `Folder::blacklist`, every banned row has no parent. -/
theorem listings_return_live_present_rows (db : Db) (self : Folder) :
    (∀ f, f ∈ Folder.fetchRootFolders db ↔
      ∃ r ∈ db.folders, r.parent = none ∧ r.isBlacklisted = false ∧ r.isPresent = true ∧
        f = Folder.ofRow r) ∧
    (∀ f, f ∈ Folder.folders db self ↔
      ∃ r ∈ db.folders, r.parent = some self.m_id ∧ r.isBlacklisted = false ∧
        r.isPresent = true ∧ f = Folder.ofRow r) ∧
    (Folder.fetchRootFolders db).map (fun f => f.m_id) =
      (db.folders.filter (fun r => decide (r.parent = none ∧ r.isBlacklisted = false ∧
        r.isPresent = true))).map (fun r => r.id) ∧
    (Folder.folders db self).map (fun f => f.m_id) =
      (db.folders.filter (fun r => decide (r.parent = some self.m_id ∧
        r.isBlacklisted = false ∧ r.isPresent = true))).map (fun r => r.id) ∧
    (∀ f ∈ Folder.fetchRootFolders db ++ Folder.folders db self,
      f.m_isBlacklisted = false ∧ f.m_isPresent = true) ∧
    (Reachable db → ∀ r ∈ db.folders, r.isBlacklisted = true → r.parent = none) := by
  refine ⟨?_, ?_, ?_, ?_, ?_, reachable_banned_roots db⟩
  · intro f
    simp only [Folder.fetchRootFolders, List.mem_map, List.mem_filter, Bool.and_eq_true,
      decide_eq_true_eq, Bool.not_eq_true']
    constructor
    · rintro ⟨r, ⟨hr, ⟨hp, hb⟩, hpr⟩, rfl⟩
      exact ⟨r, hr, hp, hb, hpr, rfl⟩
    · rintro ⟨r, hr, hp, hb, hpr, rfl⟩
      exact ⟨r, ⟨hr, ⟨hp, hb⟩, hpr⟩, rfl⟩
  · intro f
    simp only [Folder.folders, List.mem_map, List.mem_filter, Bool.and_eq_true,
      decide_eq_true_eq, Bool.not_eq_true']
    constructor
    · rintro ⟨r, ⟨hr, ⟨hp, hb⟩, hpr⟩, rfl⟩
      exact ⟨r, hr, hp, hb, hpr, rfl⟩
    · rintro ⟨r, hr, hp, hb, hpr, rfl⟩
      exact ⟨r, ⟨hr, ⟨hp, hb⟩, hpr⟩, rfl⟩
  · simp only [Folder.fetchRootFolders, List.map_map]
    have hfun : (fun r : FolderRow => decide (r.parent = none) && !r.isBlacklisted &&
        r.isPresent) = (fun r => decide (r.parent = none ∧ r.isBlacklisted = false ∧
        r.isPresent = true)) := by
      funext r
      cases hb : r.isBlacklisted <;> cases hp : r.isPresent <;> simp
    rw [hfun]
    rfl
  · simp only [Folder.folders, List.map_map]
    have hfun : (fun r : FolderRow => decide (r.parent = some self.m_id) &&
        !r.isBlacklisted && r.isPresent) = (fun r => decide (r.parent = some self.m_id ∧
        r.isBlacklisted = false ∧ r.isPresent = true)) := by
      funext r
      cases hb : r.isBlacklisted <;> cases hp : r.isPresent <;> simp
    rw [hfun]
    rfl
  · intro f hf
    simp only [Folder.fetchRootFolders, Folder.folders, List.mem_append, List.mem_map,
      List.mem_filter, Bool.and_eq_true, decide_eq_true_eq, Bool.not_eq_true'] at hf
    rcases hf with ⟨r, ⟨_, ⟨_, hb⟩, hpr⟩, rfl⟩ | ⟨r, ⟨_, ⟨_, hb⟩, hpr⟩, rfl⟩
    · exact ⟨hb, hpr⟩
    · exact ⟨hb, hpr⟩

/-- C21 on two devices, each with a root folder and a subfolder, the removable one
with the ban record `private/` (row 5): the root folders are rows 1 and 3, the
children of row 1 are row 2, and every folder returned is live and present. -/
theorem listings_return_live_present_rows_witness :
    (Folder.fetchRootFolders Scenario.twoDevicesDb).map (fun f => f.m_id) = [1, 3] ∧
    (Folder.folders Scenario.twoDevicesDb
      (Folder.ofRow ⟨1, "/music", none, false, 1, true, false⟩)).map (fun f => f.m_id) = [2] ∧
    Folder.ofRow ⟨2, "/music/rock", some 1, false, 1, true, false⟩ ∈
      Folder.fetchRootFolders Scenario.twoDevicesDb ++ Folder.folders Scenario.twoDevicesDb
        (Folder.ofRow ⟨1, "/music", none, false, 1, true, false⟩) ∧
    (Folder.ofRow ⟨2, "/music/rock", some 1, false, 1, true, false⟩).m_isBlacklisted = false ∧
    (Folder.ofRow ⟨2, "/music/rock", some 1, false, 1, true, false⟩).m_isPresent = true :=
  ⟨by decide, by decide, by decide,
   (listings_return_live_present_rows Scenario.twoDevicesDb
      (Folder.ofRow ⟨1, "/music", none, false, 1, true, false⟩)).2.2.2.2.1
      (Folder.ofRow ⟨2, "/music/rock", some 1, false, 1, true, false⟩) (by decide)⟩

/-! ### A lookup on a device that is not registered -/

theorem fromUuid_none_of_no_record (db : Db) (uuid : String)
    (h : ∀ d ∈ db.devices, d.uuid ≠ uuid) : Device.fromUuid db uuid = none := by
  unfold Device.fromUuid
  rw [List.find?_eq_none]
  intro d hd
  simpa using h d hd

/-- C22: a folder on an unknown device is unknown. When the directory of `fullPath`
lies on a removable device and no device row has the uuid of that device,
`Folder::fromPath` returns null for each of the three filters `Any`, `Yes`
(banned only) and `No` (live only). The lookup only reads: it leaves the database as
it is, so the same holds in the same database after any number of lookups. -/
theorem fromPath_unknown_device (ml : MediaLibrary) (db : Db) (fullPath : String)
    (fac : FsFactory) (dir : FsDirectory) (dfs : FsDevice) (bannedType : BannedType)
    (hfac : ml.fsFactoryForPath fullPath = some fac)
    (hdir : fac.createDirectory fullPath = some dir)
    (hdev : dir.device = some dfs) (hrem : dfs.isRemovable = true)
    (hnone : ∀ d ∈ db.devices, d.uuid ≠ dfs.uuid) :
    Folder.fromPath ml db fullPath bannedType = none ∧
    Folder.fromPath ml db fullPath BannedType.Any = none ∧
    Folder.fromPath ml db fullPath BannedType.Yes = none ∧
    Folder.fromPath ml db fullPath BannedType.No = none := by
  have key : ∀ b, Folder.fromPath ml db fullPath b = none := by
    intro b
    simp [Folder.fromPath, hfac, hdir, hdev, hrem,
      fromUuid_none_of_no_record db dfs.uuid hnone]
  exact ⟨key _, key _, key _, key _⟩

/-- C22 on the database that holds the fixed disk only: the directory
`/mnt/usb/music/` lies on the removable device `usb-1`, which has no device row, and
the live-only lookup returns null while a folder is stored under the relative path
`music/`. -/
theorem fromPath_unknown_device_witness :
    (∀ d ∈ Scenario.unknownUsbDb.devices, d.uuid ≠ (Scenario.usb "/mnt/usb/").uuid) ∧
    Folder.fromPath (Scenario.usbLibrary "/mnt/usb/") Scenario.unknownUsbDb "/mnt/usb/music/"
      BannedType.No = none :=
  ⟨by decide,
   (fromPath_unknown_device (Scenario.usbLibrary "/mnt/usb/") Scenario.unknownUsbDb
      "/mnt/usb/music/" (Scenario.usbFactory "/mnt/usb/")
      ⟨"/mnt/usb/music/", some (Scenario.usb "/mnt/usb/")⟩ (Scenario.usb "/mnt/usb/")
      BannedType.No rfl rfl rfl rfl (by decide)).1⟩

/-! ### Creation followed by a lookup -/

theorem lastModificationDateRepeat_cached (self : fs.File)
    (hc : self.m_lastModificationDate ≠ 0) (later : List fs.Win32) :
    self.lastModificationDateRepeat later =
      (List.replicate later.length (.ok self.m_lastModificationDate), [], self) := by
  induction later with
  | nil => rfl
  | cons os rest ih =>
    have h1 : self.lastModificationDate os = ⟨.ok self.m_lastModificationDate, self, []⟩ := by
      simp [fs.File.lastModificationDate, hc]
    simp only [fs.File.lastModificationDateRepeat, h1, ih, List.length_cons,
      List.replicate_succ, List.nil_append]

/-- C24: `File::lastModificationDate` caches after the first successful read. For a
file with no date cached: when `_stat` succeeds with an `st_mtime` that is not zero
modulo 2^32, the call returns `st_mtime` modulo 2^32 after one `_stat`, and every
later call, whatever the system then reports, returns that value and calls `_stat`
no more; when `_stat` fails, the call throws the system error and the cached value
stays 0. -/
theorem lastModificationDate_cached_after_first_read (os : fs.Win32) (self : fs.File)
    (hunset : self.m_lastModificationDate = 0) :
    (∀ mtime : Int, os.stat self.m_fullPath = some mtime → mtime % 4294967296 ≠ 0 →
      (self.lastModificationDate os).result = .ok (mtime % 4294967296).toNat ∧
      ((mtime % 4294967296).toNat : Int) = mtime % 4294967296 ∧
      (self.lastModificationDate os).statCalls = [self.m_fullPath] ∧
      ∀ later : List fs.Win32,
        self.lastModificationDateRepeat (os :: later) =
          (List.replicate (later.length + 1) (.ok (mtime % 4294967296).toNat),
           [self.m_fullPath],
           { self with m_lastModificationDate := (mtime % 4294967296).toNat })) ∧
    (os.stat self.m_fullPath = none →
      (self.lastModificationDate os).result =
        .error ⟨os.getLastError, "Failed to get stats"⟩ ∧
      (self.lastModificationDate os).self = self ∧
      (self.lastModificationDate os).self.m_lastModificationDate = 0) := by
  constructor
  · intro mtime hstat hne
    have hnn : 0 ≤ mtime % 4294967296 := Int.emod_nonneg _ (by decide)
    have hcast : ((mtime % 4294967296).toNat : Int) = mtime % 4294967296 :=
      Int.toNat_of_nonneg hnn
    have hpos : (mtime % 4294967296).toNat ≠ 0 := by
      intro h0
      rw [h0] at hcast
      exact hne hcast.symm
    have h1 : self.lastModificationDate os = ⟨.ok (mtime % 4294967296).toNat,
        { self with m_lastModificationDate := (mtime % 4294967296).toNat },
        [self.m_fullPath]⟩ := by
      simp [fs.File.lastModificationDate, hunset, hstat, fs.toUnsignedInt]
    refine ⟨by rw [h1], hcast, by rw [h1], ?_⟩
    intro later
    have h2 := lastModificationDateRepeat_cached
      { self with m_lastModificationDate := (mtime % 4294967296).toNat } hpos later
    simp only [fs.File.lastModificationDateRepeat, h1, h2, List.replicate_succ,
      List.append_nil]
  · intro hstat
    have h1 : self.lastModificationDate os =
        ⟨.error ⟨os.getLastError, "Failed to get stats"⟩, self, [self.m_fullPath]⟩ := by
      simp [fs.File.lastModificationDate, hunset, hstat]
    rw [h1]
    exact ⟨rfl, rfl, hunset⟩

/-- C24 on a file last modified at 2^32 + 1500000000: the first call returns
1500000000; a second call, made when `_stat` would fail, and a third, made when the
file has been modified again, return 1500000000 as well, and `_stat` was called
once. -/
theorem lastModificationDate_cached_after_first_read_witness :
    Scenario.track.m_lastModificationDate = 0 ∧
    Scenario.track.lastModificationDateRepeat
        [Scenario.modifiedAt 5794967296, Scenario.statFails, Scenario.modifiedAt 1600000000] =
      ([.ok 1500000000, .ok 1500000000, .ok 1500000000], ["C:/music/a.mp3"],
       ⟨"C:/music/a.mp3", 1500000000⟩) :=
  ⟨rfl,
   ((lastModificationDate_cached_after_first_read (Scenario.modifiedAt 5794967296)
      Scenario.track rfl).1 5794967296 rfl (by decide)).2.2.2
      [Scenario.statFails, Scenario.modifiedAt 1600000000]⟩

end medialibrary
